import Mathlib

/-!
# Expense report service: the authorization gate

A shallow embedding of the Go sources `permissions.go`, `auth.go`, `middleware.go`,
`main.go` (the route table) and `handlers.go` (`GetReceipt`), followed by theorems about
permission resolution, bearer-token verification and the receipt ownership rule.

Conventions of the embedding:
* `int64` values are `Int`; SQLite `INTEGER` columns are `Int` as well.
* A table is the list of its rows, in storage order.
* `*sql.DB` is a `DB`: the rows of every table plus a flag telling whether the driver
  answers statements with an error (connection lost, file locked, ...).
* Go functions returning `(T, error)` return `Except String T`.
-/

set_option autoImplicit false

namespace ExpenseApp

deriving instance DecidableEq for Except

/-! ## Data model (`models.go`) -/

/-- Row of table `users`. -/
structure User where
  id : Int
  email : String
  passwordHash : String
  createdAt : Int
  deriving DecidableEq, Repr

/-- Row of table `groups`. -/
structure Group where
  id : Int
  name : String
  deriving DecidableEq, Repr

/-- Row of table `permissions`. -/
structure Permission where
  id : Int
  action : String
  deriving DecidableEq, Repr

/-- Row of table `user_groups`. -/
structure UserGroup where
  userID : Int
  groupID : Int
  deriving DecidableEq, Repr

/-- Row of table `group_permissions`. -/
structure GroupPermission where
  groupID : Int
  permissionID : Int
  deriving DecidableEq, Repr

/-- Row of table `expense_reports`. -/
structure ExpenseReport where
  id : Int
  userID : Int
  title : String
  status : String
  createdAt : Int
  deriving DecidableEq, Repr

/-- A value of the Go type `float64`: a finite number, kept as the rational number it
is (the sign of a zero is not kept), an infinity, or a NaN. -/
inductive Float64 where
  | finite (q : ℚ)
  | inf (negative : Bool)
  | nan
  deriving DecidableEq, Repr

/-- A numeral as a `float64`: the tables of the sample data hold whole amounts. -/
instance (n : Nat) : OfNat Float64 n := ⟨.finite n⟩

/-- A finite `float64` given by the rational number it is. -/
instance : Coe ℚ Float64 := ⟨.finite⟩

/-- Row of table `expense_items`; `receiptPath` is the only nullable column.  The amount
before tax and the rate are the finite `float64` values that the JSON decoder accepts;
the amount with tax is computed in `float64` and can be an infinity. -/
structure ExpenseItem where
  id : Int
  reportID : Int
  description : String
  expenseDate : String
  amountHT : ℚ
  amountTTC : Float64
  vatRate : ℚ
  receiptPath : Option String
  createdAt : Int
  deriving DecidableEq, Repr

/-- Row of table `api_tokens`, which `GenerateAPIToken` creates on first use. -/
structure ApiToken where
  userID : Int
  token : String
  createdAt : Int
  deriving DecidableEq, Repr

/-- The contents of the SQLite database created by `InitDB`.  `sequence` is the table
`sqlite_sequence`, where SQLite keeps for every `AUTOINCREMENT` table the largest row id
it has handed out. -/
structure Store where
  users : List User
  groups : List Group
  permissions : List Permission
  userGroups : List UserGroup
  groupPermissions : List GroupPermission
  reports : List ExpenseReport
  items : List ExpenseItem
  apiTokens : List ApiToken
  sequence : List (String × Int)
  deriving DecidableEq, Repr

/-- The handle `*sql.DB`: the stored rows, and whether the driver currently fails. -/
structure DB where
  store : Store
  failing : Bool
  deriving DecidableEq, Repr

/-- The error text the driver gives for a statement it could not run. -/
def driverError : String := "database is unavailable"

/-- Model of `db.Query`: the rows selected by `q`, or the driver error. -/
def DB.Query {α : Type} (db : DB) (q : Store → List α) : Except String (List α) :=
  if db.failing then .error driverError else .ok (q db.store)

/-- Model of `db.QueryRow(...).Scan(...)`: the first selected row, `none` for
`sql.ErrNoRows`, or the driver error. -/
def DB.QueryRow {α : Type} (db : DB) (q : Store → List α) : Except String (Option α) :=
  if db.failing then .error driverError else .ok (q db.store).head?

/-! ## Permissions (`permissions.go`) -/

def PermReportsCreate : String := "reports:create"
def PermReportsUpdateOwn : String := "reports:update:own"
def PermReportsReadOwn : String := "reports:read:own"
def PermReportsReadAll : String := "reports:read:all"
def PermReportsApprove : String := "reports:approve"
def PermReportsReject : String := "reports:reject"
def PermUsersRead : String := "users:read"
def PermUsersCreate : String := "users:create"
def PermGroupsRead : String := "groups:read"
def PermGroupsCreate : String := "groups:create"
def PermPermissionsAssign : String := "permissions:assign"
def PermTokensCreate : String := "tokens:create"
def PermReportsExportAll : String := "reports:export:all"

/-- A Go `map[string]T`, as an association list with one entry per key. -/
abbrev GoMap (β : Type) := List (String × β)

/-- Assignment `m[k] = v`: any previous entry for `k` is replaced. -/
def GoMap.set {β : Type} (m : GoMap β) (k : String) (v : β) : GoMap β :=
  (k, v) :: m.filter (fun e => e.1 != k)

/-- Two-result index expression `v, ok := m[k]`. -/
def GoMap.lookup {β : Type} (m : GoMap β) (k : String) : Option β :=
  (m.find? (fun e => e.1 == k)).map (fun e => e.2)

/-- Index expression `m[k]` on a `map[string]bool`: the zero value `false` when `k` is
absent. -/
def GoMap.get (m : GoMap Bool) (k : String) : Bool :=
  (m.lookup k).getD false

/-- The rows of
`SELECT p.action FROM permissions p
   JOIN group_permissions gp ON gp.permission_id = p.id
   JOIN user_groups ug ON ug.group_id = gp.group_id
 WHERE ug.user_id = ?`. -/
def userPermissionsQuery (userID : Int) (s : Store) : List String :=
  s.permissions.flatMap fun p =>
    (s.groupPermissions.filter fun gp => gp.permissionID = p.id).flatMap fun gp =>
      ((s.userGroups.filter fun ug => ug.groupID = gp.groupID).filter
        fun ug => ug.userID = userID).map fun _ => p.action

/-- Source `GetUserPermissions`: runs the query and collects the actions in a map.
Scanning a `TEXT NOT NULL` column into a string cannot fail, so the only error is the
one of `db.Query`. -/
def GetUserPermissions (db : DB) (userID : Int) : Except String (GoMap Bool) :=
  match db.Query (userPermissionsQuery userID) with
  | .error err => .error ("query user permissions: " ++ err)
  | .ok rows => .ok (rows.foldl (fun perms action => perms.set action true) [])

/-- Source `UserHasPermission`. -/
def UserHasPermission (db : DB) (userID : Int) (action : String) : Except String Bool :=
  match GetUserPermissions db userID with
  | .error err => .error err
  | .ok perms => .ok (perms.get action)

/-! ## JSON numbers and `float64`

`encoding/json` decodes every number of a JSON document read into `interface{}` as a
`float64`.  The tokens of this service carry integer literals only (`sub`, `exp`), so a
JSON number is an `Int` here and a `float64` is represented by the integer it holds. -/

/-- Number of binary digits of `m`, computed with `fuel` halvings. -/
def bitLength : Nat → Nat → Nat
  | 0, _ => 0
  | fuel + 1, m => if m = 0 then 0 else bitLength fuel (m / 2) + 1

/-- The magnitude `m` with its `shift` lowest binary digits rounded away: the nearest
multiple of `2 ^ shift`, the one with an even quotient when two are equally near. -/
def roundToEven (m shift : Nat) : Nat :=
  let q := m / 2 ^ shift
  let r := m % 2 ^ shift
  let half := 2 ^ (shift - 1)
  (if half < r ∨ (r = half ∧ q % 2 = 1) then q + 1 else q) * 2 ^ shift

/-- The `float64` nearest to the integer `n` (IEEE 754 binary64, round to nearest, ties
to even): 53 significant bits are kept.  `none` when the rounded magnitude has more than
1024 binary digits, that is, exceeds the largest finite `float64`: there
`strconv.ParseFloat` reports a range error. -/
def float64OfInt (n : Int) : Option Int :=
  let m := n.natAbs
  let bits := bitLength m m
  if bits ≤ 53 then some n
  else
    let v := roundToEven m (bits - 53)
    if 1024 < bitLength v v then none else some (n.sign * v)

/-- Conversion `int64(f)` of a `float64` holding the integer `f`.  Outside the `int64`
range the Go specification leaves the result to the implementation; the value given is
the one of amd64. -/
def int64OfFloat64 (f : Int) : Int :=
  if -(2 : Int) ^ 63 ≤ f ∧ f < (2 : Int) ^ 63 then f else -(2 : Int) ^ 63

/-- A JSON value as written in a token segment. -/
inductive JSONValue where
  | null
  | bool (b : Bool)
  | number (n : Int)
  | string (s : String)
  | composite
  deriving DecidableEq, Repr

/-- A Go value held in an `interface{}`: what `encoding/json` decodes a JSON value to,
what a handler stores in the request context, or what it puts into a response.
`float64` holds a whole number, `real` any finite `float64`, `inf` and `nan` the
`float64` values that are not finite. -/
inductive Any where
  | nil
  | bool (b : Bool)
  | float64 (f : Int)
  | string (s : String)
  | composite
  | int64 (n : Int)
  | real (q : ℚ)
  | inf (negative : Bool)
  | nan
  deriving DecidableEq, Repr

/-- A `float64` as an `interface{}`. -/
def Float64.toAny : Float64 → Any
  | .finite q => .real q
  | .inf negative => .inf negative
  | .nan => .nan

/-- Whether `encoding/json` encodes the value: an infinity or a NaN is refused with an
`UnsupportedValueError`. -/
def Any.encodable : Any → Bool
  | .inf _ => false
  | .nan => false
  | _ => true

/-- Decoding of one JSON value into `interface{}`. -/
def decodeValue : JSONValue → Option Any
  | .null => some .nil
  | .bool b => some (.bool b)
  | .number n => (float64OfInt n).map Any.float64
  | .string s => some (.string s)
  | .composite => some .composite

/-- Decoding of a JSON object into `map[string]interface{}`; a repeated member replaces
the earlier one, a number out of the `float64` range makes the decoding fail. -/
def decodeObject : List (String × JSONValue) → Option (GoMap Any)
  | [] => some []
  | (k, v) :: rest =>
    match decodeValue v, decodeObject rest with
    | some a, some m => some (if (m.lookup k).isSome then m else m.set k a)
    | _, _ => none

/-! ## Bearer tokens (`github.com/golang-jwt/jwt/v5`, `auth.go`)

A compact token `header.payload.signature` is kept in decoded form.  The MAC is symbolic:
a signature is either the HMAC tag of a key over the first two segments, or some other
byte string. -/

/-- Hash function of an HMAC, RSA or ECDSA signing method. -/
inductive Hash where
  | sha256
  | sha384
  | sha512
  deriving DecidableEq, Repr

/-- The third segment of a token. -/
inductive Signature where
  | hmac (hash : Hash) (key : String) (header payload : List (String × JSONValue))
  | bytes (b : List Nat)
  deriving DecidableEq, Repr

/-- A token whose three segments decode as base64url and whose first two are JSON
objects. -/
structure Token where
  header : List (String × JSONValue)
  payload : List (String × JSONValue)
  signature : Signature
  deriving DecidableEq, Repr

/-- The text handed to `jwt.Parse`. -/
inductive TokenString where
  | malformed (text : String)
  | compact (t : Token)
  deriving DecidableEq, Repr

/-- The signing methods registered by the library. -/
inductive SigningMethod where
  | HMAC (hash : Hash)
  | RSA (hash : Hash)
  | RSAPSS (hash : Hash)
  | ECDSA (hash : Hash)
  | Ed25519
  | none
  deriving DecidableEq, Repr

/-- The library registry `signingMethods`, filled by `RegisterSigningMethod` when the
package is initialised. -/
def signingMethods : GoMap SigningMethod :=
  [("HS256", .HMAC .sha256), ("HS384", .HMAC .sha384), ("HS512", .HMAC .sha512),
   ("RS256", .RSA .sha256), ("RS384", .RSA .sha384), ("RS512", .RSA .sha512),
   ("PS256", .RSAPSS .sha256), ("PS384", .RSAPSS .sha384), ("PS512", .RSAPSS .sha512),
   ("ES256", .ECDSA .sha256), ("ES384", .ECDSA .sha384), ("ES512", .ECDSA .sha512),
   ("EdDSA", .Ed25519), ("none", .none)]

/-- Library `jwt.GetSigningMethod`. -/
def GetSigningMethod (alg : String) : Option SigningMethod :=
  signingMethods.lookup alg

/-- The claims value of a parsed token: `jwt.Parse` always builds a `jwt.MapClaims`. -/
inductive Claims where
  | MapClaims (m : GoMap Any)
  | RegisteredClaims
  deriving DecidableEq, Repr

/-- The error kinds of `jwt.Parse`. -/
inductive JWTError where
  | ErrTokenMalformed
  | ErrTokenUnverifiable
  | ErrTokenSignatureInvalid
  | ErrTokenInvalidClaims
  deriving DecidableEq, Repr

/-- One second, in the nanoseconds of `time.Duration`. -/
def Second : Int := 1000000000

/-- One hour (`time.Hour`). -/
def Hour : Int := 3600 * Second

/-- The instant, in nanoseconds since the Unix epoch, of a `NumericDate` decoded from the
`float64` number of seconds `f`.  `time.Unix(int64(f), 0)` keeps the seconds since the
year 1 in an `int64`: the sum of the seconds and the 62135596800 seconds between the
year 1 and the Unix epoch wraps around when it passes the largest `int64`, and the
instant is then one of the far past. -/
def numericDate (f : Int) : Int :=
  let internal := int64OfFloat64 f + 62135596800
  ((if 9223372036854775808 ≤ internal then internal - 18446744073709551616
    else internal) - 62135596800) * Second

/-- Library `Validator.verifyExpiresAt`, `exp` not required: an absent or zero `exp` is
accepted, a number must lie after `now`, any other value is an error. -/
def verifyExpiresAt (m : GoMap Any) (now : Int) : Bool :=
  match m.lookup "exp" with
  | Option.none => true
  | some (.float64 f) => if f = 0 then true else decide (now < numericDate f)
  | some _ => false

/-- Library `Validator.verifyNotBefore`: an absent or zero `nbf` is accepted, a number
must not lie after `now`, any other value is an error. -/
def verifyNotBefore (m : GoMap Any) (now : Int) : Bool :=
  match m.lookup "nbf" with
  | Option.none => true
  | some (.float64 f) => if f = 0 then true else !decide (now < numericDate f)
  | some _ => false

/-- The key function that `AuthMiddleware` passes to `jwt.Parse`: any method that is not
an HMAC is refused, an HMAC gets the service secret as key. -/
def keyFunc (jwtSecret : String) (method : SigningMethod) : Except JWTError String :=
  match method with
  | .HMAC _ => .ok jwtSecret
  | _ => .error .ErrTokenMalformed

/-- Library `SigningMethodHMAC.Verify`: the signature must be the tag of `key` over the
signing input. -/
def verifyHMAC (hash : Hash) (key : String) (t : Token) : Bool :=
  t.signature = Signature.hmac hash key t.header t.payload

/-- Library `jwt.Parse(tokenString, keyFunc)` with the default parser options, at time
`now`: segment decoding, signing method lookup, key function, signature verification,
then validation of `exp` and `nbf`.  The result is the claims of a token with
`Valid = true`, or the error. -/
def jwtParse (jwtSecret : String) (now : Int) (tokenString : TokenString) :
    Except JWTError Claims :=
  match tokenString with
  | .malformed _ => .error .ErrTokenMalformed
  | .compact t =>
    match decodeObject t.header, decodeObject t.payload with
    | some header, some claims =>
      match header.lookup "alg" with
      | some (.string alg) =>
        match GetSigningMethod alg with
        | Option.none => .error .ErrTokenUnverifiable
        | some method =>
          match keyFunc jwtSecret method with
          | .error _ => .error .ErrTokenUnverifiable
          | .ok key =>
            match method with
            | .HMAC hash =>
              if verifyHMAC hash key t then
                if verifyExpiresAt claims now && verifyNotBefore claims now then
                  .ok (.MapClaims claims)
                else .error .ErrTokenInvalidClaims
              else .error .ErrTokenSignatureInvalid
            | _ => .error .ErrTokenSignatureInvalid
      | _ => .error .ErrTokenUnverifiable
    | _, _ => .error .ErrTokenMalformed

/-- Source `jwtSecret`: the value of the environment variable `JWT_SECRET` (empty when
unset), or the literal default. -/
def jwtSecret (JWT_SECRET : String) : String :=
  if JWT_SECRET ≠ "" then JWT_SECRET else "secret"

/-- Source `generateJWT`, called at time `now` (nanoseconds since the epoch) with the
signing secret `secret`: claims `sub` and `exp`, method HS256.  `Time.Unix` rounds down to
whole seconds; `json.Marshal` writes the members of a map in key order. -/
def generateJWT (secret : String) (now : Int) (userID : Int) : Except String TokenString :=
  let claims : List (String × JSONValue) :=
    [("exp", .number ((now + 24 * Hour) / Second)), ("sub", .number userID)]
  let header : List (String × JSONValue) := [("alg", .string "HS256"), ("typ", .string "JWT")]
  .ok (.compact
    { header := header, payload := claims,
      signature := Signature.hmac .sha256 secret header claims })

/-! ## Requests, responses and the handler chain (`github.com/gin-gonic/gin`) -/

/-- The `Authorization` header, cut where `AuthMiddleware` slices it: `lead` is the part
before byte `len("Bearer ")` (the whole header when it is shorter, empty when the header
is absent), `credentials` is the rest with surrounding white space trimmed, as the text
that `jwt.Parse` receives. -/
structure Authorization where
  lead : String
  credentials : TokenString
  deriving DecidableEq, Repr

/-- Source `LoginRequest`. -/
structure LoginRequest where
  Email : String
  Password : String
  deriving DecidableEq, Repr

/-- Source `CreateReportRequest`. -/
structure CreateReportRequest where
  Title : String
  deriving DecidableEq, Repr

/-- Source `AddItemRequest`; the amounts are the finite `float64` values the JSON numbers
decode to (the decoder refuses a number beyond the range of `float64`). -/
structure AddItemRequest where
  Description : String
  ExpenseDate : String
  AmountHT : ℚ
  VATRate : ℚ
  deriving DecidableEq, Repr

/-- Source `CreateUserRequest`. -/
structure CreateUserRequest where
  Email : String
  Password : String
  Groups : List Int
  deriving DecidableEq, Repr

/-- Source `CreateGroupRequest`. -/
structure CreateGroupRequest where
  Name : String
  deriving DecidableEq, Repr

/-- Source `AssignPermissionsRequest`. -/
structure AssignPermissionsRequest where
  PermissionIDs : List Int
  deriving DecidableEq, Repr

/-- The body of a request as `c.ShouldBindJSON` decodes it into the request type of the
handler that receives it; `invalid` when the binding returns an error (no body, text
that is not JSON, a member of the wrong type). -/
inductive Body where
  | invalid
  | login (req : LoginRequest)
  | createReport (req : CreateReportRequest)
  | addItem (req : AddItemRequest)
  | createUser (req : CreateUserRequest)
  | createGroup (req : CreateGroupRequest)
  | assignPermissions (req : AssignPermissionsRequest)
  deriving DecidableEq, Repr

/-- The parts of an HTTP request that the service reads: two headers, the path
parameters, the JSON body, and the name of the multipart file `file` when the request
carries one. -/
structure Request where
  apiKey : String
  authorization : Authorization
  params : GoMap String
  body : Body
  file : Option String
  deriving DecidableEq, Repr

/-- What a handler writes to the client: an error object, a file, the bare 500 of the
recovery middleware, a `gin.H` object, a bare status (a status with an empty body), the
collection a listing or export handler hands to its encoder (kept as the rows it was
built from; the encoding as JSON, CSV or YAML is left out, and with it the refusal of
the JSON encoder to write a row whose amount is an infinity), or the answer of
`Login`. -/
inductive Response where
  | errorJSON (status : Nat) (error : String)
  | fileAttachment (filepath : List String) (filename : String)
  | recovered
  | object (status : Nat) (members : List (String × Any))
  | noContent (status : Nat)
  | rows (status : Nat) (rows : List (List Any))
  | token (status : Nat) (token : TokenString) (id : Int) (email : String)
  deriving DecidableEq, Repr

/-- The status code of a response, where the handler fixes it. -/
def Response.status : Response → Option Nat
  | .errorJSON status _ => some status
  | .fileAttachment _ _ => Option.none
  | .recovered => some 500
  | .object status _ => some status
  | .noContent status => some status
  | .rows status _ => some status
  | .token status _ _ _ => some status

/-- The `*gin.Context` of one request. -/
structure Context where
  request : Request
  keys : GoMap Any
  response : Option Response
  aborted : Bool
  deriving DecidableEq, Repr

/-- The context gin creates for an incoming request. -/
def Context.new (r : Request) : Context :=
  { request := r, keys := [], response := Option.none, aborted := false }

/-- Library `c.AbortWithStatusJSON(status, body)`, the body being a `gin.H` with the
single member `error`. -/
def Context.AbortWithStatusJSON (c : Context) (status : Nat) (msg : String) : Context :=
  { c with response := some (.errorJSON status msg), aborted := true }

/-- Library `c.JSON(status, body)`, the body being a `gin.H` with the single member
`error`. -/
def Context.JSON (c : Context) (status : Nat) (msg : String) : Context :=
  { c with response := some (.errorJSON status msg) }

/-- Library `c.FileAttachment(filepath, filename)`. -/
def Context.FileAttachment (c : Context) (filepath : List String) (filename : String) :
    Context :=
  { c with response := some (.fileAttachment filepath filename) }

/-- The `Recovery` middleware of `gin.Default()` after a handler panicked. -/
def Context.recover (c : Context) : Context :=
  { c with response := some .recovered, aborted := true }

/-- Library `c.Set(key, value)`. -/
def Context.Set (c : Context) (key : String) (value : Any) : Context :=
  { c with keys := c.keys.set key value }

/-- Library `c.Get(key)`. -/
def Context.Get (c : Context) (key : String) : Option Any :=
  c.keys.lookup key

/-- Library `c.Param(key)`: the empty string when the route has no such parameter. -/
def Context.Param (c : Context) (key : String) : String :=
  (c.request.params.lookup key).getD ""

/-- A `gin.HandlerFunc`, with the database it closes over passed explicitly. -/
abbrev HandlerFunc := Context → DB → Context × DB

/-- The handlers of a route run in order; `c.Next()` at the end of a middleware hands
over to the following one, an aborted context stops the chain. -/
def runChain : List HandlerFunc → Context → DB → Context × DB
  | [], c, db => (c, db)
  | h :: rest, c, db =>
    let r := h c db
    if r.1.aborted then r else runChain rest r.1 r.2

/-! ## Middleware (`middleware.go`) -/

def ContextUserIDKey : String := "userID"

/-- Source test `strings.HasPrefix(strings.ToLower(auth), "bearer ")`. -/
def hasBearerPrefix (auth : Authorization) : Bool :=
  ("bearer ".data).isPrefixOf (auth.lead.data.map Char.toLower)

/-- Source `AuthMiddleware`, for the signing secret `secret`, run at time `now`. -/
def AuthMiddleware (secret : String) (now : Int) : HandlerFunc := fun c db =>
  if c.request.apiKey ≠ "" then
    (c.AbortWithStatusJSON 401 "API keys not supported", db)
  else if !hasBearerPrefix c.request.authorization then
    (c.AbortWithStatusJSON 401 "missing or invalid Authorization header", db)
  else
    match jwtParse secret now c.request.authorization.credentials with
    | .error _ => (c.AbortWithStatusJSON 401 "invalid token", db)
    | .ok claims =>
      match claims with
      | .MapClaims m =>
        match m.lookup "sub" with
        | some (.float64 sub) => (c.Set ContextUserIDKey (.int64 (int64OfFloat64 sub)), db)
        | _ => (c.AbortWithStatusJSON 401 "invalid token subject", db)
      | _ => (c.AbortWithStatusJSON 401 "invalid token claims", db)

/-- Source `RequirePermission`. -/
def RequirePermission (permission : String) : HandlerFunc := fun c db =>
  match c.Get ContextUserIDKey with
  | Option.none => (c.AbortWithStatusJSON 401 "unauthenticated", db)
  | some userIDIfc =>
    let userID : Int := match userIDIfc with
      | .int64 n => n
      | _ => 0
    match UserHasPermission db userID permission with
    | .error _ => (c.AbortWithStatusJSON 500 "failed to check permissions", db)
    | .ok has =>
      if !has then (c.AbortWithStatusJSON 403 "forbidden", db)
      else (c, db)

/-! ## Receipt download (`handlers.go`, `main.go`) -/

/-- The value of a string of decimal digits; `none` when the string is empty or holds
another character. -/
def parseDigits : List Char → Option Nat
  | [] => Option.none
  | cs => cs.foldl
      (fun acc c =>
        match acc with
        | some n => if c.isDigit then some (10 * n + (c.toNat - 48)) else Option.none
        | Option.none => Option.none)
      (some 0)

/-- Library `strconv.ParseInt(s, 10, 64)`, `none` standing for a non-nil error: an
optional sign, at least one decimal digit, and a value in the `int64` range. -/
def ParseInt (s : String) : Option Int :=
  match s.data with
  | [] => Option.none
  | '-' :: ds =>
    match parseDigits ds with
    | some n => if n ≤ 2 ^ 63 then some (-(n : Int)) else Option.none
    | Option.none => Option.none
  | '+' :: ds =>
    match parseDigits ds with
    | some n => if n < 2 ^ 63 then some (n : Int) else Option.none
    | Option.none => Option.none
  | ds =>
    match parseDigits ds with
    | some n => if n < 2 ^ 63 then some (n : Int) else Option.none
    | Option.none => Option.none

/-- The rows of
`SELECT er.user_id, ei.receipt_path FROM expense_items ei
   JOIN expense_reports er ON er.id = ei.report_id
 WHERE ei.id = ?`. -/
def receiptQuery (itemID : Int) (s : Store) : List (Int × Option String) :=
  (s.items.filter fun ei => ei.id = itemID).flatMap fun ei =>
    (s.reports.filter fun er => er.id = ei.reportID).map fun er =>
      (er.userID, ei.receiptPath)

/-- Source `Handlers.GetReceipt`, for the data directory `datadir`.  The path given to
`filepath.Join` is kept as the list of its elements. -/
def GetReceipt (datadir : String) : HandlerFunc := fun c db =>
  match ParseInt (c.Param "id") with
  | Option.none => (c.JSON 400 "invalid item id", db)
  | some itemID =>
    match db.QueryRow (receiptQuery itemID) with
    | .error _ => (c.JSON 500 "database error", db)
    | .ok Option.none => (c.JSON 404 "item not found", db)
    | .ok (some (ownerID, receiptName)) =>
      match receiptName with
      | Option.none => (c.JSON 404 "receipt not uploaded", db)
      | some name =>
        match c.Get ContextUserIDKey with
        | some (.int64 userID) =>
          let filePath := [datadir, toString ownerID, "receipts", name]
          if ownerID ≠ userID then
            match UserHasPermission db userID PermReportsReadAll with
            | .error _ => (c.JSON 500 "permission check failed", db)
            | .ok hasAll =>
              if !hasAll then (c.JSON 403 "forbidden", db)
              else (c.FileAttachment filePath name, db)
          else (c.FileAttachment filePath name, db)
        | _ => (c.recover, db)

/-- The handlers of `GET /api/items/:id/receipt` as registered in `main`: the group
middleware, the permission guard of the route, the handler. -/
def getReceiptRoute (secret : String) (now : Int) (datadir : String) : List HandlerFunc :=
  [AuthMiddleware secret now, RequirePermission PermReportsReadOwn, GetReceipt datadir]

/-! ## SQL statements (`database/sql`, SQLite)

A statement is a function from the stored rows to the new rows and the result of
`db.Exec`, or to the error of the constraint it violates, in which case nothing is
written.

`main` opens the database with `sql.Open("sqlite3", dbPath)`, a pool of connections, and
`InitDB` runs `PRAGMA foreign_keys = ON` once, on the connection the pool hands out for
it.  In SQLite the pragma holds for the connection that ran it and is off on every other
one, so a statement enforces the foreign keys of the schema (the test of the referenced
row, `ON DELETE CASCADE`) only when the pool gives it that connection.  The statements
that the foreign keys concern take this as their first argument `foreignKeys`; primary
keys, `UNIQUE` and `AUTOINCREMENT` hold on every connection. -/

/-- The result of `db.Exec`: `LastInsertId` and `RowsAffected`. -/
structure ExecResult where
  lastInsertId : Int
  rowsAffected : Nat
  deriving DecidableEq, Repr

/-- A statement run by `db.Exec`. -/
abbrev Statement := Store → Except String (Store × ExecResult)

/-- Model of `db.Exec`: the driver error, the error of the statement, or the database
after the statement. -/
def DB.Exec (db : DB) (stmt : Statement) : Except String (DB × ExecResult) :=
  if db.failing then .error driverError
  else
    match stmt db.store with
    | .error err => .error err
    | .ok (s, res) => .ok ({ db with store := s }, res)

/-- The row id of an insertion into an `AUTOINCREMENT` table: one more than the largest
row id the table holds or has ever held; an error when that one is the largest
`int64`. -/
def nextRowID (s : Store) (table : String) (ids : List Int) : Except String Int :=
  let last := max (ids.foldl max 0) ((GoMap.lookup s.sequence table).getD 0)
  if (2 : Int) ^ 63 - 1 ≤ last then .error "database or disk is full" else .ok (last + 1)

/-- Statement
`INSERT INTO expense_reports (user_id, title, status, created_at) VALUES (?, ?, ?, ?)`. -/
def insertReport (foreignKeys : Bool) (userID : Int) (title status : String)
    (createdAt : Int) : Statement :=
  fun s =>
    if (s.users.any fun u => u.id = userID) = false ∧ foreignKeys = true then
      .error "FOREIGN KEY constraint failed"
    else
      match nextRowID s "expense_reports" (s.reports.map fun er => er.id) with
      | .error err => .error err
      | .ok id =>
        .ok ({ s with
                reports := s.reports ++ [⟨id, userID, title, status, createdAt⟩],
                sequence := GoMap.set s.sequence "expense_reports" id }, ⟨id, 1⟩)

/-- Statement `UPDATE expense_reports SET status = ? WHERE id = ?`. -/
def updateReportStatus (status : String) (id : Int) : Statement := fun s =>
  .ok ({ s with
          reports := s.reports.map fun er =>
            if er.id = id then { er with status := status } else er },
    ⟨0, (s.reports.filter fun er => er.id = id).length⟩)

/-- Statement `UPDATE expense_reports SET status = ? WHERE id = ? AND status = ?`, the
form `ApproveReport` and `RejectReport` use with the constants written in the text. -/
def updateReportStatusWhere (status : String) (id : Int) (current : String) : Statement :=
  fun s =>
    .ok ({ s with
            reports := s.reports.map fun er =>
              if er.id = id ∧ er.status = current then { er with status := status }
              else er },
      ⟨0, (s.reports.filter fun er => er.id = id ∧ er.status = current).length⟩)

/-- Statement `DELETE FROM expense_reports WHERE id = ?`; on a connection that enforces
foreign keys the items of a deleted report go with it (`ON DELETE CASCADE`), on another
connection they stay. -/
def deleteReport (foreignKeys : Bool) (id : Int) : Statement := fun s =>
  .ok ({ s with
          reports := s.reports.filter fun er => er.id ≠ id,
          items := if foreignKeys then s.items.filter fun ei => ei.reportID ≠ id
            else s.items },
    ⟨0, (s.reports.filter fun er => er.id = id).length⟩)

/-- Statement `INSERT INTO expense_items (report_id, description, expense_date,
amount_ht, amount_ttc, vat_rate, created_at) VALUES (?, ?, ?, ?, ?, ?, ?)`. -/
def insertItem (foreignKeys : Bool) (reportID : Int) (description expenseDate : String)
    (amountHT : ℚ) (amountTTC : Float64) (vatRate : ℚ) (createdAt : Int) : Statement :=
  fun s =>
  if (s.reports.any fun er => er.id = reportID) = false ∧ foreignKeys = true then
    .error "FOREIGN KEY constraint failed"
  else
    match nextRowID s "expense_items" (s.items.map fun ei => ei.id) with
    | .error err => .error err
    | .ok id =>
      .ok ({ s with
              items := s.items ++ [⟨id, reportID, description, expenseDate, amountHT,
                amountTTC, vatRate, Option.none, createdAt⟩],
              sequence := GoMap.set s.sequence "expense_items" id }, ⟨id, 1⟩)

/-- Statement `UPDATE expense_items SET description = ?, expense_date = ?,
amount_ht = ?, amount_ttc = ?, vat_rate = ? WHERE id = ?`. -/
def updateItem (description expenseDate : String) (amountHT : ℚ) (amountTTC : Float64)
    (vatRate : ℚ) (itemID : Int) : Statement := fun s =>
  .ok ({ s with
          items := s.items.map fun ei =>
            if ei.id = itemID then
              { ei with description := description, expenseDate := expenseDate,
                        amountHT := amountHT, amountTTC := amountTTC,
                        vatRate := vatRate }
            else ei },
    ⟨0, (s.items.filter fun ei => ei.id = itemID).length⟩)

/-- Statement `UPDATE expense_items SET receipt_path = ? WHERE id = ?`. -/
def updateReceiptPath (name : String) (itemID : Int) : Statement := fun s =>
  .ok ({ s with
          items := s.items.map fun ei =>
            if ei.id = itemID then { ei with receiptPath := some name } else ei },
    ⟨0, (s.items.filter fun ei => ei.id = itemID).length⟩)

/-- Statement
`INSERT INTO users (email, password_hash, created_at) VALUES (?, ?, ?)`. -/
def insertUser (email passwordHash : String) (createdAt : Int) : Statement := fun s =>
  if s.users.any fun u => u.email = email then
    .error "UNIQUE constraint failed: users.email"
  else
    match nextRowID s "users" (s.users.map fun u => u.id) with
    | .error err => .error err
    | .ok id =>
      .ok ({ s with
              users := s.users ++ [⟨id, email, passwordHash, createdAt⟩],
              sequence := GoMap.set s.sequence "users" id }, ⟨id, 1⟩)

/-- Statement `INSERT INTO user_groups (user_id, group_id) VALUES (?, ?)`: a membership
that exists violates the primary key on every connection, an unknown user or group is an
error only on a connection that enforces foreign keys. -/
def insertUserGroup (foreignKeys : Bool) (userID groupID : Int) : Statement := fun s =>
  if s.userGroups.any fun ug => ug.userID = userID ∧ ug.groupID = groupID then
    .error "UNIQUE constraint failed: user_groups.user_id, user_groups.group_id"
  else if ((s.users.any fun u => u.id = userID) = false ∨
      (s.groups.any fun g => g.id = groupID) = false) ∧ foreignKeys = true then
    .error "FOREIGN KEY constraint failed"
  else .ok ({ s with userGroups := s.userGroups ++ [⟨userID, groupID⟩] }, ⟨0, 1⟩)

/-- Statement `INSERT INTO groups (name) VALUES (?)`. -/
def insertGroup (name : String) : Statement := fun s =>
  if s.groups.any fun g => g.name = name then
    .error "UNIQUE constraint failed: groups.name"
  else
    match nextRowID s "groups" (s.groups.map fun g => g.id) with
    | .error err => .error err
    | .ok id =>
      .ok ({ s with
              groups := s.groups ++ [⟨id, name⟩],
              sequence := GoMap.set s.sequence "groups" id }, ⟨id, 1⟩)

/-- Statement `INSERT OR IGNORE INTO group_permissions (group_id, permission_id)
VALUES (?, ?)`: a grant that exists is skipped; on a connection that enforces foreign
keys an unknown group or permission is still a foreign key error. -/
def insertOrIgnoreGroupPermission (foreignKeys : Bool) (groupID permissionID : Int) :
    Statement := fun s =>
  if s.groupPermissions.any fun gp =>
      gp.groupID = groupID ∧ gp.permissionID = permissionID then
    .ok (s, ⟨0, 0⟩)
  else if ((s.groups.any fun g => g.id = groupID) = false ∨
      (s.permissions.any fun p => p.id = permissionID) = false) ∧ foreignKeys = true then
    .error "FOREIGN KEY constraint failed"
  else
    .ok ({ s with groupPermissions := s.groupPermissions ++ [⟨groupID, permissionID⟩] },
      ⟨0, 1⟩)

/-- Statement `CREATE TABLE IF NOT EXISTS api_tokens (...)`: the table is kept as a list
that is empty until the first insertion. -/
def createApiTokens : Statement := fun s => .ok (s, ⟨0, 0⟩)

/-- Statement
`INSERT INTO api_tokens (user_id, token, created_at) VALUES (?, ?, ?)`. -/
def insertApiToken (foreignKeys : Bool) (userID : Int) (token : String)
    (createdAt : Int) : Statement :=
  fun s =>
    if s.apiTokens.any fun t => t.userID = userID ∧ t.token = token then
      .error "UNIQUE constraint failed: api_tokens.user_id, api_tokens.token"
    else if (s.users.any fun u => u.id = userID) = false ∧ foreignKeys = true then
      .error "FOREIGN KEY constraint failed"
    else .ok ({ s with apiTokens := s.apiTokens ++ [⟨userID, token, createdAt⟩] }, ⟨0, 1⟩)

/-- The statements of a transaction run in order on the rows the transaction sees; the
first error ends it. -/
def runStatements : List Statement → Store → Except String Store
  | [], s => .ok s
  | stmt :: rest, s =>
    match stmt s with
    | .error err => .error err
    | .ok (s1, _) => runStatements rest s1

/-! ## Library functions used by the handlers -/

/-- Library `unicode.IsSpace`. -/
def isSpace (c : Char) : Bool :=
  c.toNat ∈ [0x09, 0x0A, 0x0B, 0x0C, 0x0D, 0x20, 0x85, 0xA0, 0x1680, 0x2000, 0x2001,
    0x2002, 0x2003, 0x2004, 0x2005, 0x2006, 0x2007, 0x2008, 0x2009, 0x200A, 0x2028,
    0x2029, 0x202F, 0x205F, 0x3000]

/-- Library `strings.TrimSpace`. -/
def TrimSpace (s : String) : String :=
  ⟨((s.data.dropWhile isSpace).reverse.dropWhile isSpace).reverse⟩

/-- Library `strings.Contains`. -/
def Contains (s substr : String) : Bool :=
  s.data.tails.any fun t => substr.data.isPrefixOf t

/-- Scan of `filepath.Ext` from the end of the path: the text from the last dot on,
unless a path separator comes first. -/
def extScan : List Char → List Char → List Char
  | [], _ => []
  | c :: rest, acc =>
    if c = '/' then [] else if c = '.' then '.' :: acc else extScan rest (c :: acc)

/-- Library `filepath.Ext`. -/
def Ext (path : String) : String := ⟨extScan path.data.reverse []⟩

/-- Days of a month of the Gregorian calendar. -/
def daysIn (month year : Nat) : Nat :=
  if month = 2 then
    if year % 4 = 0 ∧ (year % 100 ≠ 0 ∨ year % 400 = 0) then 29 else 28
  else if month = 4 ∨ month = 6 ∨ month = 9 ∨ month = 11 then 30
  else 31

/-- Library `time.Parse("2006-01-02", s)`: four digits, two digits, two digits, with a
month from 1 to 12 and a day that the month has; `none` stands for the error. -/
def parseDate (s : String) : Option (Nat × Nat × Nat) :=
  match s.data with
  | [y1, y2, y3, y4, '-', m1, m2, '-', d1, d2] =>
    match parseDigits [y1, y2, y3, y4], parseDigits [m1, m2], parseDigits [d1, d2] with
    | some year, some month, some day =>
      if 1 ≤ month ∧ month ≤ 12 ∧ 1 ≤ day ∧ day ≤ daysIn month year then
        some (year, month, day)
      else Option.none
    | _, _, _ => Option.none
  | _ => Option.none

/-- The decimal digits of `n`, with zeros in front up to `width` digits. -/
def padDigits (width n : Nat) : String :=
  ⟨List.replicate (width - (toString n).length) '0'⟩ ++ toString n

/-- Library `Time.Format("2006-01-02")` of a parsed date. -/
def formatDate (date : Nat × Nat × Nat) : String :=
  padDigits 4 date.1 ++ "-" ++ padDigits 2 date.2.1 ++ "-" ++ padDigits 2 date.2.2

/-- Two to the power `k`, as a rational. -/
def pow2 (k : Int) : ℚ :=
  if 0 ≤ k then (2 : ℚ) ^ k.toNat else 1 / (2 : ℚ) ^ (-k).toNat

/-- The number nearest to the rational `q` among those a `float64` would hold if its
exponent had no upper bound: round to nearest, ties to even, 53 significant bits, gradual
underflow below `2 ^ -1022`. -/
def float64Nearest (q : ℚ) : ℚ :=
  if q = 0 then 0
  else
    let n := q.num.natAbs
    let e0 : Int := (bitLength n n : Int) - (bitLength q.den q.den : Int)
    let e : Int := if pow2 e0 ≤ |q| then e0 else e0 - 1
    let shift : Int := max (e - 52) (-1074)
    let scaled : ℚ := |q| / pow2 shift
    let f : Int := Rat.floor scaled
    let r : ℚ := scaled - f
    let m : Int := if 1 / 2 < r ∨ (r = 1 / 2 ∧ f % 2 = 1) then f + 1 else f
    (if q < 0 then -1 else 1) * m * pow2 shift

/-- The `float64` that an operation with the exact result `q` yields (IEEE 754 binary64,
round to nearest, ties to even): the nearest number of 53 significant bits, or the
infinity of the sign of `q` when that number has the magnitude `2 ^ 1024` or more, that
is, exceeds the largest finite `float64`. -/
def float64Round (q : ℚ) : Float64 :=
  if pow2 1024 ≤ |float64Nearest q| then .inf (decide (q < 0))
  else .finite (float64Nearest q)

/-- The `float64` sum `a + b`. -/
def float64Add : Float64 → Float64 → Float64
  | .finite a, .finite b => float64Round (a + b)
  | .nan, _ => .nan
  | _, .nan => .nan
  | .inf s, .inf t => if s = t then .inf s else .nan
  | .inf s, .finite _ => .inf s
  | .finite _, .inf t => .inf t

/-- The `float64` product `a * b`. -/
def float64Mul : Float64 → Float64 → Float64
  | .finite a, .finite b => float64Round (a * b)
  | .nan, _ => .nan
  | _, .nan => .nan
  | .inf s, .inf t => .inf (s != t)
  | .inf s, .finite b => if b = 0 then .nan else .inf (s != decide (b < 0))
  | .finite a, .inf t => if a = 0 then .nan else .inf (decide (a < 0) != t)

/-- The bytes of the UTF-8 encoding of a string. -/
def utf8Bytes (s : String) : List Nat :=
  s.data.flatMap fun c => (String.utf8EncodeChar c).map fun b => b.toNat

/-- The 72 key bytes that the Blowfish key schedule of bcrypt reads: the bytes of the
password followed by a zero byte (`expensiveBlowfishSetup` appends it), read cyclically
by `blowfish.ExpandKey` for the 18 words of the P-array. -/
def bcryptKey (password : String) : List Nat :=
  let key := utf8Bytes password ++ [0]
  (List.range 72).map fun i => key.getD (i % key.length) 0

/-- The prefix of a bcrypt hash: version `2a`, the default cost 10. -/
def bcryptPrefix : String := "$2a$10$"

/-- The Blowfish computation of bcrypt, `bcrypt(password, cost, salt)` in the library
(the key schedule of `expensiveBlowfishSetup`, repeated `2 ^ cost` times, and the 64
encryptions of the magic text), which the embedding leaves open.  `digest cost salt key`
stands for its result for the cost, the bytes of the encoded salt and the 72 bytes that
the key schedule reads of the password: the encoded digest, or the error of a salt that
is not base64.  What is used of it is that the encoded digest has 31 bytes and that they
are ASCII, as the characters of the base64 alphabet of bcrypt are.  Nothing is assumed
about two keys having different digests. -/
structure Bcrypt where
  digest : Nat → List Nat → List Nat → Except String (List Nat)
  length_digest : ∀ cost salt key d, digest cost salt key = .ok d → d.length = 31
  ascii_digest : ∀ cost salt key d, digest cost salt key = .ok d → ∀ b ∈ d, b < 128

/-- Library `bcrypt.GenerateFromPassword(password, bcrypt.DefaultCost)` for the encoded
salt `salt` (22 characters of the base64 alphabet) that the library draws: the bytes
`$2a$10$`, the salt and the digest, 60 in all, as `hashed.Hash` lays them out. -/
def GenerateFromPassword (bcrypt : Bcrypt) (salt password : String) :
    Except String String :=
  if 72 < (utf8Bytes password).length then
    .error "bcrypt: password length exceeds 72 bytes"
  else
    match bcrypt.digest 10 (utf8Bytes salt) (bcryptKey password) with
    | .error err => .error err
    | .ok hash => .ok (bcryptPrefix ++ salt ++ ⟨hash.map Char.ofNat⟩)

/-- The error values of `bcrypt.CompareHashAndPassword`, in the order in which the
library tests for them; `NumError` is the error of `strconv.Atoi` on the cost field and
`blowfish` the error of the Blowfish computation.  No handler reads their text. -/
inductive BcryptError where
  | ErrHashTooShort
  | InvalidHashPrefixError (first : Nat)
  | HashVersionTooNewError (major : Nat)
  | NumError (cost : List Nat)
  | InvalidCostError (cost : Int)
  | blowfish (err : String)
  | ErrMismatchedHashAndPassword
  deriving DecidableEq, Repr

/-- Library `strconv.Atoi` on the two bytes of the cost field of a hash: a sign and a
decimal digit, or two decimal digits. -/
def atoiCost (cost : List Nat) : Option Int :=
  let digit (c : Nat) : Option Int :=
    if 48 ≤ c ∧ c ≤ 57 then some ((c : Int) - 48) else Option.none
  match cost with
  | [a, b] =>
    if a = 45 then (digit b).map fun d => -d
    else if a = 43 then digit b
    else
      match digit a, digit b with
      | some x, some y => some (10 * x + y)
      | _, _ => Option.none
  | _ => Option.none

/-- The 31 bytes that `hashed.Hash` writes for a digest: `copy` into the zeroed array
takes the digest as far as it goes. -/
def hashField (hash : List Nat) : List Nat :=
  (hash ++ List.replicate 31 0).take 31

/-- Library `bcrypt.CompareHashAndPassword(hash, password)`: `ok` stands for `nil`.
The stored hash is taken apart as `newFromHash` does (at least 59 bytes; `$`; a major
version up to `2`; a minor version unless a `$` follows; the cost, two bytes read by
`strconv.Atoi`, from 4 to 31, and one byte after it; 22 bytes of salt; the rest is the
digest), the digest of the password is computed for that cost and salt, and the two
hashes are laid out again and compared.  They agree in version, cost and salt, so the
comparison is the one of the digests.  The length of the password is not tested. -/
def CompareHashAndPassword (bcrypt : Bcrypt) (hash password : String) :
    Except BcryptError Unit :=
  let hashedSecret := utf8Bytes hash
  if hashedSecret.length < 59 then .error .ErrHashTooShort
  else if hashedSecret.getD 0 0 ≠ 36 then
    .error (.InvalidHashPrefixError (hashedSecret.getD 0 0))
  else if 50 < hashedSecret.getD 1 0 then
    .error (.HashVersionTooNewError (hashedSecret.getD 1 0))
  else
    let n := if hashedSecret.getD 2 0 ≠ 36 then 4 else 3
    match atoiCost ((hashedSecret.drop n).take 2) with
    | Option.none => .error (.NumError ((hashedSecret.drop n).take 2))
    | some cost =>
      if cost < 4 ∨ 31 < cost then .error (.InvalidCostError cost)
      else
        let salt := (hashedSecret.drop (n + 3)).take 22
        match bcrypt.digest cost.toNat salt (bcryptKey password) with
        | .error err => .error (.blowfish err)
        | .ok otherHash =>
          if hashField (hashedSecret.drop (n + 3 + 22)) = hashField otherHash then .ok ()
          else .error .ErrMismatchedHashAndPassword

/-- Source `hashPassword`, for the salt drawn by the library. -/
def hashPassword (bcrypt : Bcrypt) (salt password : String) : Except String String :=
  match GenerateFromPassword bcrypt salt password with
  | .error err => .error err
  | .ok b => .ok b

/-- Source `checkPassword`. -/
def checkPassword (bcrypt : Bcrypt) (hash password : String) : Except BcryptError Unit :=
  CompareHashAndPassword bcrypt hash password

/-! ## The handlers of `handlers.go` -/

/-- What a request finds outside the database: the process configuration (signing
secret, data directory), the reading of `time.Now`, the salt bcrypt draws, the 32 bytes
of `rand.Read` in hexadecimal (`none` when it fails), whether creating the receipt
directory or saving the uploaded file fails, whether the connection that the pool hands
out for the writing statement of the request (or for its transaction) is the one on
which `PRAGMA foreign_keys = ON` was run, and the Blowfish computation of the bcrypt
library. -/
structure Env where
  secret : String
  datadir : String
  now : Int
  salt : String
  random : Option String
  mkdirFails : Bool
  saveFails : Bool
  foreignKeys : Bool
  bcrypt : Bcrypt

/-- Library `c.JSON(status, gin.H)` with the members of the object.  `Render` sets the
status and hands the object to `encoding/json`; when the encoder refuses a member (an
infinity or a NaN), nothing is written after the status, and gin records the error and
aborts the context: the client gets the status with an empty body. -/
def Context.Object (c : Context) (status : Nat) (members : List (String × Any)) : Context :=
  if members.all fun m => m.2.encodable then
    { c with response := some (.object status members) }
  else { c with response := some (.noContent status), aborted := true }

/-- Library `c.Status(status)`. -/
def Context.Status (c : Context) (status : Nat) : Context :=
  { c with response := some (.noContent status) }

/-- Library `c.JSON(status, collection)`, the collection kept as rows. -/
def Context.Rows (c : Context) (status : Nat) (rows : List (List Any)) : Context :=
  { c with response := some (.rows status rows) }

/-- Source `userIDIfc, _ := c.Get(ContextUserIDKey); userID := userIDIfc.(int64)`:
`none` when the type assertion panics. -/
def Context.userID (c : Context) : Option Int :=
  match c.Get ContextUserIDKey with
  | some (.int64 n) => some n
  | _ => Option.none

/-- The rows of `SELECT id, email, password_hash, created_at FROM users WHERE email = ?`. -/
def userByEmailQuery (email : String) (s : Store) : List User :=
  s.users.filter fun u => u.email = email

/-- The rows of `SELECT id, user_id, status FROM expense_reports WHERE id = ?`; the
handlers that select `user_id, status` only read the same rows. -/
def reportQuery (reportID : Int) (s : Store) : List (Int × Int × String) :=
  (s.reports.filter fun er => er.id = reportID).map fun er => (er.id, er.userID, er.status)

/-- The rows of
`SELECT ei.report_id, er.user_id, er.status FROM expense_items ei
   JOIN expense_reports er ON er.id = ei.report_id
 WHERE ei.id = ?`; `UploadReceipt` selects the last two columns of the same rows. -/
def itemReportQuery (itemID : Int) (s : Store) : List (Int × Int × String) :=
  (s.items.filter fun ei => ei.id = itemID).flatMap fun ei =>
    (s.reports.filter fun er => er.id = ei.reportID).map fun er =>
      (ei.reportID, er.userID, er.status)

/-- Source `Handlers.Login`. -/
def Login (env : Env) : HandlerFunc := fun c db =>
  match c.request.body with
  | .login req =>
    match db.QueryRow (userByEmailQuery req.Email) with
    | .error _ => (c.JSON 500 "database error", db)
    | .ok Option.none => (c.JSON 401 "invalid credentials", db)
    | .ok (some user) =>
      match checkPassword env.bcrypt user.passwordHash req.Password with
      | .error _ => (c.JSON 401 "invalid credentials", db)
      | .ok _ =>
        match generateJWT env.secret env.now user.id with
        | .error _ => (c.JSON 500 "failed to generate token", db)
        | .ok token =>
          ({ c with response := some (.token 200 token user.id user.email) }, db)
  | _ => (c.JSON 400 "invalid JSON", db)

/-- Source `Handlers.CreateReport`. -/
def CreateReport (env : Env) : HandlerFunc := fun c db =>
  match c.request.body with
  | .createReport req =>
    if TrimSpace req.Title = "" then (c.JSON 400 "title is required", db)
    else
      match c.userID with
      | Option.none => (c.recover, db)
      | some userID =>
        match db.Exec (insertReport env.foreignKeys userID req.Title "draft" env.now) with
        | .error _ => (c.JSON 500 "failed to create report", db)
        | .ok (db1, res) =>
          (c.Object 201 [("id", .int64 res.lastInsertId), ("title", .string req.Title),
            ("status", .string "draft")], db1)
  | _ => (c.JSON 400 "title is required", db)

/-- Source `Handlers.SubmitReport`. -/
def SubmitReport : HandlerFunc := fun c db =>
  match ParseInt (c.Param "id") with
  | Option.none => (c.JSON 400 "invalid report id", db)
  | some reportID =>
    match c.userID with
    | Option.none => (c.recover, db)
    | some userID =>
      match db.QueryRow (reportQuery reportID) with
      | .error _ => (c.JSON 500 "database error", db)
      | .ok Option.none => (c.JSON 404 "report not found", db)
      | .ok (some (reportID, ownerID, status)) =>
        if ownerID ≠ userID then (c.JSON 403 "forbidden", db)
        else if status ≠ "draft" then
          (c.JSON 400 "only draft reports can be submitted", db)
        else
          match db.Exec (updateReportStatus "submitted" reportID) with
          | .error _ => (c.JSON 500 "failed to submit report", db)
          | .ok (db1, _) =>
            (c.Object 200 [("id", .int64 reportID), ("status", .string "submitted")], db1)

/-- Source `Handlers.DeleteReport`. -/
def DeleteReport (env : Env) : HandlerFunc := fun c db =>
  match ParseInt (c.Param "id") with
  | Option.none => (c.JSON 400 "invalid report id", db)
  | some reportID =>
    match c.userID with
    | Option.none => (c.recover, db)
    | some userID =>
      match db.QueryRow (reportQuery reportID) with
      | .error _ => (c.JSON 500 "database error", db)
      | .ok Option.none => (c.JSON 404 "report not found", db)
      | .ok (some (_, ownerID, status)) =>
        if ownerID ≠ userID then (c.JSON 403 "forbidden", db)
        else if status ≠ "draft" then
          (c.JSON 400 "only draft reports can be deleted", db)
        else
          match db.Exec (deleteReport env.foreignKeys reportID) with
          | .error _ => (c.JSON 500 "failed to delete report", db)
          | .ok (db1, _) => (c.Status 204, db1)

/-- Source `Handlers.AddItem`. -/
def AddItem (env : Env) : HandlerFunc := fun c db =>
  match ParseInt (c.Param "id") with
  | Option.none => (c.JSON 400 "invalid report id", db)
  | some reportID =>
    match c.userID with
    | Option.none => (c.recover, db)
    | some userID =>
      match db.QueryRow (reportQuery reportID) with
      | .error _ => (c.JSON 500 "database error", db)
      | .ok Option.none => (c.JSON 404 "report not found", db)
      | .ok (some (_, ownerID, status)) =>
        if ownerID ≠ userID then (c.JSON 403 "forbidden", db)
        else if status ≠ "draft" then
          (c.JSON 400 "items can only be added to draft reports", db)
        else
          match c.request.body with
          | .addItem req =>
            if TrimSpace req.Description = "" ∨ req.ExpenseDate = "" then
              (c.JSON 400 "description and expense_date are required", db)
            else
              match parseDate req.ExpenseDate with
              | Option.none => (c.JSON 400 "invalid expense_date format", db)
              | some expDate =>
                let amountTTC := float64Mul req.AmountHT (float64Add 1 req.VATRate)
                match db.Exec (insertItem env.foreignKeys reportID req.Description
                    (formatDate expDate)
                    req.AmountHT amountTTC req.VATRate env.now) with
                | .error _ => (c.JSON 500 "failed to add item", db)
                | .ok (db1, res) =>
                  (c.Object 201 [("id", .int64 res.lastInsertId),
                    ("report_id", .int64 reportID),
                    ("description", .string req.Description),
                    ("expense_date", .string req.ExpenseDate),
                    ("amount_ht", .real req.AmountHT), ("amount_ttc", amountTTC.toAny),
                    ("vat_rate", .real req.VATRate)], db1)
          | _ => (c.JSON 400 "invalid JSON", db)

/-- Source `Handlers.UpdateItem`. -/
def UpdateItem : HandlerFunc := fun c db =>
  match ParseInt (c.Param "id") with
  | Option.none => (c.JSON 400 "invalid item id", db)
  | some itemID =>
    match db.QueryRow (itemReportQuery itemID) with
    | .error _ => (c.JSON 500 "database error", db)
    | .ok Option.none => (c.JSON 404 "item not found", db)
    | .ok (some (reportID, ownerID, reportStatus)) =>
      match c.userID with
      | Option.none => (c.recover, db)
      | some userID =>
        if ownerID ≠ userID then (c.JSON 403 "forbidden", db)
        else if reportStatus ≠ "draft" then
          (c.JSON 400 "items can only be updated in draft reports", db)
        else
          match c.request.body with
          | .addItem req =>
            match parseDate req.ExpenseDate with
            | Option.none => (c.JSON 400 "invalid expense_date", db)
            | some expDate =>
              let amountTTC := float64Mul req.AmountHT (float64Add 1 req.VATRate)
              match db.Exec (updateItem req.Description (formatDate expDate) req.AmountHT
                  amountTTC req.VATRate itemID) with
              | .error _ => (c.JSON 500 "failed to update item", db)
              | .ok (db1, _) =>
                (c.Object 200 [("id", .int64 itemID), ("report_id", .int64 reportID),
                  ("description", .string req.Description),
                  ("expense_date", .string req.ExpenseDate),
                  ("amount_ht", .real req.AmountHT), ("amount_ttc", amountTTC.toAny),
                  ("vat_rate", .real req.VATRate)], db1)
          | _ => (c.JSON 400 "invalid JSON", db)

/-- Library `strings.ToLower`, on the letters of ASCII.  A capital letter outside ASCII,
which the library lowers as well, is kept as it is: the function is the one of the
library on the file names whose capital letters are ASCII. -/
def ToLower (s : String) : String := ⟨s.data.map Char.toLower⟩

/-- Source `Handlers.UploadReceipt`.  The receipt file itself is not kept: the model
records whether the directory and the file could be written. -/
def UploadReceipt (env : Env) : HandlerFunc := fun c db =>
  match ParseInt (c.Param "id") with
  | Option.none => (c.JSON 400 "invalid item id", db)
  | some itemID =>
    match c.request.file with
    | Option.none => (c.JSON 400 "file is required", db)
    | some filename =>
      match db.QueryRow (itemReportQuery itemID) with
      | .error _ => (c.JSON 500 "database error", db)
      | .ok Option.none => (c.JSON 404 "item not found", db)
      | .ok (some (_, ownerID, reportStatus)) =>
        match c.userID with
        | Option.none => (c.recover, db)
        | some userID =>
          if ownerID ≠ userID then (c.JSON 403 "forbidden", db)
          else if reportStatus ≠ "draft" then
            (c.JSON 400 "receipts can only be uploaded for draft reports", db)
          else if env.mkdirFails then
            (c.JSON 500 "failed to create receipts directory", db)
          else
            let newName := toString itemID ++ ToLower (Ext filename)
            if env.saveFails then (c.JSON 500 "failed to save file", db)
            else
              match db.Exec (updateReceiptPath newName itemID) with
              | .error _ => (c.JSON 500 "failed to update item", db)
              | .ok (db1, _) =>
                (c.Object 200 [("id", .int64 itemID), ("receipt_path", .string newName)],
                  db1)

/-- Source `Handlers.ApproveReport`. -/
def ApproveReport : HandlerFunc := fun c db =>
  match ParseInt (c.Param "id") with
  | Option.none => (c.JSON 400 "invalid report id", db)
  | some reportID =>
    match db.Exec (updateReportStatusWhere "approved" reportID "submitted") with
    | .error _ => (c.JSON 500 "database error", db)
    | .ok (db1, res) =>
      if res.rowsAffected = 0 then
        (c.JSON 400 "report not found or not in submitted state", db1)
      else (c.Object 200 [("id", .int64 reportID), ("status", .string "approved")], db1)

/-- Source `Handlers.RejectReport`. -/
def RejectReport : HandlerFunc := fun c db =>
  match ParseInt (c.Param "id") with
  | Option.none => (c.JSON 400 "invalid report id", db)
  | some reportID =>
    match db.Exec (updateReportStatusWhere "rejected" reportID "submitted") with
    | .error _ => (c.JSON 500 "database error", db)
    | .ok (db1, res) =>
      if res.rowsAffected = 0 then
        (c.JSON 400 "report not found or not in submitted state", db1)
      else (c.Object 200 [("id", .int64 reportID), ("status", .string "rejected")], db1)

/-- The columns of an item in a listing, `NULL` for an absent receipt; the amount with
tax is the stored `float64`, which can be an infinity. -/
def itemColumns (ei : ExpenseItem) : List Any :=
  [.int64 ei.id, .string ei.description, .string ei.expenseDate, .real ei.amountHT,
    ei.amountTTC.toAny, .real ei.vatRate,
    match ei.receiptPath with
    | some name => .string name
    | Option.none => .nil]

/-- The rows of `expense_reports er LEFT JOIN expense_items ei ON ei.report_id = er.id`
for the given reports and report columns: one row for each item of a report, one row with
seven `NULL`s for a report without items. -/
def leftJoinItems (s : Store) (reports : List ExpenseReport)
    (columns : ExpenseReport → List Any) : List (List Any) :=
  reports.flatMap fun er =>
    match s.items.filter fun ei => ei.reportID = er.id with
    | [] => [columns er ++ List.replicate 7 Any.nil]
    | items => items.map fun ei => columns er ++ itemColumns ei

/-- The rows of the query of `ListOwnReports`: the reports of the user by ascending id,
left-joined with their items.  The items of one report come in the order in which they
are stored, where SQL leaves their order open, and the columns are the stored values:
what the driver makes of a column on the way out (a `DATE` column is read as a time) is
not modelled. -/
def ownReportsQuery (userID : Int) (s : Store) : List (List Any) :=
  leftJoinItems s
    ((s.reports.filter fun er => er.userID = userID).insertionSort
      fun a b => a.id ≤ b.id)
    fun er => [.int64 er.id, .string er.title, .string er.status, .int64 er.createdAt]

/-- Source `Handlers.ListOwnReports`.  The handler folds the rows into one object for
each report and hands them to the JSON encoder in the order of a Go map iteration,
which is not fixed; the response is kept as the rows handed over, and what the encoder
makes of them (nothing, when an amount is an infinity) is left out. -/
def ListOwnReports : HandlerFunc := fun c db =>
  match c.userID with
  | Option.none => (c.recover, db)
  | some userID =>
    match db.Query (ownReportsQuery userID) with
    | .error _ => (c.JSON 500 "database error", db)
    | .ok rows => (c.Rows 200 rows, db)

/-- The rows of
`SELECT er.id, er.user_id, er.title, er.status, er.created_at, u.email
   FROM expense_reports er JOIN users u ON u.id = er.user_id
  WHERE er.status != 'draft'`. -/
def adminReportsQuery (s : Store) : List (List Any) :=
  (s.reports.filter fun er => er.status ≠ "draft").flatMap fun er =>
    (s.users.filter fun u => u.id = er.userID).map fun u =>
      [.int64 er.id, .int64 er.userID, .string er.title, .string er.status,
        .int64 er.createdAt, .string u.email]

/-- Source `Handlers.AdminListReports`. -/
def AdminListReports : HandlerFunc := fun c db =>
  match db.Query adminReportsQuery with
  | .error _ => (c.JSON 500 "database error", db)
  | .ok rows => (c.Rows 200 rows, db)

/-- Source `Handlers.ListUsers`: the rows of `SELECT id, email, created_at FROM users`. -/
def ListUsers : HandlerFunc := fun c db =>
  match db.Query fun s => s.users.map fun u =>
      [Any.int64 u.id, Any.string u.email, Any.int64 u.createdAt] with
  | .error _ => (c.JSON 500 "database error", db)
  | .ok rows => (c.Rows 200 rows, db)

/-- Source `Handlers.ListGroups`: the rows of `SELECT id, name FROM groups`. -/
def ListGroups : HandlerFunc := fun c db =>
  match db.Query fun s => s.groups.map fun g => [Any.int64 g.id, Any.string g.name] with
  | .error _ => (c.JSON 500 "database error", db)
  | .ok rows => (c.Rows 200 rows, db)

/-- The rows of the query shared by the three export handlers: every report,
left-joined with its items. -/
def exportQuery (s : Store) : List (List Any) :=
  leftJoinItems s s.reports fun er =>
    [.int64 er.id, .int64 er.userID, .string er.title, .string er.status]

/-- Source `Handlers.ExportCSV`, `Handlers.ExportJSON` and `Handlers.ExportYAML`, which
differ in the encoding of the rows only. -/
def Export : HandlerFunc := fun c db =>
  match db.Query exportQuery with
  | .error _ => (c.JSON 500 "database error", db)
  | .ok rows => (c.Rows 200 rows, db)

/-- Source `Handlers.CreateUser`.  The insertions run in a transaction: the rows are
written when all of them succeed (`tx.Commit`), and the deferred `tx.Rollback` leaves the
database as it was otherwise. -/
def CreateUser (env : Env) : HandlerFunc := fun c db =>
  match c.request.body with
  | .createUser req =>
    if req.Email = "" ∨ req.Password = "" then
      (c.JSON 400 "email and password are required", db)
    else
      match hashPassword env.bcrypt env.salt req.Password with
      | .error _ => (c.JSON 500 "failed to hash password", db)
      | .ok hashed =>
        if db.failing then (c.JSON 500 "failed to begin transaction", db)
        else
          match insertUser req.Email hashed env.now db.store with
          | .error err =>
            if Contains err "UNIQUE" then (c.JSON 409 "email already exists", db)
            else (c.JSON 500 "failed to create user", db)
          | .ok (s1, res) =>
            match runStatements
                (req.Groups.map fun gid =>
                  insertUserGroup env.foreignKeys res.lastInsertId gid) s1 with
            | .error _ => (c.JSON 500 "failed to assign groups", db)
            | .ok s2 =>
              (c.Object 201 [("id", .int64 res.lastInsertId), ("email", .string req.Email)],
                { db with store := s2 })
  | _ => (c.JSON 400 "invalid JSON", db)

/-- Source `Handlers.CreateGroup`. -/
def CreateGroup : HandlerFunc := fun c db =>
  match c.request.body with
  | .createGroup req =>
    if TrimSpace req.Name = "" then (c.JSON 400 "name is required", db)
    else
      match db.Exec (insertGroup req.Name) with
      | .error err =>
        if Contains err "UNIQUE" then (c.JSON 409 "group name already exists", db)
        else (c.JSON 500 "failed to create group", db)
      | .ok (db1, res) =>
        (c.Object 201 [("id", .int64 res.lastInsertId), ("name", .string req.Name)], db1)
  | _ => (c.JSON 400 "name is required", db)

/-- Source `Handlers.AssignPermissions`, with the same transaction discipline as
`CreateUser`. -/
def AssignPermissions (env : Env) : HandlerFunc := fun c db =>
  match ParseInt (c.Param "id") with
  | Option.none => (c.JSON 400 "invalid group id", db)
  | some groupID =>
    match c.request.body with
    | .assignPermissions req =>
      if db.failing then (c.JSON 500 "failed to begin transaction", db)
      else
        match runStatements
            (req.PermissionIDs.map fun pid =>
              insertOrIgnoreGroupPermission env.foreignKeys groupID pid)
            db.store with
        | .error _ => (c.JSON 500 "failed to assign permissions", db)
        | .ok s1 =>
          (c.Object 200 [("group_id", .int64 groupID), ("permission_ids", .composite)],
            { db with store := s1 })
    | _ => (c.JSON 400 "invalid JSON", db)

/-- Source `Handlers.GenerateAPIToken`. -/
def GenerateAPIToken (env : Env) : HandlerFunc := fun c db =>
  match ParseInt (c.Param "id") with
  | Option.none => (c.JSON 400 "invalid user id", db)
  | some userID =>
    match db.Exec createApiTokens with
    | .error _ => (c.JSON 500 "failed to create table", db)
    | .ok (db1, _) =>
      match env.random with
      | Option.none => (c.JSON 500 "failed to generate token", db1)
      | some token =>
        match db1.Exec (insertApiToken env.foreignKeys userID token env.now) with
        | .error _ => (c.JSON 500 "failed to store token", db1)
        | .ok (db2, _) =>
          (c.Object 200 [("user_id", .int64 userID), ("token", .string token)], db2)

/-! ## Initialisation (`models.go`)

`InitDB` runs before the server listens, one statement after another, each finished
before the next begins.  Its first statement makes the pool open a connection and turns
foreign keys on there; the pool keeps that connection idle and hands it out again for
each following statement, so the insertions of the two seeding functions run with
foreign keys enforced (`foreignKeys` is `true` in them).  The requests served later may
run on further connections, on which the pragma was never run: see `Env.foreignKeys`. -/

/-- Statement `PRAGMA foreign_keys = ON` and the statements
`CREATE TABLE IF NOT EXISTS ...` of `InitDB`.  The tables are kept as lists that exist
from the start, and the pragma changes the connection, not the stored rows, so these
statements change no row; what the pragma does to later statements is their argument
`foreignKeys`. -/
def schemaStatement : Statement := fun s => .ok (s, ⟨0, 0⟩)

/-- Statement `INSERT INTO permissions (action) VALUES (?)`. -/
def insertPermission (action : String) : Statement := fun s =>
  if s.permissions.any fun p => p.action = action then
    .error "UNIQUE constraint failed: permissions.action"
  else
    match nextRowID s "permissions" (s.permissions.map fun p => p.id) with
    | .error err => .error err
    | .ok id =>
      .ok ({ s with
              permissions := s.permissions ++ [⟨id, action⟩],
              sequence := GoMap.set s.sequence "permissions" id }, ⟨id, 1⟩)

/-- Statement `INSERT INTO group_permissions (group_id, permission_id) VALUES (?, ?)`. -/
def insertGroupPermission (foreignKeys : Bool) (groupID permissionID : Int) : Statement :=
  fun s =>
  if s.groupPermissions.any fun gp =>
      gp.groupID = groupID ∧ gp.permissionID = permissionID then
    .error
      "UNIQUE constraint failed: group_permissions.group_id, group_permissions.permission_id"
  else if ((s.groups.any fun g => g.id = groupID) = false ∨
      (s.permissions.any fun p => p.id = permissionID) = false) ∧ foreignKeys = true then
    .error "FOREIGN KEY constraint failed"
  else
    .ok ({ s with groupPermissions := s.groupPermissions ++ [⟨groupID, permissionID⟩] },
      ⟨0, 1⟩)

/-- The text of `sql.ErrNoRows`. -/
def errNoRows : String := "sql: no rows in result set"

/-- The rows of `SELECT id FROM permissions WHERE action = ?`. -/
def permissionIDQuery (action : String) (s : Store) : List Int :=
  (s.permissions.filter fun p => p.action = action).map fun p => p.id

/-- The rows of `SELECT id FROM groups WHERE name = ?`. -/
def groupIDQuery (name : String) (s : Store) : List Int :=
  (s.groups.filter fun g => g.name = name).map fun g => g.id

/-- The rows of
`SELECT 1 FROM group_permissions WHERE group_id = ? AND permission_id = ?`. -/
def grantQuery (groupID permissionID : Int) (s : Store) : List Int :=
  (s.groupPermissions.filter fun gp =>
    gp.groupID = groupID ∧ gp.permissionID = permissionID).map fun _ => 1

/-- A Go loop `for _, x := range xs` over the database, whose body returns the first
error it meets. -/
def forEach {α : Type} (body : DB → α → Except String DB) : List α → DB → Except String DB
  | [], db => .ok db
  | x :: xs, db =>
    match body db x with
    | .error err => .error err
    | .ok db1 => forEach body xs db1

/-- The slice `permissions` of `seedPermissionsAndGroups`. -/
def defaultPermissions : List String :=
  ["reports:create", "reports:update:own", "reports:read:own", "reports:read:all",
    "reports:approve", "reports:reject", "users:read", "users:create", "groups:read",
    "groups:create", "permissions:assign", "tokens:create", "reports:export:all"]

/-- Source type `groupDef` of `seedPermissionsAndGroups`. -/
structure groupDef where
  name : String
  permissions : List String
  deriving DecidableEq, Repr

/-- The slice `defs` of `seedPermissionsAndGroups`. -/
def defaultGroups : List groupDef :=
  [⟨"Administrateurs", defaultPermissions⟩,
    ⟨"Validateurs", ["reports:read:all", "reports:approve", "reports:reject"]⟩,
    ⟨"Utilisateurs", ["reports:create", "reports:update:own", "reports:read:own"]⟩]

/-- The body of the first loop of `seedPermissionsAndGroups`: the permission is inserted
when no row has its action. -/
def seedPermission (db : DB) (action : String) : Except String DB :=
  match db.QueryRow (permissionIDQuery action) with
  | .ok Option.none =>
    match db.Exec (insertPermission action) with
    | .error err => .error ("inserting permission " ++ action ++ ": " ++ err)
    | .ok (db1, _) => .ok db1
  | .error err => .error ("checking permission " ++ action ++ ": " ++ err)
  | .ok (some _) => .ok db

/-- The body of the inner loop of `seedPermissionsAndGroups` for the group `groupID`:
the permission is looked up by its action, and granted when the grant is not there. -/
def assignPermission (groupID : Int) (db : DB) (perm : String) : Except String DB :=
  match db.QueryRow (permissionIDQuery perm) with
  | .error err => .error ("select permission " ++ perm ++ ": " ++ err)
  | .ok Option.none => .error ("select permission " ++ perm ++ ": " ++ errNoRows)
  | .ok (some permID) =>
    match db.QueryRow (grantQuery groupID permID) with
    | .ok Option.none =>
      match db.Exec (insertGroupPermission true groupID permID) with
      | .error err =>
        .error ("assign permission " ++ toString permID ++ " to group " ++
          toString groupID ++ ": " ++ err)
      | .ok (db1, _) => .ok db1
    | .error err => .error ("check assignment: " ++ err)
    | .ok (some _) => .ok db

/-- The body of the second loop of `seedPermissionsAndGroups`: the group is inserted
when no row has its name, then its permissions are granted one by one. -/
def seedGroup (db : DB) (d : groupDef) : Except String DB :=
  match db.QueryRow (groupIDQuery d.name) with
  | .ok Option.none =>
    match db.Exec (insertGroup d.name) with
    | .error err => .error ("insert group " ++ d.name ++ ": " ++ err)
    | .ok (db1, res) => forEach (assignPermission res.lastInsertId) d.permissions db1
  | .error err => .error ("select group " ++ d.name ++ ": " ++ err)
  | .ok (some groupID) => forEach (assignPermission groupID) d.permissions db

/-- Source `seedPermissionsAndGroups`. -/
def seedPermissionsAndGroups (db : DB) : Except String DB :=
  match forEach seedPermission defaultPermissions db with
  | .error err => .error err
  | .ok db1 => forEach seedGroup defaultGroups db1

/-- Source `seedSuperAdmin`, with the values of the environment variables `ADMIN_EMAIL`
and `ADMIN_PASSWORD` (empty when unset); the line it prints is left out. -/
def seedSuperAdmin (env : Env) (ADMIN_EMAIL ADMIN_PASSWORD : String) (db : DB) :
    Except String DB :=
  match db.QueryRow fun s => [(s.users.length : Int)] with
  | .error err => .error ("count users: " ++ err)
  | .ok Option.none => .error ("count users: " ++ errNoRows)
  | .ok (some count) =>
    if count > 0 then .ok db
    else
      let email := if ADMIN_EMAIL = "" then "admin@example.com" else ADMIN_EMAIL
      let password := if ADMIN_PASSWORD = "" then "admin" else ADMIN_PASSWORD
      match hashPassword env.bcrypt env.salt password with
      | .error err => .error ("hash default password: " ++ err)
      | .ok hash =>
        match db.Exec (insertUser email hash env.now) with
        | .error err => .error ("insert super admin user: " ++ err)
        | .ok (db1, res) =>
          match db1.QueryRow (groupIDQuery "Administrateurs") with
          | .error err => .error ("select administrateurs group: " ++ err)
          | .ok Option.none => .error ("select administrateurs group: " ++ errNoRows)
          | .ok (some groupID) =>
            match db1.Exec (insertUserGroup true res.lastInsertId groupID) with
            | .error err => .error ("assign super admin to group: " ++ err)
            | .ok (db2, _) => .ok db2

/-- What `InitDB` wraps the error of each statement of the schema in, in the order of
the statements. -/
def schema : List String :=
  ["enable foreign keys", "create users", "create groups", "create permissions",
    "create user_groups", "create group_permissions", "create expense_reports",
    "create expense_items"]

/-- Source `InitDB`: the statements of the schema, then the two seeding functions. -/
def InitDB (env : Env) (ADMIN_EMAIL ADMIN_PASSWORD : String) (db : DB) : Except String DB :=
  match forEach
      (fun db what =>
        match db.Exec schemaStatement with
        | .error err => .error (what ++ ": " ++ err)
        | .ok (db1, _) => .ok db1)
      schema db with
  | .error err => .error err
  | .ok db1 =>
    match seedPermissionsAndGroups db1 with
    | .error err => .error err
    | .ok db2 => seedSuperAdmin env ADMIN_EMAIL ADMIN_PASSWORD db2

/-! ## The routes of `main.go` -/

/-- The routes that `main` registers. -/
inductive Endpoint where
  | Login
  | CreateReport
  | SubmitReport
  | DeleteReport
  | ListOwnReports
  | AddItem
  | UpdateItem
  | UploadReceipt
  | GetReceipt
  | AdminListReports
  | ApproveReport
  | RejectReport
  | ListUsers
  | CreateUser
  | ListGroups
  | CreateGroup
  | AssignPermissions
  | GenerateAPIToken
  | ExportCSV
  | ExportJSON
  | ExportYAML
  deriving DecidableEq, Repr

/-- The action that the route passes to `RequirePermission`; `none` for the public
login route. -/
def Endpoint.permission : Endpoint → Option String
  | .Login => Option.none
  | .CreateReport => some PermReportsCreate
  | .SubmitReport => some PermReportsUpdateOwn
  | .DeleteReport => some PermReportsUpdateOwn
  | .ListOwnReports => some PermReportsReadOwn
  | .AddItem => some PermReportsCreate
  | .UpdateItem => some PermReportsUpdateOwn
  | .UploadReceipt => some PermReportsUpdateOwn
  | .GetReceipt => some PermReportsReadOwn
  | .AdminListReports => some PermReportsReadAll
  | .ApproveReport => some PermReportsApprove
  | .RejectReport => some PermReportsReject
  | .ListUsers => some PermUsersRead
  | .CreateUser => some PermUsersCreate
  | .ListGroups => some PermGroupsRead
  | .CreateGroup => some PermGroupsCreate
  | .AssignPermissions => some PermPermissionsAssign
  | .GenerateAPIToken => some PermTokensCreate
  | .ExportCSV => some PermReportsExportAll
  | .ExportJSON => some PermReportsExportAll
  | .ExportYAML => some PermReportsExportAll

/-- The handler that the route ends in. -/
def Endpoint.handler (env : Env) : Endpoint → HandlerFunc
  | .Login => ExpenseApp.Login env
  | .CreateReport => ExpenseApp.CreateReport env
  | .SubmitReport => ExpenseApp.SubmitReport
  | .DeleteReport => ExpenseApp.DeleteReport env
  | .ListOwnReports => ExpenseApp.ListOwnReports
  | .AddItem => ExpenseApp.AddItem env
  | .UpdateItem => ExpenseApp.UpdateItem
  | .UploadReceipt => ExpenseApp.UploadReceipt env
  | .GetReceipt => ExpenseApp.GetReceipt env.datadir
  | .AdminListReports => ExpenseApp.AdminListReports
  | .ApproveReport => ExpenseApp.ApproveReport
  | .RejectReport => ExpenseApp.RejectReport
  | .ListUsers => ExpenseApp.ListUsers
  | .CreateUser => ExpenseApp.CreateUser env
  | .ListGroups => ExpenseApp.ListGroups
  | .CreateGroup => ExpenseApp.CreateGroup
  | .AssignPermissions => ExpenseApp.AssignPermissions env
  | .GenerateAPIToken => ExpenseApp.GenerateAPIToken env
  | .ExportCSV => ExpenseApp.Export
  | .ExportJSON => ExpenseApp.Export
  | .ExportYAML => ExpenseApp.Export

/-- The handlers of a route in the order gin runs them: the login route has its handler
only, a route of the `/api` group has the authentication middleware, the permission
guard and the handler. -/
def Endpoint.chain (env : Env) (e : Endpoint) : List HandlerFunc :=
  match e.permission with
  | Option.none => [e.handler env]
  | some permission =>
    [AuthMiddleware env.secret env.now, RequirePermission permission, e.handler env]

/-- One operation of the service: the request `req` to the route `e`, served to
completion on the database `db`. -/
def serve (env : Env) (e : Endpoint) (req : Request) (db : DB) : Context × DB :=
  runChain (e.chain env) (Context.new req) db

/-! ## Vocabulary of the statements -/

/-- The bearer token of a request is absent, malformed or fails verification: the
`Authorization` header does not start with the bearer scheme, or `jwt.Parse` returns an
error, or the verified claims have no numeric `sub`. -/
def BearerRejected (secret : String) (now : Int) (auth : Authorization) : Prop :=
  hasBearerPrefix auth = false ∨
  (∃ e, jwtParse secret now auth.credentials = .error e) ∨
  (∃ m, jwtParse secret now auth.credentials = .ok (.MapClaims m) ∧
    ∀ f, m.lookup "sub" ≠ some (.float64 f))

/-- The signing algorithm that the header of a token names. -/
def Token.alg (t : Token) : Option String :=
  match decodeObject t.header with
  | some header =>
    match header.lookup "alg" with
    | some (.string alg) => some alg
    | _ => Option.none
  | Option.none => Option.none

/-- The request was refused with `401 Unauthorized` and the chain was aborted. -/
def Context.Unauthenticated (c : Context) : Prop :=
  c.aborted = true ∧ ∃ msg, c.response = some (.errorJSON 401 msg)

/-- The primary keys of `expense_items` and `expense_reports` are unique. -/
def Store.PrimaryKeys (s : Store) : Prop :=
  (s.items.map fun ei => ei.id).Nodup ∧ (s.reports.map fun er => er.id).Nodup

instance (s : Store) : Decidable s.PrimaryKeys := by
  unfold Store.PrimaryKeys
  infer_instance

/-! ## Sample data

A store as `InitDB` seeds it (thirteen permissions, three groups and their grants),
with four users, one submitted report and two items. -/

/-- Seeded permissions, groups and grants; user 1 is an administrator, user 2 a
validator, user 3 a plain user who owns report 10, user 4 is in no group. -/
def sampleStore : Store :=
  { users := [⟨1, "admin@example.com", "h1", 0⟩, ⟨2, "bob@example.com", "h2", 0⟩,
              ⟨3, "alice@example.com", "h3", 0⟩, ⟨4, "carol@example.com", "h4", 0⟩],
    groups := [⟨1, "Administrateurs"⟩, ⟨2, "Validateurs"⟩, ⟨3, "Utilisateurs"⟩],
    permissions := [⟨1, "reports:create"⟩, ⟨2, "reports:update:own"⟩,
      ⟨3, "reports:read:own"⟩, ⟨4, "reports:read:all"⟩, ⟨5, "reports:approve"⟩,
      ⟨6, "reports:reject"⟩, ⟨7, "users:read"⟩, ⟨8, "users:create"⟩, ⟨9, "groups:read"⟩,
      ⟨10, "groups:create"⟩, ⟨11, "permissions:assign"⟩, ⟨12, "tokens:create"⟩,
      ⟨13, "reports:export:all"⟩],
    userGroups := [⟨1, 1⟩, ⟨2, 2⟩, ⟨3, 3⟩],
    groupPermissions := [⟨1, 1⟩, ⟨1, 2⟩, ⟨1, 3⟩, ⟨1, 4⟩, ⟨1, 5⟩, ⟨1, 6⟩, ⟨1, 7⟩, ⟨1, 8⟩,
      ⟨1, 9⟩, ⟨1, 10⟩, ⟨1, 11⟩, ⟨1, 12⟩, ⟨1, 13⟩, ⟨2, 4⟩, ⟨2, 5⟩, ⟨2, 6⟩, ⟨3, 1⟩, ⟨3, 2⟩,
      ⟨3, 3⟩],
    reports := [⟨10, 3, "Trip to Lyon", "submitted", 0⟩],
    items := [⟨100, 10, "Train", "2024-05-02", 100, 120, 1 / 5, some "100.pdf", 0⟩,
              ⟨101, 10, "Taxi", "2024-05-02", 20, 24, 1 / 5, Option.none, 0⟩],
    apiTokens := [],
    sequence := [("users", 4), ("groups", 3), ("permissions", 13),
      ("expense_reports", 10), ("expense_items", 101)] }

/-- The sample store behind a working connection. -/
def sampleDB : DB := { store := sampleStore, failing := false }

/-- A store without any row, behind a working connection. -/
def emptyDB : DB :=
  { store := { users := [], groups := [], permissions := [], userGroups := [],
               groupPermissions := [], reports := [], items := [], apiTokens := [],
               sequence := [] },
    failing := false }

/-- A request without credentials for the path parameter `id`. -/
def anonymousRequest (id : String) : Request :=
  { apiKey := "", authorization := { lead := "", credentials := .malformed "" },
    params := [("id", id)], body := .invalid, file := Option.none }

/-- A request for the path parameter `id` whose `Authorization` header is `Bearer `
followed by the given token text. -/
def bearerRequest (token : TokenString) (id : String) : Request :=
  { apiKey := "", authorization := { lead := "Bearer ", credentials := token },
    params := [("id", id)], body := .invalid, file := Option.none }

/-- The token text returned by `generateJWT`, the empty text in the error case. -/
def issuedToken (secret : String) (now : Int) (userID : Int) : TokenString :=
  match generateJWT secret now userID with
  | .ok token => token
  | .error _ => .malformed ""

/-- A token signed with the service secret `secret` whose subject is a string. -/
def stringSubjectToken : TokenString :=
  .compact
    { header := [("alg", .string "HS256"), ("typ", .string "JWT")],
      payload := [("sub", .string "alice")],
      signature := Signature.hmac .sha256 "secret"
        [("alg", .string "HS256"), ("typ", .string "JWT")] [("sub", .string "alice")] }

/-- An unsigned token with algorithm `none` for the subject 1. -/
def noneToken : Token :=
  { header := [("alg", .string "none"), ("typ", .string "JWT")],
    payload := [("sub", .number 1)],
    signature := Signature.bytes [] }

/-- The sample store with a second and a third report of user 3: report 11 is a draft
with item 110, report 12 is approved. -/
def workStore : Store :=
  { sampleStore with
    reports := [⟨10, 3, "Trip to Lyon", "submitted", 0⟩, ⟨11, 3, "Trip to Lille", "draft", 0⟩,
      ⟨12, 3, "Trip to Brest", "approved", 0⟩],
    items := [⟨100, 10, "Train", "2024-05-02", 100, 120, 1 / 5, some "100.pdf", 0⟩,
              ⟨101, 10, "Taxi", "2024-05-02", 20, 24, 1 / 5, Option.none, 0⟩,
              ⟨110, 11, "Hotel", "2024-06-01", 80, 88, 1 / 10, Option.none, 0⟩],
    sequence := [("users", 4), ("groups", 3), ("permissions", 13),
      ("expense_reports", 12), ("expense_items", 110)] }

/-- The sample store before any report was created: the users, groups and grants of
the sample store, no report and no item. -/
def freshStore : Store :=
  { sampleStore with
    reports := [], items := [],
    sequence := [("users", 4), ("groups", 3), ("permissions", 13)] }

/-- A digest for the sample surroundings, in place of the Blowfish computation, which
the sample data cannot run: 31 capital letters made of the first 31 key bytes, the salt
and the cost.  It stands in for bcrypt in the evaluations on sample data only; the
general statements are about every `Bcrypt`. -/
def sampleDigest (cost : Nat) (salt key : List Nat) : List Nat :=
  (List.range 31).map fun i => 65 + (key.getD i 0 + salt.getD (i % 22) 0 + cost) % 26

/-- The digest of the sample surroundings with the two facts a `Bcrypt` carries. -/
def sampleBcrypt : Bcrypt where
  digest := fun cost salt key => .ok (sampleDigest cost salt key)
  length_digest := by
    intro cost salt key d h
    cases h
    simp [sampleDigest]
  ascii_digest := by
    intro cost salt key d h b hb
    cases h
    simp only [sampleDigest, List.mem_map] at hb
    obtain ⟨i, _, rfl⟩ := hb
    omega

/-- The hash that `hashPassword` makes of `password` with the salt and the digest of the
sample surroundings. -/
def sampleHash (password : String) : String :=
  bcryptPrefix ++ "saltsaltsaltsaltsalt22" ++
    ⟨(sampleDigest 10 (utf8Bytes "saltsaltsaltsaltsalt22") (bcryptKey password)).map
      Char.ofNat⟩

/-- The database that `InitDB` makes of the empty one with the sample surroundings and
no `ADMIN_EMAIL` or `ADMIN_PASSWORD` set: the permissions, the groups and their grants,
and the default administrator. -/
def seededDB : DB :=
  { store :=
      { users := [⟨1, "admin@example.com", sampleHash "admin", 0⟩],
        groups := [⟨1, "Administrateurs"⟩, ⟨2, "Validateurs"⟩, ⟨3, "Utilisateurs"⟩],
        permissions := sampleStore.permissions,
        userGroups := [⟨1, 1⟩],
        groupPermissions := sampleStore.groupPermissions,
        reports := [], items := [], apiTokens := [],
        sequence := [("users", 1), ("groups", 3), ("permissions", 13)] },
    failing := false }

/-- A request to the login route with the given email and password. -/
def loginRequest (email password : String) : Request :=
  { apiKey := "", authorization := { lead := "", credentials := .malformed "" },
    params := [], body := .login ⟨email, password⟩, file := Option.none }

/-- The seeded store with a second user whose id, `2 ^ 53 + 1`, is not a `float64`. -/
def bigIDStore : Store :=
  { seededDB.store with
    users := seededDB.store.users ++
      [⟨9007199254740993, "big@example.com", sampleHash "password123", 0⟩],
    sequence := [("users", 9007199254740993), ("groups", 3), ("permissions", 13)] }

/-- The body of a request for an item of 100 before tax at the rate 0.2, the `float64`
nearest to one fifth. -/
def dinnerItem : AddItemRequest :=
  ⟨"Dinner", "2024-06-02", 100, float64Nearest (1 / 5)⟩

/-- The amount with tax as the specification derives it from the amount before tax `h`
and the rate `v`: the product `h × (1 + v)` of the two numbers, without rounding. -/
def exactAmountTTC (h v : ℚ) : ℚ := h * (1 + v)

/-- The body of a request for an item of 0.1 before tax at the rate 0.2, each the nearest
`float64`. -/
def lunchItem : AddItemRequest :=
  ⟨"Lunch", "2024-06-02", float64Nearest (1 / 10), float64Nearest (1 / 5)⟩

/-- The body of a request for an item of `2 ^ 1023` before tax, a finite `float64`, at
the rate 1. -/
def hugeItem : AddItemRequest :=
  ⟨"Huge", "2024-06-02", 2 ^ 1023, 1⟩

/-- The configuration and surroundings of the sample requests. -/
def sampleEnv : Env :=
  { secret := "secret", datadir := "./data", now := 0, salt := "saltsaltsaltsaltsalt22",
    random := some "00112233", mkdirFails := false, saveFails := false,
    foreignKeys := true, bcrypt := sampleBcrypt }

/-- A request of user `userID`, authenticated by a token issued at time 0, for the path
parameter `id`, with the given body and multipart file. -/
def userRequest (userID : Int) (id : String) (body : Body) (file : Option String) :
    Request :=
  { apiKey := "",
    authorization := { lead := "Bearer ", credentials := issuedToken "secret" 0 userID },
    params := [("id", id)], body := body, file := file }

/-- The context of a request that `AuthMiddleware` has accepted for user `userID`. -/
def authenticatedContext (r : Request) (userID : Int) : Context :=
  (Context.new r).Set ContextUserIDKey (.int64 userID)

/-- The request `req` passes `AuthMiddleware` as user `userID`; the middleware does not
read the database, so the database it is run on here is immaterial. -/
def Authenticated (env : Env) (req : Request) (userID : Int) : Prop :=
  (AuthMiddleware env.secret env.now (Context.new req) emptyDB).1 =
    authenticatedContext req userID

/-- User `userID` holds `action` in the store `s`, read over a working connection. -/
def Holds (s : Store) (userID : Int) (action : String) : Prop :=
  UserHasPermission { store := s, failing := false } userID action = .ok true

/-- The status `b` is the status `a` or follows it in the life cycle of a report. -/
def Advances (a b : String) : Prop :=
  b = a ∨ (a = "draft" ∧ b = "submitted") ∨ (a = "submitted" ∧ b = "approved") ∨
    (a = "submitted" ∧ b = "rejected")

/-- Every report has one of the four statuses. -/
def Store.StatusesValid (s : Store) : Prop :=
  ∀ r ∈ s.reports,
    r.status = "draft" ∨ r.status = "submitted" ∨ r.status = "approved" ∨
      r.status = "rejected"

/-- The stores that service operations lead to from the store `s0`, whatever the
requests, their surroundings and the state of the connection are. -/
inductive Reachable (s0 : Store) : Store → Prop where
  | init : Reachable s0 s0
  | step (s : Store) (env : Env) (e : Endpoint) (req : Request) (failing : Bool) :
      Reachable s0 s →
      Reachable s0 (serve env e req { store := s, failing := failing }).2.store

/-- What one run of a handler does to the reports and the items, with what the handler
has checked before it writes: nothing; nothing to these two tables; a new draft report
with a fresh id; a draft report submitted; a draft report deleted, with its items or
without them; an item added to a draft report; an item of a draft report rewritten, its id and report kept; a
submitted report approved or rejected. -/
inductive Step (s : Store) : Store → Prop where
  | same : Step s s
  | other (s1 : Store) : s1.reports = s.reports → s1.items = s.items → Step s s1
  | createReport (s1 : Store) (id userID : Int) (title : String) (createdAt : Int) :
      (∀ r ∈ s.reports, r.id < id) →
      s1.reports = s.reports ++ [⟨id, userID, title, "draft", createdAt⟩] →
      s1.items = s.items → Step s s1
  | submit (s1 : Store) (id owner : Int) :
      (reportQuery id s).head? = some (id, owner, "draft") →
      s1.reports = s.reports.map
        (fun er => if er.id = id then { er with status := "submitted" } else er) →
      s1.items = s.items → Step s s1
  | delete (s1 : Store) (id owner : Int) :
      (reportQuery id s).head? = some (id, owner, "draft") →
      s1.reports = s.reports.filter (fun er => er.id ≠ id) →
      (s1.items = s.items.filter (fun ei => ei.reportID ≠ id) ∨ s1.items = s.items) →
      Step s s1
  | addItem (s1 : Store) (id owner : Int) (item : ExpenseItem) :
      (reportQuery id s).head? = some (id, owner, "draft") →
      item.reportID = id → (∀ i ∈ s.items, i.id < item.id) →
      s1.reports = s.reports → s1.items = s.items ++ [item] → Step s s1
  | rewriteItem (s1 : Store) (itemID reportID owner : Int)
      (f : ExpenseItem → ExpenseItem) :
      (∀ i, (f i).id = i.id ∧ (f i).reportID = i.reportID) →
      (itemReportQuery itemID s).head? = some (reportID, owner, "draft") →
      s1.reports = s.reports →
      s1.items = s.items.map (fun ei => if ei.id = itemID then f ei else ei) → Step s s1
  | settle (s1 : Store) (id : Int) (status : String) :
      status = "approved" ∨ status = "rejected" →
      s1.reports = s.reports.map
        (fun er =>
          if er.id = id ∧ er.status = "submitted" then { er with status := status }
          else er) →
      s1.items = s.items → Step s s1


/-- A statement that leaves the reports and the items as they are. -/
def Statement.KeepsReports (stmt : Statement) : Prop :=
  ∀ s s1 res, stmt s = .ok (s1, res) → s1.reports = s.reports ∧ s1.items = s.items

/-- The message with which the five handlers that change a draft report or its items
refuse a report that is not a draft; `none` for the other routes. -/
def Endpoint.draftOnly : Endpoint → Option String
  | .SubmitReport => some "only draft reports can be submitted"
  | .DeleteReport => some "only draft reports can be deleted"
  | .AddItem => some "items can only be added to draft reports"
  | .UpdateItem => some "items can only be updated in draft reports"
  | .UploadReceipt => some "receipts can only be uploaded for draft reports"
  | _ => Option.none

/-- The request `req` to the route `e` is well formed and its target is the report `r`
of the store `s`: the path parameter is the id of `r` on the routes of a report and the
id of an item of `r` on the routes of an item, and an upload carries a file. -/
def Targets (e : Endpoint) (req : Request) (s : Store) (r : ExpenseReport) : Prop :=
  r ∈ s.reports ∧
  match e with
  | .SubmitReport | .DeleteReport | .AddItem =>
    ParseInt ((req.params.lookup "id").getD "") = some r.id
  | .UpdateItem =>
    ∃ i ∈ s.items, i.reportID = r.id ∧
      ParseInt ((req.params.lookup "id").getD "") = some i.id
  | .UploadReceipt =>
    (∃ i ∈ s.items, i.reportID = r.id ∧
      ParseInt ((req.params.lookup "id").getD "") = some i.id) ∧ req.file ≠ Option.none
  | _ => False

/-- The store `s` with the status `status` written to the reports that `p` selects. -/
def Store.withStatus (s : Store) (p : ExpenseReport → Prop) [DecidablePred p]
    (status : String) : Store :=
  { s with
    reports := s.reports.map fun er => if p er then { er with status := status } else er }

/-- The request `req` to the route `e` is well formed and addressed to an id that does
not exist in the store `s`: the path parameter is an integer that is the id of no report,
on the routes of a report, or of no item, on the routes of an item, and an upload carries
a file. -/
def Missing (e : Endpoint) (req : Request) (s : Store) : Prop :=
  ∃ id, ParseInt ((req.params.lookup "id").getD "") = some id ∧
    match e with
    | .SubmitReport | .DeleteReport | .AddItem | .ApproveReport | .RejectReport =>
      ∀ r ∈ s.reports, r.id ≠ id
    | .UpdateItem | .GetReceipt => ∀ i ∈ s.items, i.id ≠ id
    | .UploadReceipt => (∀ i ∈ s.items, i.id ≠ id) ∧ req.file ≠ Option.none
    | _ => False

/-- The status and the message with which the routes of a report or of an item answer a
request for an id that does not exist; `none` for the other routes. -/
def Endpoint.notFound : Endpoint → Option (Nat × String)
  | .SubmitReport | .DeleteReport | .AddItem => some (404, "report not found")
  | .UpdateItem | .UploadReceipt | .GetReceipt => some (404, "item not found")
  | .ApproveReport | .RejectReport =>
    some (400, "report not found or not in submitted state")
  | _ => Option.none

/-- The tables that seeding writes hold in `s1` the rows they hold in `s`, in the same
order, possibly followed by more rows. -/
def Store.Extends (s s1 : Store) : Prop :=
  s.users <+: s1.users ∧ s.groups <+: s1.groups ∧ s.permissions <+: s1.permissions ∧
    s.groupPermissions <+: s1.groupPermissions

/-- A permission with the action `action` is stored. -/
def Store.HasPermission (s : Store) (action : String) : Prop :=
  ∃ id, (permissionIDQuery action s).head? = some id

/-- The permission that a lookup by `action` finds is granted to the group `groupID`. -/
def Store.Granted (s : Store) (groupID : Int) (action : String) : Prop :=
  ∃ id, (permissionIDQuery action s).head? = some id ∧ grantQuery groupID id s ≠ []

/-- The group of the definition `d` is stored, and the group that a lookup by its name
finds is granted every permission of the definition. -/
def Store.HasGroup (s : Store) (d : groupDef) : Prop :=
  ∃ id, (groupIDQuery d.name s).head? = some id ∧ ∀ action ∈ d.permissions, s.Granted id action

/-- The store holds what seeding provides: the default permissions, the default groups
with their grants, and at least one user. -/
def Store.Seeded (s : Store) : Prop :=
  (∀ action ∈ defaultPermissions, s.HasPermission action) ∧
    (∀ d ∈ defaultGroups, s.HasGroup d) ∧ s.users ≠ []

/-! ## Facts about Go maps -/

theorem GoMap.find_filter_ne {β : Type} (m : GoMap β) (k a : String) (h : a ≠ k) :
    (m.filter (fun e => e.1 != k)).find? (fun e => e.1 == a) =
      m.find? (fun e => e.1 == a) := by
  induction m with
  | nil => rfl
  | cons e rest ih =>
    rw [List.filter_cons, List.find?_cons]
    by_cases he : e.1 = k
    · have h1 : (e.1 == a) = false := by
        rw [beq_eq_false_iff_ne, he]
        exact fun x => h x.symm
      have h2 : (e.1 != k) = false := by simp [he]
      rw [h1, h2]
      simpa using ih
    · have h2 : (e.1 != k) = true := by simp [he]
      rw [h2]
      simp only [if_true, List.find?_cons]
      rw [ih]

theorem GoMap.lookup_set {β : Type} (m : GoMap β) (k a : String) (v : β) :
    (m.set k v).lookup a = if a = k then some v else m.lookup a := by
  unfold GoMap.set GoMap.lookup
  by_cases h : a = k
  · subst h
    simp [List.find?]
  · have hk : (k == a) = false := by
      rw [beq_eq_false_iff_ne]
      exact fun x => h x.symm
    rw [List.find?_cons]
    simp only [hk, h, if_false]
    rw [GoMap.find_filter_ne m k a h]

theorem GoMap.get_set (m : GoMap Bool) (k a : String) (v : Bool) :
    (m.set k v).get a = if a = k then v else m.get a := by
  unfold GoMap.get
  rw [GoMap.lookup_set]
  split <;> rfl

theorem GoMap.keys_set {β : Type} (m : GoMap β) (k : String) (v : β)
    (h : (m.map Prod.fst).Nodup) : ((m.set k v).map Prod.fst).Nodup := by
  unfold GoMap.set
  simp only [List.map_cons, List.nodup_cons, List.mem_map, List.mem_filter, not_exists,
    not_and]
  refine ⟨?_, ?_⟩
  · rintro ⟨a, b⟩ ⟨_, hne⟩ heq
    simp at hne heq
    exact hne heq
  · exact (List.Nodup.sublist (List.Sublist.map _ (List.filter_sublist _)) h)

/-- The map built by the loop of `GetUserPermissions` from the scanned rows. -/
theorem collect_get (rows : List String) (m : GoMap Bool) (a : String) :
    GoMap.get (rows.foldl (fun perms action => perms.set action true) m) a = true ↔
      a ∈ rows ∨ m.get a = true := by
  induction rows generalizing m with
  | nil => simp
  | cons r rest ih =>
    simp only [List.foldl_cons, ih, GoMap.get_set, List.mem_cons]
    by_cases h : a = r
    · simp [h]
    · simp [h]

theorem collect_keys (rows : List String) (m : GoMap Bool) (h : (m.map Prod.fst).Nodup) :
    ((rows.foldl (fun perms action => perms.set action true) m).map Prod.fst).Nodup := by
  induction rows generalizing m with
  | nil => simpa using h
  | cons r rest ih => exact ih _ (GoMap.keys_set m r true h)

theorem mem_userPermissionsQuery (s : Store) (U : Int) (a : String) :
    a ∈ userPermissionsQuery U s ↔
      ∃ ug ∈ s.userGroups, ∃ gp ∈ s.groupPermissions, ∃ p ∈ s.permissions,
        ug.userID = U ∧ gp.groupID = ug.groupID ∧ gp.permissionID = p.id ∧ p.action = a := by
  unfold userPermissionsQuery
  simp only [List.mem_flatMap, List.mem_filter, List.mem_map, decide_eq_true_eq]
  constructor
  · rintro ⟨p, hp, gp, ⟨hgp, hpid⟩, ug, ⟨⟨hug, hg⟩, hu⟩, ha⟩
    exact ⟨ug, hug, gp, hgp, p, hp, hu, hg.symm, hpid, ha⟩
  · rintro ⟨ug, hug, gp, hgp, p, hp, hu, hg, hpid, ha⟩
    exact ⟨p, hp, gp, ⟨hgp, hpid⟩, ug, ⟨⟨hug, hg.symm⟩, hu⟩, ha⟩

theorem userPermissionsQuery_nil (s : Store) (U : Int)
    (h : ∀ ug ∈ s.userGroups, ug.userID ≠ U) : userPermissionsQuery U s = [] := by
  apply List.eq_nil_iff_forall_not_mem.mpr
  intro a ha
  obtain ⟨ug, hug, _, _, _, _, hu, _⟩ := (mem_userPermissionsQuery s U a).mp ha
  exact h ug hug hu

/-! ## Permission resolution -/

/-- C1. On every store and for every user id, `GetUserPermissions` returns without
error a map whose true keys are exactly the actions granted to some group the user is a
member of; every action occurs once in it; and the map is empty unless the user is a
member of some group. -/
theorem GetUserPermissions_spec (s : Store) (U : Int) :
    ∃ perms : GoMap Bool,
      GetUserPermissions { store := s, failing := false } U = .ok perms ∧
      (∀ a, perms.get a = true ↔
        ∃ ug ∈ s.userGroups, ∃ gp ∈ s.groupPermissions, ∃ p ∈ s.permissions,
          ug.userID = U ∧ gp.groupID = ug.groupID ∧ gp.permissionID = p.id ∧
            p.action = a) ∧
      (perms.map Prod.fst).Nodup ∧
      (perms = [] ∨ ∃ ug ∈ s.userGroups, ug.userID = U) := by
  refine ⟨_, rfl, ?_, ?_, ?_⟩
  · intro a
    show GoMap.get ((userPermissionsQuery U s).foldl _ []) a = true ↔ _
    rw [collect_get, mem_userPermissionsQuery]
    simp [GoMap.get, GoMap.lookup]
  · exact collect_keys _ [] (by simp)
  · by_cases h : ∃ ug ∈ s.userGroups, ug.userID = U
    · exact Or.inr h
    · left
      have h2 : ∀ ug ∈ s.userGroups, ug.userID ≠ U := fun ug hug hu => h ⟨ug, hug, hu⟩
      show (userPermissionsQuery U s).foldl _ [] = []
      rw [userPermissionsQuery_nil s U h2]
      rfl

/-- C2. `UserHasPermission` answers `true` exactly when the action is a true key of the
map returned by `GetUserPermissions`, and fails exactly when `GetUserPermissions`
fails, with the same error. -/
theorem UserHasPermission_spec (db : DB) (U : Int) (a : String) :
    (∀ b, UserHasPermission db U a = .ok b ↔
      ∃ perms, GetUserPermissions db U = .ok perms ∧ (b = true ↔ perms.get a = true)) ∧
    (∀ e, UserHasPermission db U a = .error e ↔ GetUserPermissions db U = .error e) := by
  unfold UserHasPermission
  cases h : GetUserPermissions db U with
  | error e0 => simp
  | ok perms =>
    simp only [Except.ok.injEq, exists_eq_left', reduceCtorEq, iff_false, not_false_eq_true,
      implies_true, and_true]
    intro b
    cases b <;> cases perms.get a <;> simp

/-! ## The permission guard -/

theorem UserHasPermission_ok (s : Store) (U : Int) (a : String) :
    ∃ perms, GetUserPermissions { store := s, failing := false } U = .ok perms ∧
      UserHasPermission { store := s, failing := false } U a = .ok (perms.get a) :=
  ⟨_, rfl, rfl⟩

/-- The two outcomes of `RequirePermission` on a working store, for a context that
carries the user id. -/
theorem RequirePermission_guard (s : Store) (c : Context) (U : Int) (a : String)
    (hU : c.Get ContextUserIDKey = some (.int64 U)) :
    ∃ perms, GetUserPermissions { store := s, failing := false } U = .ok perms ∧
      RequirePermission a c { store := s, failing := false } =
        (if perms.get a then c else c.AbortWithStatusJSON 403 "forbidden",
          { store := s, failing := false }) := by
  obtain ⟨perms, hp, hh⟩ := UserHasPermission_ok s U a
  refine ⟨perms, hp, ?_⟩
  unfold RequirePermission
  simp only [hU, hh]
  cases perms.get a <;> simp

/-- C3. For a request that carries the authenticated user id `U` and has not been
aborted, on a store whose query succeeds, `RequirePermission a` aborts with
`403 forbidden` exactly when `a` is not a true key of the permission map resolved for
`U`; otherwise it hands the context on unchanged.  The database is left as it was. -/
theorem RequirePermission_spec (s : Store) (c : Context) (U : Int) (a : String)
    (hU : c.Get ContextUserIDKey = some (.int64 U)) (hc : c.aborted = false) :
    ∃ perms, GetUserPermissions { store := s, failing := false } U = .ok perms ∧
      RequirePermission a c { store := s, failing := false } =
        (if perms.get a then c else c.AbortWithStatusJSON 403 "forbidden",
          { store := s, failing := false }) ∧
      (((RequirePermission a c { store := s, failing := false }).1.aborted = true ∧
          (RequirePermission a c { store := s, failing := false }).1.response =
            some (.errorJSON 403 "forbidden")) ↔ perms.get a = false) := by
  obtain ⟨perms, hp, heq⟩ := RequirePermission_guard s c U a hU
  refine ⟨perms, hp, heq, ?_⟩
  rw [heq]
  cases hg : perms.get a
  · simp [Context.AbortWithStatusJSON]
  · simp [hc]

/-- Witness of C3: in the sample store user 3 does not hold `reports:approve`. -/
theorem RequirePermission_spec_witness :
    ∃ perms, GetUserPermissions { store := sampleStore, failing := false } 3 = .ok perms ∧
      RequirePermission PermReportsApprove (authenticatedContext (anonymousRequest "10") 3)
          { store := sampleStore, failing := false } =
        (if perms.get PermReportsApprove then authenticatedContext (anonymousRequest "10") 3
          else (authenticatedContext (anonymousRequest "10") 3).AbortWithStatusJSON 403
            "forbidden",
          { store := sampleStore, failing := false }) ∧
      (((RequirePermission PermReportsApprove
            (authenticatedContext (anonymousRequest "10") 3)
            { store := sampleStore, failing := false }).1.aborted = true ∧
          (RequirePermission PermReportsApprove
            (authenticatedContext (anonymousRequest "10") 3)
            { store := sampleStore, failing := false }).1.response =
            some (.errorJSON 403 "forbidden")) ↔ perms.get PermReportsApprove = false) :=
  RequirePermission_spec sampleStore (authenticatedContext (anonymousRequest "10") 3) 3
    PermReportsApprove (by decide) (by decide)

/-! ## Authentication comes first -/

theorem runChain_aborted (h : HandlerFunc) (rest : List HandlerFunc) (c : Context) (db : DB)
    (ha : (h c db).1.aborted = true) : runChain (h :: rest) c db = h c db := by
  simp [runChain, ha]

theorem runChain_passed (h : HandlerFunc) (rest : List HandlerFunc) (c : Context) (db : DB)
    (ha : (h c db).1.aborted = false) :
    runChain (h :: rest) c db = runChain rest (h c db).1 (h c db).2 := by
  simp [runChain, ha]

/-- `jwt.Parse` hands back a `MapClaims` whenever it succeeds. -/
theorem jwtParse_ok_mapClaims (secret : String) (now : Int) (ts : TokenString)
    (claims : Claims) (h : jwtParse secret now ts = .ok claims) :
    ∃ m, claims = .MapClaims m := by
  unfold jwtParse at h
  split at h
  · exact absurd h (by simp)
  · split at h
    · split at h
      · split at h
        · exact absurd h (by simp)
        · split at h
          · exact absurd h (by simp)
          · split at h
            · split at h
              · split at h
                · exact ⟨_, (Except.ok.inj h).symm⟩
                · exact absurd h (by simp)
              · exact absurd h (by simp)
            · exact absurd h (by simp)
      · exact absurd h (by simp)
    · exact absurd h (by simp)

/-- What `AuthMiddleware` answers in each way a bearer token can fail, for a request
without `X-API-Key` header. -/
theorem AuthMiddleware_rejected_message (secret : String) (now : Int) (c : Context) (db : DB)
    (hkey : c.request.apiKey = "") :
    (hasBearerPrefix c.request.authorization = false →
      AuthMiddleware secret now c db =
        (c.AbortWithStatusJSON 401 "missing or invalid Authorization header", db)) ∧
    (hasBearerPrefix c.request.authorization = true →
      ∀ e, jwtParse secret now c.request.authorization.credentials = .error e →
        AuthMiddleware secret now c db = (c.AbortWithStatusJSON 401 "invalid token", db)) ∧
    (hasBearerPrefix c.request.authorization = true →
      ∀ m, jwtParse secret now c.request.authorization.credentials = .ok (.MapClaims m) →
        (∀ f, m.lookup "sub" ≠ some (.float64 f)) →
        AuthMiddleware secret now c db =
          (c.AbortWithStatusJSON 401 "invalid token subject", db)) := by
  refine ⟨?_, ?_, ?_⟩
  · intro hp
    simp [AuthMiddleware, hkey, hp]
  · intro hp e he
    simp [AuthMiddleware, hkey, hp, he]
  · intro hp m hm hsub
    simp only [AuthMiddleware, hkey, hp, hm]
    cases hl : m.lookup "sub" with
    | none => simp
    | some v =>
      cases v with
      | float64 f => exact absurd hl (hsub f)
      | _ => simp

theorem AuthMiddleware_rejected (secret : String) (now : Int) (c : Context) (db : DB)
    (h : BearerRejected secret now c.request.authorization) :
    ∃ msg, AuthMiddleware secret now c db = (c.AbortWithStatusJSON 401 msg, db) := by
  by_cases hkey : c.request.apiKey = ""
  · obtain ⟨h1, h2, h3⟩ := AuthMiddleware_rejected_message secret now c db hkey
    by_cases hp : hasBearerPrefix c.request.authorization = true
    · rcases h with h | ⟨e, he⟩ | ⟨m, hm, hsub⟩
      · rw [hp] at h
        exact absurd h (by simp)
      · exact ⟨_, h2 hp e he⟩
      · exact ⟨_, h3 hp m hm hsub⟩
    · exact ⟨_, h1 (by simpa using hp)⟩
  · exact ⟨"API keys not supported", by simp [AuthMiddleware, hkey]⟩

/-- C4. When the bearer token of a request is absent, malformed or fails verification,
the chain of any protected route (the group middleware followed by any further
handlers) ends in `AuthMiddleware`: the outcome is the one of the middleware alone, a
`401` abort, so no permission guard or handler runs; the database is untouched; and the
context that results is the same over any two databases, hence independent of what the
store holds. -/
theorem unauthenticated_before_store (secret : String) (now : Int) (req : Request)
    (rest : List HandlerFunc) (db1 db2 : DB)
    (h : BearerRejected secret now req.authorization) :
    runChain (AuthMiddleware secret now :: rest) (Context.new req) db1 =
        AuthMiddleware secret now (Context.new req) db1 ∧
      (runChain (AuthMiddleware secret now :: rest) (Context.new req) db1).1.Unauthenticated ∧
      (runChain (AuthMiddleware secret now :: rest) (Context.new req) db1).2 = db1 ∧
      (runChain (AuthMiddleware secret now :: rest) (Context.new req) db1).1 =
        (runChain (AuthMiddleware secret now :: rest) (Context.new req) db2).1 := by
  obtain ⟨msg, hm⟩ := AuthMiddleware_rejected secret now (Context.new req) db1 h
  obtain ⟨msg2, hm2⟩ := AuthMiddleware_rejected secret now (Context.new req) db2 h
  have hmsg : AuthMiddleware secret now (Context.new req) db2 =
      ((Context.new req).AbortWithStatusJSON 401 msg, db2) := by
    have e1 : (AuthMiddleware secret now (Context.new req) db1).1 =
        (AuthMiddleware secret now (Context.new req) db2).1 := by
      simp only [AuthMiddleware]
      repeat' split
      all_goals rfl
    rw [hm, hm2] at e1
    rw [hm2]
    exact congrArg (fun x => (x, db2)) e1.symm
  have r1 := runChain_aborted (AuthMiddleware secret now) rest (Context.new req) db1
    (by rw [hm]; rfl)
  have r2 := runChain_aborted (AuthMiddleware secret now) rest (Context.new req) db2
    (by rw [hmsg]; rfl)
  rw [r1, r2, hm, hmsg]
  exact ⟨rfl, ⟨rfl, msg, rfl⟩, rfl, rfl⟩

/-- Witness of C4: a request without `Authorization` header for the receipt of an item
that exists in one store and not in the other. -/
theorem unauthenticated_before_store_witness :
    runChain (getReceiptRoute "secret" 0 "./data") (Context.new (anonymousRequest "100"))
        sampleDB =
        AuthMiddleware "secret" 0 (Context.new (anonymousRequest "100")) sampleDB ∧
      (runChain (getReceiptRoute "secret" 0 "./data") (Context.new (anonymousRequest "100"))
        sampleDB).1.Unauthenticated ∧
      (runChain (getReceiptRoute "secret" 0 "./data") (Context.new (anonymousRequest "100"))
        sampleDB).2 = sampleDB ∧
      (runChain (getReceiptRoute "secret" 0 "./data") (Context.new (anonymousRequest "100"))
        sampleDB).1 =
        (runChain (getReceiptRoute "secret" 0 "./data")
          (Context.new (anonymousRequest "100")) emptyDB).1 :=
  unauthenticated_before_store "secret" 0 (anonymousRequest "100")
    [RequirePermission PermReportsReadOwn, GetReceipt "./data"] sampleDB emptyDB
    (Or.inl (by decide))

/-! ## What a refused token reveals -/

/-- Counterexample to C5: three requests whose bearer token fails (no `Authorization`
header; a malformed token; a correctly signed token whose subject is a string) get
three different error bodies. -/
theorem unauthenticated_bodies_differ :
    BearerRejected "secret" 0 (anonymousRequest "1").authorization ∧
      BearerRejected "secret" 0 (bearerRequest (.malformed "x.y") "1").authorization ∧
      BearerRejected "secret" 0 (bearerRequest stringSubjectToken "1").authorization ∧
      (AuthMiddleware "secret" 0 (Context.new (anonymousRequest "1")) sampleDB).1.response =
        some (.errorJSON 401 "missing or invalid Authorization header") ∧
      (AuthMiddleware "secret" 0 (Context.new (bearerRequest (.malformed "x.y") "1"))
        sampleDB).1.response = some (.errorJSON 401 "invalid token") ∧
      (AuthMiddleware "secret" 0 (Context.new (bearerRequest stringSubjectToken "1"))
        sampleDB).1.response = some (.errorJSON 401 "invalid token subject") ∧
      (AuthMiddleware "secret" 0 (Context.new (anonymousRequest "1")) sampleDB).1.response ≠
        (AuthMiddleware "secret" 0 (Context.new (bearerRequest (.malformed "x.y") "1"))
          sampleDB).1.response :=
  ⟨Or.inl (by decide), Or.inr (Or.inl ⟨.ErrTokenMalformed, by decide⟩),
    Or.inr (Or.inr ⟨[("sub", .string "alice")], by decide, fun f hf => by
      have hs : GoMap.lookup [("sub", Any.string "alice")] "sub" =
          some (Any.string "alice") := by decide
      rw [hs] at hf
      cases hf⟩),
    by decide, by decide, by decide, by decide⟩

/-- C5, amended. For a request without `X-API-Key` header, every way in which the
bearer token fails yields a `401` abort, and the error body is fixed by the stage that
failed: the header message when the `Authorization` header is missing or not a bearer
header, `invalid token` for every error of `jwt.Parse` (malformed token, bad signature,
unexpected algorithm, expired token), `invalid token subject` when the verified claims
have no numeric subject.  Two requests that both fail inside `jwt.Parse` get one and
the same response, whatever the two errors are. -/
theorem unauthenticated_body_by_stage (secret : String) (now : Int) (c c2 : Context)
    (db db2 : DB) (hkey : c.request.apiKey = "") (hkey2 : c2.request.apiKey = "") :
    (BearerRejected secret now c.request.authorization →
      ∃ msg, AuthMiddleware secret now c db = (c.AbortWithStatusJSON 401 msg, db)) ∧
    (hasBearerPrefix c.request.authorization = false →
      AuthMiddleware secret now c db =
        (c.AbortWithStatusJSON 401 "missing or invalid Authorization header", db)) ∧
    (hasBearerPrefix c.request.authorization = true →
      ∀ e, jwtParse secret now c.request.authorization.credentials = .error e →
        AuthMiddleware secret now c db = (c.AbortWithStatusJSON 401 "invalid token", db)) ∧
    (hasBearerPrefix c.request.authorization = true →
      ∀ m, jwtParse secret now c.request.authorization.credentials = .ok (.MapClaims m) →
        (∀ f, m.lookup "sub" ≠ some (.float64 f)) →
        AuthMiddleware secret now c db =
          (c.AbortWithStatusJSON 401 "invalid token subject", db)) ∧
    (hasBearerPrefix c.request.authorization = true →
      hasBearerPrefix c2.request.authorization = true →
      ∀ e e2, jwtParse secret now c.request.authorization.credentials = .error e →
        jwtParse secret now c2.request.authorization.credentials = .error e2 →
        (AuthMiddleware secret now c db).1.response =
          (AuthMiddleware secret now c2 db2).1.response) := by
  obtain ⟨h1, h2, h3⟩ := AuthMiddleware_rejected_message secret now c db hkey
  obtain ⟨_, k2, _⟩ := AuthMiddleware_rejected_message secret now c2 db2 hkey2
  refine ⟨AuthMiddleware_rejected secret now c db, h1, h2, h3, ?_⟩
  intro hp hp2 e e2 he he2
  rw [h2 hp e he, k2 hp2 e2 he2]
  rfl

/-- Witness of C5, amended: a malformed token and a token signed with another key. -/
theorem unauthenticated_body_by_stage_witness :
    (AuthMiddleware "secret" 0 (Context.new (bearerRequest (.malformed "x.y") "1"))
        sampleDB).1.response =
      (AuthMiddleware "secret" 0 (Context.new (bearerRequest (issuedToken "other" 0 1) "1"))
        emptyDB).1.response :=
  (unauthenticated_body_by_stage "secret" 0
    (Context.new (bearerRequest (.malformed "x.y") "1"))
    (Context.new (bearerRequest (issuedToken "other" 0 1) "1")) sampleDB emptyDB
    (by decide) (by decide)).2.2.2.2 (by decide) (by decide) .ErrTokenMalformed
    .ErrTokenSignatureInvalid (by decide) (by decide)

/-! ## Signing algorithm -/

theorem GoMap.mem_of_lookup {β : Type} (m : GoMap β) (k : String) (v : β)
    (h : m.lookup k = some v) : (k, v) ∈ m := by
  unfold GoMap.lookup at h
  cases hf : m.find? (fun e => e.1 == k) with
  | none => simp [hf] at h
  | some e =>
    rw [hf] at h
    have hk : e.1 = k := by simpa using List.find?_some hf
    have hv : e.2 = v := by simpa using h
    have hm := List.mem_of_find?_eq_some hf
    rw [← hk, ← hv]
    exact hm

theorem keyFunc_not_HMAC (secret alg : String) (h256 : alg ≠ "HS256") (h384 : alg ≠ "HS384")
    (h512 : alg ≠ "HS512") (method : SigningMethod)
    (hm : GetSigningMethod alg = some method) :
    keyFunc secret method = .error .ErrTokenMalformed := by
  have hmem := GoMap.mem_of_lookup signingMethods alg method hm
  cases method with
  | HMAC hash =>
    exfalso
    simp only [signingMethods, List.mem_cons, Prod.mk.injEq, List.mem_nil_iff, or_false,
      reduceCtorEq, and_false, false_or, or_false] at hmem
    rcases hmem with ⟨h, _⟩ | ⟨h, _⟩ | ⟨h, _⟩
    · exact h256 h
    · exact h384 h
    · exact h512 h
  | _ => rfl

theorem jwtParse_not_HMAC (secret : String) (now : Int) (t : Token) (alg : String)
    (halg : t.alg = some alg) (h256 : alg ≠ "HS256") (h384 : alg ≠ "HS384")
    (h512 : alg ≠ "HS512") :
    jwtParse secret now (.compact t) = .error .ErrTokenUnverifiable ∨
      jwtParse secret now (.compact t) = .error .ErrTokenMalformed := by
  unfold Token.alg at halg
  unfold jwtParse
  cases hh : decodeObject t.header with
  | none => simp [hh] at halg
  | some header =>
    simp only [hh] at halg
    cases hp : decodeObject t.payload with
    | none => right; simp only [hh, hp]
    | some claims =>
      left
      cases hl : header.lookup "alg" with
      | none => simp [hl] at halg
      | some v =>
        cases v with
        | string a =>
          simp only [hl, Option.some.injEq] at halg
          subst halg
          cases hm : GetSigningMethod a with
          | none => simp only [hh, hp, hl, hm]
          | some method =>
            simp only [hh, hp, hl, hm, keyFunc_not_HMAC secret a h256 h384 h512 method hm]
        | _ => simp [hl] at halg

/-- C6. A token whose header names a signing algorithm other than HS256, HS384 and
HS512 (the HMAC family) is refused by `AuthMiddleware` with a `401` abort, whatever its
claims and its signature are, at every time, for every secret; the user id is not put
into the request context. -/
theorem non_HMAC_token_rejected (secret : String) (now : Int) (c : Context) (db : DB)
    (t : Token) (alg : String) (hcred : c.request.authorization.credentials = .compact t)
    (halg : t.alg = some alg) (h256 : alg ≠ "HS256") (h384 : alg ≠ "HS384")
    (h512 : alg ≠ "HS512") :
    ∃ msg, AuthMiddleware secret now c db = (c.AbortWithStatusJSON 401 msg, db) := by
  apply AuthMiddleware_rejected
  right; left
  rw [hcred]
  rcases jwtParse_not_HMAC secret now t alg halg h256 h384 h512 with h | h
  · exact ⟨_, h⟩
  · exact ⟨_, h⟩

/-- Witness of C6: an unsigned token with algorithm `none` and the subject of the
administrator. -/
theorem non_HMAC_token_rejected_witness :
    ∃ msg, AuthMiddleware "secret" 0 (Context.new (bearerRequest (.compact noneToken) "1"))
        sampleDB =
      ((Context.new (bearerRequest (.compact noneToken) "1")).AbortWithStatusJSON 401 msg,
        sampleDB) :=
  non_HMAC_token_rejected "secret" 0 (Context.new (bearerRequest (.compact noneToken) "1"))
    sampleDB noneToken "none" rfl (by decide) (by decide) (by decide) (by decide)

/-! ## Numbers of a token -/

theorem bitLength_le (fuel m k : Nat) (h : m < 2 ^ k) : bitLength fuel m ≤ k := by
  induction fuel generalizing m k with
  | zero => simp [bitLength]
  | succ fuel ih =>
    unfold bitLength
    split
    · exact Nat.zero_le _
    · rename_i hm
      cases k with
      | zero => simp at h; exact absurd h hm
      | succ k =>
        have h2 : m / 2 < 2 ^ k := by
          rw [Nat.div_lt_iff_lt_mul (by norm_num)]
          rw [pow_succ] at h
          exact h
        exact Nat.succ_le_succ (ih (m / 2) k h2)

theorem pow_bitLength_le (fuel m : Nat) (hm : m ≠ 0) : 2 ^ (bitLength fuel m - 1) ≤ m := by
  induction fuel generalizing m with
  | zero => simpa [bitLength] using Nat.pos_of_ne_zero hm
  | succ fuel ih =>
    unfold bitLength
    rw [if_neg hm, Nat.add_sub_cancel]
    by_cases h2 : m / 2 = 0
    · have hz : bitLength fuel (m / 2) = 0 := by
        rw [h2]
        cases fuel <;> simp [bitLength]
      rw [hz]
      simpa using Nat.pos_of_ne_zero hm
    · have := ih (m / 2) h2
      cases hb : bitLength fuel (m / 2) with
      | zero => simpa using Nat.pos_of_ne_zero hm
      | succ b =>
        rw [hb, Nat.add_sub_cancel] at this
        rw [pow_succ]
        omega

theorem float64OfInt_two_pow_53 :
    float64OfInt 9007199254740992 = some 9007199254740992 ∧
      float64OfInt (-9007199254740992) = some (-9007199254740992) := by
  constructor <;> decide

/-- An integer of magnitude at most `2 ^ 53` is a `float64`. -/
theorem float64OfInt_exact (n : Int) (h : n.natAbs ≤ 2 ^ 53) : float64OfInt n = some n := by
  rcases Nat.lt_or_eq_of_le h with hlt | heq
  · unfold float64OfInt
    simp only [bitLength_le n.natAbs n.natAbs 53 hlt, if_true]
  · have hn : n = 9007199254740992 ∨ n = -9007199254740992 := by omega
    rcases hn with hn | hn
    · rw [hn]
      exact float64OfInt_two_pow_53.1
    · rw [hn]
      exact float64OfInt_two_pow_53.2

theorem rounded_le (m p q1 : Nat) (hp : p ≤ m) (hq : q1 ≤ m / p + 1)
    (hm : m ≤ 2 ^ 63) : q1 * p ≤ 2 ^ 64 := by
  have hdiv := Nat.div_mul_le_self m p
  have hv := Nat.mul_le_mul_right p hq
  rw [Nat.add_mul, Nat.one_mul] at hv
  omega

theorem roundToEven_le (m shift : Nat) (hs : 2 ^ shift ≤ m) (hm : m ≤ 2 ^ 63) :
    roundToEven m shift ≤ 2 ^ 64 := by
  unfold roundToEven
  apply rounded_le m (2 ^ shift) _ hs _ hm
  split <;> omega

/-- Every `int64` decodes to some `float64`. -/
theorem float64OfInt_isSome (n : Int) (h : n.natAbs ≤ 2 ^ 63) :
    ∃ f, float64OfInt n = some f := by
  unfold float64OfInt
  by_cases hbits : bitLength n.natAbs n.natAbs ≤ 53
  · exact ⟨n, by simp only [hbits, if_true]⟩
  · have hm : n.natAbs ≠ 0 := by
      intro h0
      rw [h0] at hbits
      simp [bitLength] at hbits
    have hpow := pow_bitLength_le n.natAbs n.natAbs hm
    have hshift : 2 ^ (bitLength n.natAbs n.natAbs - 53) ≤ n.natAbs :=
      le_trans (Nat.pow_le_pow_right (by norm_num) (by omega)) hpow
    have hv := roundToEven_le n.natAbs _ hshift h
    have hlen := bitLength_le (roundToEven n.natAbs (bitLength n.natAbs n.natAbs - 53))
      (roundToEven n.natAbs (bitLength n.natAbs n.natAbs - 53)) 65
      (lt_of_le_of_lt hv (by norm_num))
    have hbig : ¬ 1024 < bitLength (roundToEven n.natAbs (bitLength n.natAbs n.natAbs - 53))
        (roundToEven n.natAbs (bitLength n.natAbs n.natAbs - 53)) := by omega
    exact ⟨n.sign * (roundToEven n.natAbs (bitLength n.natAbs n.natAbs - 53) : Nat), by
      simp only [hbits, hbig, if_false]⟩

theorem int64OfFloat64_exact (f : Int) (h1 : -(2 : Int) ^ 63 ≤ f) (h2 : f < (2 : Int) ^ 63) :
    int64OfFloat64 f = f := by
  unfold int64OfFloat64
  rw [if_pos ⟨h1, h2⟩]

/-! ## Issued tokens -/

theorem decodeObject_claims (e u fe fu : Int) (he : float64OfInt e = some fe)
    (hu : float64OfInt u = some fu) :
    decodeObject [("exp", .number e), ("sub", .number u)] =
      some [("exp", .float64 fe), ("sub", .float64 fu)] := by
  have h1 : decodeObject [("sub", .number u)] = some [("sub", .float64 fu)] := by
    simp [decodeObject, decodeValue, hu, GoMap.lookup, GoMap.set]
  unfold decodeObject
  rw [h1]
  simp only [decodeValue, he, Option.map_some']
  have h2 : GoMap.lookup [("sub", Any.float64 fu)] "exp" = Option.none := by
    simp [GoMap.lookup]
  rw [h2]
  simp [GoMap.set]

theorem decodeObject_header :
    decodeObject [("alg", .string "HS256"), ("typ", .string "JWT")] =
      some [("alg", .string "HS256"), ("typ", .string "JWT")] := by
  decide

/-- What `jwt.Parse` makes of a token issued by `generateJWT` whose numbers are read as
the `float64` values `fe` and `fu`. -/
theorem jwtParse_issued (secret : String) (t now u fe fu : Int)
    (he : float64OfInt ((t + 24 * Hour) / Second) = some fe)
    (hu : float64OfInt u = some fu) :
    jwtParse secret now (issuedToken secret t u) =
      if fe = 0 ∨ now < numericDate fe then
        .ok (.MapClaims [("exp", .float64 fe), ("sub", .float64 fu)])
      else .error .ErrTokenInvalidClaims := by
  have hl : GoMap.lookup [("alg", Any.string "HS256"), ("typ", Any.string "JWT")] "alg" =
      some (Any.string "HS256") := by decide
  have hg : GetSigningMethod "HS256" = some (.HMAC .sha256) := by decide
  have hexp : GoMap.lookup [("exp", Any.float64 fe), ("sub", Any.float64 fu)] "exp" =
      some (Any.float64 fe) := by simp [GoMap.lookup]
  have hnbf : GoMap.lookup [("exp", Any.float64 fe), ("sub", Any.float64 fu)] "nbf" =
      Option.none := by simp [GoMap.lookup]
  simp only [issuedToken, generateJWT, jwtParse, decodeObject_header,
    decodeObject_claims _ _ _ _ he hu, hl, hg, keyFunc, verifyHMAC, decide_True, if_true,
    verifyExpiresAt, verifyNotBefore, hexp, hnbf, Bool.and_true]
  by_cases h0 : fe = 0
  · simp [h0]
  · by_cases hn : now < numericDate fe
    · simp [h0, hn]
    · simp [h0, hn]

theorem lookup_sub (fe fu : Int) :
    GoMap.lookup [("exp", Any.float64 fe), ("sub", Any.float64 fu)] "sub" =
      some (Any.float64 fu) := by
  simp [GoMap.lookup]

/-- What `AuthMiddleware` does with a token issued by `generateJWT`. -/
theorem AuthMiddleware_issued (secret : String) (t now u fe fu : Int) (id : String) (db : DB)
    (he : float64OfInt ((t + 24 * Hour) / Second) = some fe)
    (hu : float64OfInt u = some fu) :
    AuthMiddleware secret now (Context.new (bearerRequest (issuedToken secret t u) id)) db =
      if fe = 0 ∨ now < numericDate fe then
        (authenticatedContext (bearerRequest (issuedToken secret t u) id)
          (int64OfFloat64 fu), db)
      else
        ((Context.new (bearerRequest (issuedToken secret t u) id)).AbortWithStatusJSON 401
          "invalid token", db) := by
  have hp : hasBearerPrefix (bearerRequest (issuedToken secret t u) id).authorization
      = true := by
    show ("bearer ".data).isPrefixOf ("Bearer ".data.map Char.toLower) = true
    decide
  have hk : (bearerRequest (issuedToken secret t u) id).apiKey = "" := rfl
  have hc : (bearerRequest (issuedToken secret t u) id).authorization.credentials =
      issuedToken secret t u := rfl
  unfold AuthMiddleware
  simp only [Context.new, hk, hp, hc, jwtParse_issued secret t now u fe fu he hu]
  by_cases h : fe = 0 ∨ now < numericDate fe
  · simp only [h, if_true, lookup_sub]
    simp [authenticatedContext, Context.new]
  · simp only [h, if_false]
    simp

theorem expiry_exact (t : Int) (h1 : -(2 : Int) ^ 63 ≤ t) (h2 : t < (2 : Int) ^ 63) :
    float64OfInt ((t + 24 * Hour) / Second) = some ((t + 24 * Hour) / Second) ∧
      numericDate ((t + 24 * Hour) / Second) = (t + 24 * Hour) / Second * Second := by
  have hb : -(2 : Int) ^ 53 < (t + 24 * Hour) / Second ∧
      (t + 24 * Hour) / Second < (2 : Int) ^ 53 := by
    unfold Hour Second
    constructor <;> omega
  constructor
  · apply float64OfInt_exact
    omega
  · unfold numericDate
    rw [int64OfFloat64_exact _ (by omega) (by omega)]
    simp only
    rw [if_neg (by omega)]
    congr 1
    omega

/-- Counterexample to C7: the token issued for the user id `2 ^ 53 + 1` is accepted, and
the user id put into the request context is `2 ^ 53`. -/
theorem subject_round_trip_fails :
    generateJWT "secret" 0 9007199254740993 =
        .ok (issuedToken "secret" 0 9007199254740993) ∧
      (AuthMiddleware "secret" 0
        (Context.new (bearerRequest (issuedToken "secret" 0 9007199254740993) "1"))
        sampleDB).1.aborted = false ∧
      (AuthMiddleware "secret" 0
        (Context.new (bearerRequest (issuedToken "secret" 0 9007199254740993) "1"))
        sampleDB).1.Get ContextUserIDKey = some (.int64 9007199254740992) ∧
      (AuthMiddleware "secret" 0
        (Context.new (bearerRequest (issuedToken "secret" 0 9007199254740993) "1"))
        sampleDB).1.Get ContextUserIDKey ≠ some (.int64 9007199254740993) := by
  refine ⟨rfl, ?_, ?_, ?_⟩ <;> decide

/-- C7, amended. For every user id `u` with `|u| ≤ 2 ^ 53` and every issue time `t` in
the range of `int64` nanoseconds, the token produced by `generateJWT` at `t`, presented
under the same secret at any time `now` before its expiry instant, is accepted by
`AuthMiddleware`, and the user id put into the request context is `u`. -/
theorem subject_round_trip (secret : String) (t now u : Int) (id : String) (db : DB)
    (hu1 : -(2 : Int) ^ 53 ≤ u) (hu2 : u ≤ (2 : Int) ^ 53)
    (ht1 : -(2 : Int) ^ 63 ≤ t) (ht2 : t < (2 : Int) ^ 63)
    (hnow : now < (t + 24 * Hour) / Second * Second) :
    ∃ token, generateJWT secret t u = .ok token ∧
      AuthMiddleware secret now (Context.new (bearerRequest token id)) db =
        (authenticatedContext (bearerRequest token id) u, db) ∧
      (AuthMiddleware secret now (Context.new (bearerRequest token id)) db).1.aborted =
        false ∧
      (AuthMiddleware secret now (Context.new (bearerRequest token id)) db).1.Get
        ContextUserIDKey = some (.int64 u) := by
  obtain ⟨he, hd⟩ := expiry_exact t ht1 ht2
  have hu : float64OfInt u = some u := float64OfInt_exact u (by omega)
  have hi : int64OfFloat64 u = u := int64OfFloat64_exact u (by omega) (by omega)
  have hm := AuthMiddleware_issued secret t now u _ u id db he hu
  rw [hd, if_pos (Or.inr hnow), hi] at hm
  refine ⟨issuedToken secret t u, rfl, hm, ?_, ?_⟩
  · rw [hm]
    rfl
  · rw [hm]
    rfl

/-- Witness of C7, amended: user 42, token issued at 1.5 s and presented one day
later. -/
theorem subject_round_trip_witness :
    ∃ token, generateJWT "secret" 1500000000 42 = .ok token ∧
      AuthMiddleware "secret" 86400000000000 (Context.new (bearerRequest token "1"))
          sampleDB =
        (authenticatedContext (bearerRequest token "1") 42, sampleDB) ∧
      (AuthMiddleware "secret" 86400000000000 (Context.new (bearerRequest token "1"))
        sampleDB).1.aborted = false ∧
      (AuthMiddleware "secret" 86400000000000 (Context.new (bearerRequest token "1"))
        sampleDB).1.Get ContextUserIDKey = some (.int64 42) :=
  subject_round_trip "secret" 1500000000 86400000000000 42 "1" sampleDB (by decide)
    (by decide) (by decide) (by decide) (by decide)

/-- C8, amended. A token issued by `generateJWT` at time `t` (a clock reading from 1970
on, in `int64` nanoseconds) for an `int64` user id carries `exp` equal to `t` plus 24
hours in whole seconds.  With `E` the instant of that second, `AuthMiddleware` accepts
the token exactly at the times before `E` and refuses it with `401` exactly at the times
at or after `E`; `E` is at most `t` plus 24 hours and less than one second earlier, so
the token is refused at every time at or after `t` plus 24 hours. -/
theorem token_expiry (secret : String) (t now u : Int) (id : String) (db : DB)
    (ht1 : 0 ≤ t) (ht2 : t < (2 : Int) ^ 63)
    (hu1 : -(2 : Int) ^ 63 ≤ u) (hu2 : u < (2 : Int) ^ 63) :
    ∃ token, generateJWT secret t u = .ok (.compact token) ∧
      GoMap.lookup token.payload "exp" = some (.number ((t + 24 * Hour) / Second)) ∧
      ((∃ uid, AuthMiddleware secret now (Context.new (bearerRequest (.compact token) id)) db
          = (authenticatedContext (bearerRequest (.compact token) id) uid, db)) ↔
        now < (t + 24 * Hour) / Second * Second) ∧
      ((AuthMiddleware secret now (Context.new (bearerRequest (.compact token) id))
          db).1.Unauthenticated ↔ (t + 24 * Hour) / Second * Second ≤ now) ∧
      (t + 24 * Hour) / Second * Second ≤ t + 24 * Hour ∧
      t + 24 * Hour < (t + 24 * Hour) / Second * Second + Second := by
  obtain ⟨he, hd⟩ := expiry_exact t (by omega) ht2
  obtain ⟨fu, hu⟩ := float64OfInt_isSome u (by omega)
  have hm := AuthMiddleware_issued secret t now u _ fu id db he hu
  have h0 : (t + 24 * Hour) / Second ≠ 0 := by
    unfold Hour Second
    omega
  rw [hd] at hm
  simp only [h0, false_or] at hm
  refine ⟨_, rfl, by simp [GoMap.lookup], ?_, ?_, ?_, ?_⟩
  · constructor
    · rintro ⟨uid, huid⟩
      by_contra hn
      have := hm
      simp only [issuedToken, generateJWT] at this
      rw [if_neg hn, huid] at this
      have ha := congrArg (fun r => r.1.aborted) this
      simp [authenticatedContext, Context.Set, Context.new, Context.AbortWithStatusJSON] at ha
    · intro hn
      rw [if_pos hn] at hm
      exact ⟨_, hm⟩
  · have hm2 := hm
    simp only [issuedToken, generateJWT] at hm2
    constructor
    · intro hun
      by_contra hn
      rw [if_pos (not_le.mp hn)] at hm2
      rw [hm2] at hun
      have ha := hun.1
      simp [authenticatedContext, Context.Set, Context.new] at ha
    · intro hn
      rw [if_neg (not_lt.mpr hn)] at hm2
      rw [hm2]
      exact ⟨rfl, _, rfl⟩
  · unfold Hour Second
    omega
  · unfold Hour Second
    omega

/-- Witness of C8, amended: a token issued at 1.5 s, looked at 200 ms before the end of the
following day. -/
theorem token_expiry_witness :
    ∃ token, generateJWT "secret" 1500000000 42 = .ok (.compact token) ∧
      GoMap.lookup token.payload "exp" =
        some (.number ((1500000000 + 24 * Hour) / Second)) ∧
      ((∃ uid, AuthMiddleware "secret" 86400800000000
            (Context.new (bearerRequest (.compact token) "1")) sampleDB
          = (authenticatedContext (bearerRequest (.compact token) "1") uid, sampleDB)) ↔
        86400800000000 < (1500000000 + 24 * Hour) / Second * Second) ∧
      ((AuthMiddleware "secret" 86400800000000
          (Context.new (bearerRequest (.compact token) "1")) sampleDB).1.Unauthenticated ↔
        (1500000000 + 24 * Hour) / Second * Second ≤ 86400800000000) ∧
      (1500000000 + 24 * Hour) / Second * Second ≤ 1500000000 + 24 * Hour ∧
      1500000000 + 24 * Hour < (1500000000 + 24 * Hour) / Second * Second + Second :=
  token_expiry "secret" 1500000000 86400800000000 42 "1" sampleDB (by decide) (by decide)
    (by decide) (by decide)

/-- Counterexample to C8 as worded: a token issued at 1.5 s is refused at 86401.2 s,
which is earlier than the issue time plus 24 hours (86401.5 s). -/
theorem token_refused_before_24h :
    generateJWT "secret" 1500000000 42 = .ok (issuedToken "secret" 1500000000 42) ∧
      (86401200000000 : Int) < 1500000000 + 24 * Hour ∧
      (AuthMiddleware "secret" 86401200000000
        (Context.new (bearerRequest (issuedToken "secret" 1500000000 42) "1"))
        sampleDB).1.response = some (.errorJSON 401 "invalid token") ∧
      (AuthMiddleware "secret" 86401200000000
        (Context.new (bearerRequest (issuedToken "secret" 1500000000 42) "1"))
        sampleDB).1.aborted = true := by
  refine ⟨rfl, ?_, ?_, ?_⟩ <;> decide

/-! ## Reading a receipt -/

theorem filter_key_unique {α : Type} (key : α → Int) (l : List α) (x : α) (hx : x ∈ l)
    (hn : (l.map key).Nodup) : l.filter (fun y => key y = key x) = [x] := by
  induction l with
  | nil => cases hx
  | cons y rest ih =>
    rw [List.map_cons, List.nodup_cons] at hn
    rw [List.filter_cons]
    rcases List.mem_cons.mp hx with hxy | hxr
    · subst hxy
      simp only [decide_True, if_true, List.cons.injEq, true_and]
      rw [List.filter_eq_nil_iff]
      intro z hz hzx
      simp only [decide_eq_true_eq] at hzx
      exact hn.1 (hzx ▸ List.mem_map_of_mem key hz)
    · have hne : key y ≠ key x := by
        intro h
        exact hn.1 (h ▸ List.mem_map_of_mem key hxr)
      simp only [hne, decide_False, Bool.false_eq_true, if_false]
      exact ih hxr hn.2

/-- With unique primary keys, the receipt query for an item finds the owner of its
report and the receipt reference of the item. -/
theorem receiptQuery_eq (s : Store) (i : ExpenseItem) (r : ExpenseReport)
    (hpk : s.PrimaryKeys) (hi : i ∈ s.items) (hr : r ∈ s.reports) (hir : i.reportID = r.id) :
    receiptQuery i.id s = [(r.userID, i.receiptPath)] := by
  unfold receiptQuery
  rw [filter_key_unique (fun ei : ExpenseItem => ei.id) s.items i hi hpk.1]
  simp only [List.flatMap_cons, List.flatMap_nil, List.append_nil, hir]
  rw [filter_key_unique (fun er : ExpenseReport => er.id) s.reports r hr hpk.2]
  rfl

/-- The outcome of the receipt route once `AuthMiddleware` has accepted the request
for user `U`: the route guard decides first, then the ownership rule of the handler. -/
theorem getReceiptRoute_authenticated (secret datadir : String) (now : Int) (s : Store)
    (req : Request) (U : Int) (i : ExpenseItem) (r : ExpenseReport) (name : String)
    (hpk : s.PrimaryKeys) (hi : i ∈ s.items) (hr : r ∈ s.reports) (hir : i.reportID = r.id)
    (hname : i.receiptPath = some name)
    (hid : ParseInt ((req.params.lookup "id").getD "") = some i.id)
    (hauth : AuthMiddleware secret now (Context.new req) { store := s, failing := false } =
      (authenticatedContext req U, { store := s, failing := false })) :
    ∃ perms, GetUserPermissions { store := s, failing := false } U = .ok perms ∧
      (runChain (getReceiptRoute secret now datadir) (Context.new req)
        { store := s, failing := false }).1 =
        if perms.get PermReportsReadOwn then
          if r.userID ≠ U ∧ perms.get PermReportsReadAll = false then
            (authenticatedContext req U).JSON 403 "forbidden"
          else
            (authenticatedContext req U).FileAttachment
              [datadir, toString r.userID, "receipts", name] name
        else (authenticatedContext req U).AbortWithStatusJSON 403 "forbidden" := by
  have hget : (authenticatedContext req U).Get ContextUserIDKey = some (.int64 U) := by
    simp [authenticatedContext, Context.Get, Context.Set, Context.new, GoMap.lookup_set]
  obtain ⟨perms, hp, heq⟩ := RequirePermission_guard s (authenticatedContext req U) U
    PermReportsReadOwn hget
  obtain ⟨perms2, hp2, hall⟩ := UserHasPermission_ok s U PermReportsReadAll
  have hpe : perms2 = perms := by
    rw [hp] at hp2
    exact (Except.ok.inj hp2).symm
  subst hpe
  refine ⟨perms2, hp, ?_⟩
  unfold getReceiptRoute
  rw [runChain_passed _ _ _ _ (by rw [hauth]; rfl), hauth]
  simp only
  cases hown : perms2.get PermReportsReadOwn
  · rw [hown] at heq
    rw [runChain_aborted _ _ _ _ (by rw [heq]; rfl), heq]
    simp
  · rw [hown] at heq
    rw [runChain_passed _ _ _ _ (by rw [heq]; rfl), heq]
    simp only [if_true, runChain]
    have hparam : (authenticatedContext req U).Param "id" =
        (req.params.lookup "id").getD "" := rfl
    have hq : DB.QueryRow { store := s, failing := false } (receiptQuery i.id) =
        .ok (some (r.userID, i.receiptPath)) := by
      simp [DB.QueryRow, receiptQuery_eq s i r hpk hi hr hir]
    unfold GetReceipt
    simp only [hparam, hid, hq, hname, hget, hall]
    by_cases ho : r.userID = U
    · simp [ho, Context.FileAttachment]
    · cases hra : perms2.get PermReportsReadAll
      · simp [ho, Context.JSON]
      · simp [ho, Context.FileAttachment]

theorem holds_iff (s : Store) (U : Int) (a : String) (perms : GoMap Bool)
    (hp : GetUserPermissions { store := s, failing := false } U = .ok perms) (b : Bool) :
    UserHasPermission { store := s, failing := false } U a = .ok b ↔ perms.get a = b := by
  unfold UserHasPermission
  rw [hp]
  simp

/-- C9. The claim fails on the seeded groups.  In the sample store user 2 is a member of
the seeded group `Validateurs`, holds `reports:read:all` and does not own report 10,
whose item 100 has an uploaded receipt.  The handler `GetReceipt` would let user 2 read
it (its branch for a caller who is not the owner asks for `reports:read:all` only, as
its comment says), but the request never reaches the handler: the guard that `main`
puts on the route asks for `reports:read:own`, which user 2 does not hold, and answers
`403 forbidden`. -/
theorem read_all_alone_is_refused :
    UserHasPermission sampleDB 2 PermReportsReadAll = .ok true ∧
      UserHasPermission sampleDB 2 PermReportsReadOwn = .ok false ∧
      receiptQuery 100 sampleStore = [(3, some "100.pdf")] ∧
      (AuthMiddleware "secret" 0
        (Context.new (bearerRequest (issuedToken "secret" 0 2) "100"))
        sampleDB).1.Get ContextUserIDKey = some (.int64 2) ∧
      (runChain [AuthMiddleware "secret" 0, GetReceipt "./data"]
        (Context.new (bearerRequest (issuedToken "secret" 0 2) "100"))
        sampleDB).1.response =
        some (.fileAttachment ["./data", "3", "receipts", "100.pdf"] "100.pdf") ∧
      (runChain (getReceiptRoute "secret" 0 "./data")
        (Context.new (bearerRequest (issuedToken "secret" 0 2) "100"))
        sampleDB).1.response = some (.errorJSON 403 "forbidden") := by
  refine ⟨?_, ?_, ?_, ?_, ?_, ?_⟩ <;> decide

/-- What the route does for a caller who is not the owner.  On every store with unique
primary keys and a working connection, for every item with an uploaded receipt whose
report `r` is not owned by the authenticated user `U`, the request
`GET /items/:id/receipt` is allowed (the handler streams the receipt from the directory
of the owner) if and only if `U` holds both `reports:read:own`, which the guard of the
route requires, and `reports:read:all`, which the handler requires; otherwise the answer
is `403 forbidden`. -/
theorem read_all_override (secret datadir : String) (now : Int) (s : Store)
    (req : Request) (U : Int) (i : ExpenseItem) (r : ExpenseReport) (name : String)
    (hpk : s.PrimaryKeys) (hi : i ∈ s.items) (hr : r ∈ s.reports) (hir : i.reportID = r.id)
    (hname : i.receiptPath = some name)
    (hid : ParseInt ((req.params.lookup "id").getD "") = some i.id)
    (hauth : AuthMiddleware secret now (Context.new req) { store := s, failing := false } =
      (authenticatedContext req U, { store := s, failing := false }))
    (hown : r.userID ≠ U) :
    ∃ own all,
      UserHasPermission { store := s, failing := false } U PermReportsReadOwn = .ok own ∧
      UserHasPermission { store := s, failing := false } U PermReportsReadAll = .ok all ∧
      (runChain (getReceiptRoute secret now datadir) (Context.new req)
        { store := s, failing := false }).1.response =
        (if own && all then
          some (.fileAttachment [datadir, toString r.userID, "receipts", name] name)
        else some (.errorJSON 403 "forbidden")) ∧
      ((runChain (getReceiptRoute secret now datadir) (Context.new req)
        { store := s, failing := false }).1.response =
          some (.fileAttachment [datadir, toString r.userID, "receipts", name] name) ↔
        own = true ∧ all = true) := by
  obtain ⟨perms, hp, hrun⟩ := getReceiptRoute_authenticated secret datadir now s req U i r
    name hpk hi hr hir hname hid hauth
  refine ⟨perms.get PermReportsReadOwn, perms.get PermReportsReadAll,
    (holds_iff s U PermReportsReadOwn perms hp _).mpr rfl,
    (holds_iff s U PermReportsReadAll perms hp _).mpr rfl, ?_, ?_⟩
  all_goals
    rw [hrun]
    cases perms.get PermReportsReadOwn <;> cases perms.get PermReportsReadAll <;>
      simp [hown, Context.FileAttachment, Context.AbortWithStatusJSON, Context.JSON,
        authenticatedContext, Context.Set, Context.new]

/-- The administrator (user 1), who holds both permissions, reads the receipt of item
100, which belongs to the report of user 3. -/
theorem read_all_override_witness :
    ∃ own all,
      UserHasPermission { store := sampleStore, failing := false } 1 PermReportsReadOwn =
        .ok own ∧
      UserHasPermission { store := sampleStore, failing := false } 1 PermReportsReadAll =
        .ok all ∧
      (runChain (getReceiptRoute "secret" 0 "./data")
        (Context.new (bearerRequest (issuedToken "secret" 0 1) "100"))
        { store := sampleStore, failing := false }).1.response =
        (if own && all then
          some (.fileAttachment ["./data", toString (3 : Int), "receipts", "100.pdf"]
            "100.pdf")
        else some (.errorJSON 403 "forbidden")) ∧
      ((runChain (getReceiptRoute "secret" 0 "./data")
        (Context.new (bearerRequest (issuedToken "secret" 0 1) "100"))
        { store := sampleStore, failing := false }).1.response =
          some (.fileAttachment ["./data", toString (3 : Int), "receipts", "100.pdf"]
            "100.pdf") ↔
        own = true ∧ all = true) :=
  read_all_override "secret" "./data" 0 sampleStore
    (bearerRequest (issuedToken "secret" 0 1) "100") 1
    ⟨100, 10, "Train", "2024-05-02", 100, 120, 1 / 5, some "100.pdf", 0⟩
    ⟨10, 3, "Trip to Lyon", "submitted", 0⟩ "100.pdf"
    (by decide) (by simp [sampleStore]) (by simp [sampleStore]) rfl rfl (by decide)
    (by rfl) (by decide)

/-- C10. On every store with unique primary keys and a working connection, for every
item with an uploaded receipt whose report is owned by the authenticated user `U`, the
request `GET /items/:id/receipt` is allowed if and only if `U` holds `reports:read:own`:
with it the handler streams the receipt, without it the request is aborted with
`403 forbidden`. -/
theorem owner_reads_iff_read_own (secret datadir : String) (now : Int) (s : Store)
    (req : Request) (U : Int) (i : ExpenseItem) (r : ExpenseReport) (name : String)
    (hpk : s.PrimaryKeys) (hi : i ∈ s.items) (hr : r ∈ s.reports) (hir : i.reportID = r.id)
    (hname : i.receiptPath = some name)
    (hid : ParseInt ((req.params.lookup "id").getD "") = some i.id)
    (hauth : AuthMiddleware secret now (Context.new req) { store := s, failing := false } =
      (authenticatedContext req U, { store := s, failing := false }))
    (hown : r.userID = U) :
    ∃ has, UserHasPermission { store := s, failing := false } U PermReportsReadOwn =
        .ok has ∧
      (runChain (getReceiptRoute secret now datadir) (Context.new req)
        { store := s, failing := false }).1.response =
        (if has then
          some (.fileAttachment [datadir, toString r.userID, "receipts", name] name)
        else some (.errorJSON 403 "forbidden")) ∧
      ((runChain (getReceiptRoute secret now datadir) (Context.new req)
        { store := s, failing := false }).1.response =
          some (.fileAttachment [datadir, toString r.userID, "receipts", name] name) ↔
        has = true) ∧
      ((runChain (getReceiptRoute secret now datadir) (Context.new req)
        { store := s, failing := false }).1.aborted = true ↔ has = false) := by
  obtain ⟨perms, hp, hrun⟩ := getReceiptRoute_authenticated secret datadir now s req U i r
    name hpk hi hr hir hname hid hauth
  refine ⟨perms.get PermReportsReadOwn,
    (holds_iff s U PermReportsReadOwn perms hp _).mpr rfl, ?_, ?_, ?_⟩
  all_goals
    rw [hrun]
    cases perms.get PermReportsReadOwn <;>
      simp [hown, Context.FileAttachment, Context.AbortWithStatusJSON, authenticatedContext,
        Context.Set, Context.new]

/-- Witness of C10: user 3 owns report 10 and reads the receipt of its item 100. -/
theorem owner_reads_iff_read_own_witness :
    ∃ has, UserHasPermission { store := sampleStore, failing := false } 3
        PermReportsReadOwn = .ok has ∧
      (runChain (getReceiptRoute "secret" 0 "./data")
        (Context.new (bearerRequest (issuedToken "secret" 0 3) "100"))
        { store := sampleStore, failing := false }).1.response =
        (if has then
          some (.fileAttachment ["./data", toString (3 : Int), "receipts", "100.pdf"]
            "100.pdf")
        else some (.errorJSON 403 "forbidden")) ∧
      ((runChain (getReceiptRoute "secret" 0 "./data")
        (Context.new (bearerRequest (issuedToken "secret" 0 3) "100"))
        { store := sampleStore, failing := false }).1.response =
          some (.fileAttachment ["./data", toString (3 : Int), "receipts", "100.pdf"]
            "100.pdf") ↔
        has = true) ∧
      ((runChain (getReceiptRoute "secret" 0 "./data")
        (Context.new (bearerRequest (issuedToken "secret" 0 3) "100"))
        { store := sampleStore, failing := false }).1.aborted = true ↔ has = false) :=
  owner_reads_iff_read_own "secret" "./data" 0 sampleStore
    (bearerRequest (issuedToken "secret" 0 3) "100") 3
    ⟨100, 10, "Train", "2024-05-02", 100, 120, 1 / 5, some "100.pdf", 0⟩
    ⟨10, 3, "Trip to Lyon", "submitted", 0⟩ "100.pdf"
    (by decide) (by simp [sampleStore]) (by simp [sampleStore]) rfl rfl (by decide)
    (by rfl) rfl

/-! ## Statements, queries and the effect of a handler -/

theorem DB.QueryRow_ok {α : Type} (db : DB) (q : Store → List α) (r : Option α)
    (h : db.QueryRow q = .ok r) : db.failing = false ∧ r = (q db.store).head? := by
  unfold DB.QueryRow at h
  split at h
  · cases h
  · rename_i hf
    exact ⟨by simpa using hf, (Except.ok.inj h).symm⟩

theorem DB.Exec_ok (db db1 : DB) (stmt : Statement) (res : ExecResult)
    (h : db.Exec stmt = .ok (db1, res)) :
    db.failing = false ∧ stmt db.store = .ok (db1.store, res) ∧
      db1 = { db with store := db1.store } := by
  unfold DB.Exec at h
  split at h
  · cases h
  · rename_i hf
    split at h
    · cases h
    · rename_i s r hs
      cases h
      exact ⟨by simpa using hf, hs, rfl⟩

theorem reportQuery_head (id a b : Int) (st : String) (s : Store)
    (h : (reportQuery id s).head? = some (a, b, st)) : a = id := by
  unfold reportQuery at h
  have hm := List.mem_of_mem_head? h
  simp only [List.mem_map, List.mem_filter, decide_eq_true_eq, Prod.mk.injEq] at hm
  obtain ⟨er, ⟨_, hid⟩, ha, _, _⟩ := hm
  rw [← ha, hid]

theorem le_foldl_max (ids : List Int) (a x : Int) (h : x ∈ ids ∨ x ≤ a) :
    x ≤ ids.foldl max a := by
  induction ids generalizing a with
  | nil =>
    rcases h with h | h
    · cases h
    · simpa using h
  | cons y rest ih =>
    rw [List.foldl_cons]
    apply ih
    rcases h with h | h
    · rcases List.mem_cons.mp h with h | h
      · right
        rw [h]
        exact le_max_right _ _
      · left
        exact h
    · right
      exact le_trans h (le_max_left _ _)

theorem nextRowID_gt (s : Store) (table : String) (ids : List Int) (id : Int)
    (h : nextRowID s table ids = .ok id) : ∀ x ∈ ids, x < id := by
  unfold nextRowID at h
  simp only at h
  split at h
  · cases h
  · cases h
    intro x hx
    have h1 := le_foldl_max ids 0 x (Or.inl hx)
    have h2 := le_max_left (ids.foldl max 0) ((GoMap.lookup s.sequence table).getD 0)
    omega

theorem DB.Exec_store (db db1 : DB) (stmt : Statement) (res : ExecResult)
    (h : db.Exec stmt = .ok (db1, res)) :
    db1.failing = db.failing ∧ stmt db.store = .ok (db1.store, res) := by
  obtain ⟨_, hs, hdb⟩ := DB.Exec_ok db db1 stmt res h
  refine ⟨?_, hs⟩
  rw [hdb]

theorem SubmitReport_step (c : Context) (db : DB) :
    (SubmitReport c db).2.failing = db.failing ∧
      Step db.store (SubmitReport c db).2.store := by
  unfold SubmitReport
  repeat' split
  all_goals try exact ⟨rfl, Step.same⟩
  rename_i id _ _ U _ _ rid owner status hq _ hst _ db1 res hx
  obtain ⟨_, hr⟩ := DB.QueryRow_ok db _ _ hq
  obtain ⟨hf, hs⟩ := DB.Exec_store db db1 _ res hx
  have hrid := reportQuery_head id rid owner status db.store hr.symm
  subst hrid
  have hd : status = "draft" := not_not.mp hst
  subst hd
  have hs1 := congrArg Prod.fst (Except.ok.inj hs)
  simp only [updateReportStatus] at hs1
  exact ⟨hf, Step.submit db1.store rid owner hr.symm (by rw [← hs1]) (by rw [← hs1])⟩

theorem DeleteReport_step (env : Env) (c : Context) (db : DB) :
    (DeleteReport env c db).2.failing = db.failing ∧
      Step db.store (DeleteReport env c db).2.store := by
  unfold DeleteReport
  repeat' split
  all_goals try exact ⟨rfl, Step.same⟩
  rename_i id _ _ U _ _ rid owner status hq _ hst _ db1 res hx
  obtain ⟨_, hr⟩ := DB.QueryRow_ok db _ _ hq
  obtain ⟨hf, hs⟩ := DB.Exec_store db db1 _ res hx
  have hrid := reportQuery_head id rid owner status db.store hr.symm
  subst hrid
  have hd : status = "draft" := not_not.mp hst
  subst hd
  have hs1 := congrArg Prod.fst (Except.ok.inj hs)
  simp only [deleteReport] at hs1
  refine ⟨hf, Step.delete db1.store rid owner hr.symm (by rw [← hs1]) ?_⟩
  rw [← hs1]
  cases env.foreignKeys
  · exact Or.inr rfl
  · exact Or.inl rfl

theorem insertReport_ok (fk : Bool) (userID : Int) (title status : String)
    (createdAt : Int) (s s1 : Store) (res : ExecResult)
    (h : insertReport fk userID title status createdAt s = .ok (s1, res)) :
    (∀ r ∈ s.reports, r.id < res.lastInsertId) ∧
      s1 = { s with
        reports := s.reports ++ [⟨res.lastInsertId, userID, title, status, createdAt⟩],
        sequence := GoMap.set s.sequence "expense_reports" res.lastInsertId } := by
  unfold insertReport at h
  split at h
  · cases h
  · split at h
    · cases h
    · rename_i id hid
      cases h
      refine ⟨?_, rfl⟩
      intro r hr
      exact nextRowID_gt s _ _ id hid r.id (List.mem_map_of_mem (fun er => er.id) hr)

theorem CreateReport_step (env : Env) (c : Context) (db : DB) :
    (CreateReport env c db).2.failing = db.failing ∧
      Step db.store (CreateReport env c db).2.store := by
  unfold CreateReport
  repeat' split
  all_goals try exact ⟨rfl, Step.same⟩
  rename_i db1 res hx
  obtain ⟨hf, hs⟩ := DB.Exec_store db db1 _ res hx
  obtain ⟨hlt, hs1⟩ := insertReport_ok _ _ _ _ _ _ _ _ hs
  exact ⟨hf, Step.createReport db1.store res.lastInsertId _ _ _ hlt (by rw [hs1])
    (by rw [hs1])⟩

theorem settle_step (status : String) (hst : status = "approved" ∨ status = "rejected")
    (id : Int) (db db1 : DB) (res : ExecResult)
    (hx : db.Exec (updateReportStatusWhere status id "submitted") = .ok (db1, res)) :
    db1.failing = db.failing ∧ Step db.store db1.store := by
  obtain ⟨hf, hs⟩ := DB.Exec_store db db1 _ res hx
  have hs1 := congrArg Prod.fst (Except.ok.inj hs)
  simp only [updateReportStatusWhere] at hs1
  exact ⟨hf, Step.settle db1.store id status hst (by rw [← hs1]) (by rw [← hs1])⟩

theorem ApproveReport_step (c : Context) (db : DB) :
    (ApproveReport c db).2.failing = db.failing ∧
      Step db.store (ApproveReport c db).2.store := by
  unfold ApproveReport
  repeat' split
  all_goals try exact ⟨rfl, Step.same⟩
  all_goals
    rename_i db1 res hx _
    exact settle_step "approved" (Or.inl rfl) _ db db1 res hx

theorem RejectReport_step (c : Context) (db : DB) :
    (RejectReport c db).2.failing = db.failing ∧
      Step db.store (RejectReport c db).2.store := by
  unfold RejectReport
  repeat' split
  all_goals try exact ⟨rfl, Step.same⟩
  all_goals
    rename_i db1 res hx _
    exact settle_step "rejected" (Or.inr rfl) _ db db1 res hx

theorem insertItem_ok (fk : Bool) (reportID : Int) (description expenseDate : String)
    (amountHT : ℚ) (amountTTC : Float64) (vatRate : ℚ) (createdAt : Int) (s s1 : Store)
    (res : ExecResult)
    (h : insertItem fk reportID description expenseDate amountHT amountTTC vatRate
      createdAt s = .ok (s1, res)) :
    (∀ i ∈ s.items, i.id < res.lastInsertId) ∧
      s1 = { s with
        items := s.items ++ [⟨res.lastInsertId, reportID, description, expenseDate,
          amountHT, amountTTC, vatRate, Option.none, createdAt⟩],
        sequence := GoMap.set s.sequence "expense_items" res.lastInsertId } := by
  unfold insertItem at h
  split at h
  · cases h
  · split at h
    · cases h
    · rename_i id hid
      cases h
      refine ⟨?_, rfl⟩
      intro i hi
      exact nextRowID_gt s _ _ id hid i.id (List.mem_map_of_mem (fun ei => ei.id) hi)

theorem AddItem_step (env : Env) (c : Context) (db : DB) :
    (AddItem env c db).2.failing = db.failing ∧
      Step db.store (AddItem env c db).2.store := by
  unfold AddItem
  repeat' split
  all_goals try exact ⟨rfl, Step.same⟩
  rename_i id _ _ U _ _ rid owner status hq _ hst _ req _ _ _ expDate _
  dsimp only
  split
  · exact ⟨rfl, Step.same⟩
  rename_i db1 res hx
  obtain ⟨_, hr⟩ := DB.QueryRow_ok db _ _ hq
  obtain ⟨hf, hs⟩ := DB.Exec_store db db1 _ res hx
  have hrid := reportQuery_head id rid owner status db.store hr.symm
  subst hrid
  have hd : status = "draft" := not_not.mp hst
  subst hd
  obtain ⟨hlt, hs1⟩ := insertItem_ok _ _ _ _ _ _ _ _ _ _ _ hs
  exact ⟨hf, Step.addItem db1.store rid owner _ hr.symm rfl hlt (by rw [hs1])
    (by rw [hs1])⟩

theorem UpdateItem_step (c : Context) (db : DB) :
    (UpdateItem c db).2.failing = db.failing ∧
      Step db.store (UpdateItem c db).2.store := by
  unfold UpdateItem
  repeat' split
  all_goals try exact ⟨rfl, Step.same⟩
  rename_i id _ _ rid owner status hq _ U _ _ hst _ req _ _ expDate _
  dsimp only
  split
  · exact ⟨rfl, Step.same⟩
  rename_i db1 res hx
  obtain ⟨_, hr⟩ := DB.QueryRow_ok db _ _ hq
  obtain ⟨hf, hs⟩ := DB.Exec_store db db1 _ res hx
  have hd : status = "draft" := not_not.mp hst
  subst hd
  have hs1 := congrArg Prod.fst (Except.ok.inj hs)
  simp only [updateItem] at hs1
  refine ⟨hf, Step.rewriteItem db1.store id rid owner
    (fun ei => { ei with description := req.Description,
                         expenseDate := formatDate expDate, amountHT := req.AmountHT,
                         amountTTC := float64Mul req.AmountHT (float64Add 1 req.VATRate),
                         vatRate := req.VATRate })
    (fun _ => ⟨rfl, rfl⟩) hr.symm (by rw [← hs1]) (by rw [← hs1])⟩

theorem UploadReceipt_step (env : Env) (c : Context) (db : DB) :
    (UploadReceipt env c db).2.failing = db.failing ∧
      Step db.store (UploadReceipt env c db).2.store := by
  unfold UploadReceipt
  repeat' split
  all_goals try exact ⟨rfl, Step.same⟩
  all_goals try (dsimp only; repeat' split)
  all_goals try exact ⟨rfl, Step.same⟩
  rename_i id _ _ filename _ _ rid owner status hq _ U _ _ hst _ _ _ db1 res hx
  obtain ⟨_, hr⟩ := DB.QueryRow_ok db _ _ hq
  obtain ⟨hf, hs⟩ := DB.Exec_store db db1 _ res hx
  have hd : status = "draft" := not_not.mp hst
  subst hd
  have hs1 := congrArg Prod.fst (Except.ok.inj hs)
  simp only [updateReceiptPath] at hs1
  refine ⟨hf, Step.rewriteItem db1.store id rid owner
    (fun ei => { ei with receiptPath := some (toString id ++ ToLower (Ext filename)) })
    (fun _ => ⟨rfl, rfl⟩) hr.symm (by rw [← hs1]) (by rw [← hs1])⟩

theorem insertUser_keeps (email hash : String) (createdAt : Int) :
    (insertUser email hash createdAt).KeepsReports := by
  intro s s1 res h
  unfold insertUser at h
  repeat' split at h
  all_goals first
    | (cases h; exact ⟨rfl, rfl⟩)
    | cases h

theorem insertUserGroup_keeps (fk : Bool) (userID groupID : Int) :
    (insertUserGroup fk userID groupID).KeepsReports := by
  intro s s1 res h
  unfold insertUserGroup at h
  repeat' split at h
  all_goals first
    | (cases h; exact ⟨rfl, rfl⟩)
    | cases h

theorem insertGroup_keeps (name : String) : (insertGroup name).KeepsReports := by
  intro s s1 res h
  unfold insertGroup at h
  repeat' split at h
  all_goals first
    | (cases h; exact ⟨rfl, rfl⟩)
    | cases h

theorem insertOrIgnoreGroupPermission_keeps (fk : Bool) (groupID permissionID : Int) :
    (insertOrIgnoreGroupPermission fk groupID permissionID).KeepsReports := by
  intro s s1 res h
  unfold insertOrIgnoreGroupPermission at h
  repeat' split at h
  all_goals first
    | (cases h; exact ⟨rfl, rfl⟩)
    | cases h

theorem insertApiToken_keeps (fk : Bool) (userID : Int) (token : String)
    (createdAt : Int) : (insertApiToken fk userID token createdAt).KeepsReports := by
  intro s s1 res h
  unfold insertApiToken at h
  repeat' split at h
  all_goals first
    | (cases h; exact ⟨rfl, rfl⟩)
    | cases h

theorem createApiTokens_keeps : createApiTokens.KeepsReports := by
  intro s s1 res h
  cases h
  exact ⟨rfl, rfl⟩

theorem runStatements_keeps (stmts : List Statement)
    (hk : ∀ stmt ∈ stmts, Statement.KeepsReports stmt) (s s1 : Store)
    (h : runStatements stmts s = .ok s1) : s1.reports = s.reports ∧ s1.items = s.items := by
  induction stmts generalizing s with
  | nil =>
    cases h
    exact ⟨rfl, rfl⟩
  | cons stmt rest ih =>
    unfold runStatements at h
    split at h
    · cases h
    · rename_i s2 _ hs
      obtain ⟨h1, h2⟩ := hk stmt (List.mem_cons_self _ _) s s2 _ hs
      obtain ⟨h3, h4⟩ := ih (fun x hx => hk x (List.mem_cons_of_mem _ hx)) s2 h
      exact ⟨h3.trans h1, h4.trans h2⟩

theorem Exec_keeps (stmt : Statement) (hk : stmt.KeepsReports) (db db1 : DB)
    (res : ExecResult) (hx : db.Exec stmt = .ok (db1, res)) :
    db1.failing = db.failing ∧ db1.store.reports = db.store.reports ∧
      db1.store.items = db.store.items := by
  obtain ⟨hf, hs⟩ := DB.Exec_store db db1 _ res hx
  exact ⟨hf, hk _ _ _ hs⟩

theorem CreateUser_step (env : Env) (c : Context) (db : DB) :
    (CreateUser env c db).2.failing = db.failing ∧
      Step db.store (CreateUser env c db).2.store := by
  unfold CreateUser
  repeat' split
  all_goals try exact ⟨rfl, Step.same⟩
  rename_i s1 res hs _ s2 hr
  obtain ⟨h1, h2⟩ := insertUser_keeps _ _ _ _ _ _ hs
  obtain ⟨h3, h4⟩ := runStatements_keeps _ (by
    intro stmt hstmt
    obtain ⟨gid, _, rfl⟩ := List.mem_map.mp hstmt
    exact insertUserGroup_keeps _ _ _) s1 s2 hr
  exact ⟨rfl, Step.other _ (h3.trans h1) (h4.trans h2)⟩

theorem CreateGroup_step (c : Context) (db : DB) :
    (CreateGroup c db).2.failing = db.failing ∧
      Step db.store (CreateGroup c db).2.store := by
  unfold CreateGroup
  repeat' split
  all_goals try exact ⟨rfl, Step.same⟩
  rename_i db1 res hx
  obtain ⟨hf, h1, h2⟩ := Exec_keeps _ (insertGroup_keeps _) db db1 res hx
  exact ⟨hf, Step.other _ h1 h2⟩

theorem AssignPermissions_step (env : Env) (c : Context) (db : DB) :
    (AssignPermissions env c db).2.failing = db.failing ∧
      Step db.store (AssignPermissions env c db).2.store := by
  unfold AssignPermissions
  repeat' split
  all_goals try exact ⟨rfl, Step.same⟩
  rename_i s1 hr
  obtain ⟨h3, h4⟩ := runStatements_keeps _ (by
    intro stmt hstmt
    obtain ⟨pid, _, rfl⟩ := List.mem_map.mp hstmt
    exact insertOrIgnoreGroupPermission_keeps _ _ _) db.store s1 hr
  exact ⟨rfl, Step.other _ h3 h4⟩

theorem GenerateAPIToken_step (env : Env) (c : Context) (db : DB) :
    (GenerateAPIToken env c db).2.failing = db.failing ∧
      Step db.store (GenerateAPIToken env c db).2.store := by
  unfold GenerateAPIToken
  split
  · exact ⟨rfl, Step.same⟩
  split
  · exact ⟨rfl, Step.same⟩
  rename_i db1 res hx
  obtain ⟨hf, h1, h2⟩ := Exec_keeps _ createApiTokens_keeps db db1 res hx
  split
  · exact ⟨hf, Step.other _ h1 h2⟩
  split
  · exact ⟨hf, Step.other _ h1 h2⟩
  rename_i db2 res2 hx2
  obtain ⟨hf2, h3, h4⟩ := Exec_keeps _ (insertApiToken_keeps _ _ _ _) db1 db2 res2 hx2
  exact ⟨hf2.trans hf, Step.other _ (h3.trans h1) (h4.trans h2)⟩

theorem readOnly_step (env : Env) (c : Context) (db : DB) :
    (Login env c db).2 = db ∧ (ListOwnReports c db).2 = db ∧
      (AdminListReports c db).2 = db ∧ (ListUsers c db).2 = db ∧
      (ListGroups c db).2 = db ∧ (Export c db).2 = db ∧
      (GetReceipt env.datadir c db).2 = db := by
  refine ⟨?_, ?_, ?_, ?_, ?_, ?_, ?_⟩
  · unfold Login
    repeat' split
    all_goals rfl
  · unfold ListOwnReports
    repeat' split
    all_goals rfl
  · unfold AdminListReports
    repeat' split
    all_goals rfl
  · unfold ListUsers
    repeat' split
    all_goals rfl
  · unfold ListGroups
    repeat' split
    all_goals rfl
  · unfold Export
    repeat' split
    all_goals rfl
  · unfold GetReceipt
    repeat' split
    all_goals rfl

/-- Every handler leaves the state of the connection as it is and changes the reports
and the items by one step. -/
theorem handler_step (env : Env) (e : Endpoint) (c : Context) (db : DB) :
    (e.handler env c db).2.failing = db.failing ∧
      Step db.store (e.handler env c db).2.store := by
  obtain ⟨h1, h2, h3, h4, h5, h6, h7⟩ := readOnly_step env c db
  cases e
  case Login =>
    show (_ : Context × DB).2.failing = _ ∧ Step _ (_ : Context × DB).2.store
    simp only [Endpoint.handler]
    rw [h1]
    exact ⟨rfl, Step.same⟩
  case CreateReport => exact CreateReport_step env c db
  case SubmitReport => exact SubmitReport_step c db
  case DeleteReport => exact DeleteReport_step env c db
  case ListOwnReports =>
    show (_ : Context × DB).2.failing = _ ∧ Step _ (_ : Context × DB).2.store
    simp only [Endpoint.handler]
    rw [h2]
    exact ⟨rfl, Step.same⟩
  case AddItem => exact AddItem_step env c db
  case UpdateItem => exact UpdateItem_step c db
  case UploadReceipt => exact UploadReceipt_step env c db
  case GetReceipt =>
    show (_ : Context × DB).2.failing = _ ∧ Step _ (_ : Context × DB).2.store
    simp only [Endpoint.handler]
    rw [h7]
    exact ⟨rfl, Step.same⟩
  case AdminListReports =>
    show (_ : Context × DB).2.failing = _ ∧ Step _ (_ : Context × DB).2.store
    simp only [Endpoint.handler]
    rw [h3]
    exact ⟨rfl, Step.same⟩
  case ApproveReport => exact ApproveReport_step c db
  case RejectReport => exact RejectReport_step c db
  case ListUsers =>
    show (_ : Context × DB).2.failing = _ ∧ Step _ (_ : Context × DB).2.store
    simp only [Endpoint.handler]
    rw [h4]
    exact ⟨rfl, Step.same⟩
  case CreateUser => exact CreateUser_step env c db
  case ListGroups =>
    show (_ : Context × DB).2.failing = _ ∧ Step _ (_ : Context × DB).2.store
    simp only [Endpoint.handler]
    rw [h5]
    exact ⟨rfl, Step.same⟩
  case CreateGroup => exact CreateGroup_step c db
  case AssignPermissions => exact AssignPermissions_step env c db
  case GenerateAPIToken => exact GenerateAPIToken_step env c db
  case ExportCSV =>
    show (_ : Context × DB).2.failing = _ ∧ Step _ (_ : Context × DB).2.store
    simp only [Endpoint.handler]
    rw [h6]
    exact ⟨rfl, Step.same⟩
  case ExportJSON =>
    show (_ : Context × DB).2.failing = _ ∧ Step _ (_ : Context × DB).2.store
    simp only [Endpoint.handler]
    rw [h6]
    exact ⟨rfl, Step.same⟩
  case ExportYAML =>
    show (_ : Context × DB).2.failing = _ ∧ Step _ (_ : Context × DB).2.store
    simp only [Endpoint.handler]
    rw [h6]
    exact ⟨rfl, Step.same⟩

/-! ## One operation of the service -/

theorem AuthMiddleware_db (secret : String) (now : Int) (c : Context) (db db1 : DB) :
    AuthMiddleware secret now c db = ((AuthMiddleware secret now c db1).1, db) := by
  unfold AuthMiddleware
  repeat' split
  all_goals rfl

theorem RequirePermission_db (permission : String) (c : Context) (db : DB) :
    (RequirePermission permission c db).2 = db := by
  unfold RequirePermission
  repeat' split
  all_goals try rfl
  all_goals
    dsimp only
    repeat' split
    all_goals rfl

/-- The database after an operation is the database before it or the one its handler
leaves, run on some context. -/
theorem serve_db (env : Env) (e : Endpoint) (req : Request) (db : DB) :
    (serve env e req db).2 = db ∨ ∃ c, (serve env e req db).2 = (e.handler env c db).2 := by
  unfold serve Endpoint.chain
  cases e.permission with
  | none =>
    right
    refine ⟨Context.new req, ?_⟩
    simp only [runChain]
    split <;> rfl
  | some p =>
    have ha := AuthMiddleware_db env.secret env.now (Context.new req) db db
    have hr := RequirePermission_db p (AuthMiddleware env.secret env.now (Context.new req)
      db).1 db
    simp only [runChain]
    split
    · left
      rw [ha]
    · have h2 : (AuthMiddleware env.secret env.now (Context.new req) db).2 = db := by
        rw [ha]
      rw [h2]
      split
      · left
        exact hr
      · right
        refine ⟨(RequirePermission p
          (AuthMiddleware env.secret env.now (Context.new req) db).1 db).1, ?_⟩
        rw [hr]
        split <;> rfl

theorem serve_step (env : Env) (e : Endpoint) (req : Request) (db : DB) :
    (serve env e req db).2.failing = db.failing ∧
      Step db.store (serve env e req db).2.store := by
  rcases serve_db env e req db with h | ⟨c, h⟩
  · rw [h]
    exact ⟨rfl, Step.same⟩
  · rw [h]
    exact handler_step env e c db

/-- A request that is authenticated as `U`, to a route whose action `U` holds, reaches
the handler of the route with the user id in its context. -/
theorem serve_authorized (env : Env) (e : Endpoint) (permission : String) (req : Request)
    (U : Int) (s : Store) (hp : e.permission = some permission)
    (ha : Authenticated env req U) (hh : Holds s U permission) :
    serve env e req { store := s, failing := false } =
      e.handler env (authenticatedContext req U) { store := s, failing := false } := by
  unfold Authenticated at ha
  have h1 : AuthMiddleware env.secret env.now (Context.new req)
      { store := s, failing := false } =
      (authenticatedContext req U, { store := s, failing := false }) := by
    rw [AuthMiddleware_db env.secret env.now (Context.new req) _ emptyDB, ha]
  have hget : (authenticatedContext req U).Get ContextUserIDKey = some (.int64 U) := by
    simp [authenticatedContext, Context.Get, Context.Set, Context.new, GoMap.lookup_set]
  obtain ⟨perms, hperms, hreq⟩ := RequirePermission_guard s (authenticatedContext req U) U
    permission hget
  have hg : perms.get permission = true :=
    (holds_iff s U permission perms hperms true).mp hh
  rw [hg] at hreq
  unfold serve Endpoint.chain
  rw [hp]
  simp only
  rw [runChain_passed _ _ _ _ (by rw [h1]; rfl), h1]
  simp only
  rw [runChain_passed _ _ _ _ (by rw [hreq]; rfl), hreq]
  simp only [if_true, runChain]
  split <;> rfl

/-! ## What a step keeps -/

theorem report_unique (s : Store) (hpk : s.PrimaryKeys) (r r1 : ExpenseReport)
    (hr : r ∈ s.reports) (hr1 : r1 ∈ s.reports) (hid : r1.id = r.id) : r1 = r :=
  List.inj_on_of_nodup_map hpk.2 hr1 hr hid

theorem item_unique (s : Store) (hpk : s.PrimaryKeys) (i i1 : ExpenseItem)
    (hi : i ∈ s.items) (hi1 : i1 ∈ s.items) (hid : i1.id = i.id) : i1 = i :=
  List.inj_on_of_nodup_map hpk.1 hi1 hi hid

/-- With unique keys, the row that a handler reads for a report id is the report. -/
theorem reportQuery_eq (s : Store) (hpk : s.PrimaryKeys) (r : ExpenseReport)
    (hr : r ∈ s.reports) : reportQuery r.id s = [(r.id, r.userID, r.status)] := by
  unfold reportQuery
  rw [filter_key_unique (fun er : ExpenseReport => er.id) s.reports r hr hpk.2]
  rfl

theorem reportQuery_row (s : Store) (hpk : s.PrimaryKeys) (r : ExpenseReport)
    (hr : r ∈ s.reports) (id owner : Int) (status : String) (hid : r.id = id)
    (h : (reportQuery id s).head? = some (id, owner, status)) :
    r.userID = owner ∧ r.status = status := by
  rw [← hid, reportQuery_eq s hpk r hr] at h
  simp only [List.head?_cons, Option.some.injEq, Prod.mk.injEq] at h
  exact ⟨h.2.1, h.2.2⟩

/-- With unique keys, the row that a handler reads for an item id is the item with its
report. -/
theorem itemReportQuery_eq (s : Store) (hpk : s.PrimaryKeys) (i : ExpenseItem)
    (r : ExpenseReport) (hi : i ∈ s.items) (hr : r ∈ s.reports) (hir : i.reportID = r.id) :
    itemReportQuery i.id s = [(r.id, r.userID, r.status)] := by
  unfold itemReportQuery
  rw [filter_key_unique (fun ei : ExpenseItem => ei.id) s.items i hi hpk.1]
  simp only [List.flatMap_cons, List.flatMap_nil, List.append_nil, hir]
  rw [filter_key_unique (fun er : ExpenseReport => er.id) s.reports r hr hpk.2]
  rfl

theorem itemReportQuery_row (s : Store) (itemID reportID owner : Int) (status : String)
    (h : (itemReportQuery itemID s).head? = some (reportID, owner, status)) :
    ∃ i ∈ s.items, ∃ r ∈ s.reports, i.id = itemID ∧ i.reportID = reportID ∧
      r.id = reportID ∧ r.userID = owner ∧ r.status = status := by
  have hm := List.mem_of_mem_head? h
  unfold itemReportQuery at hm
  simp only [List.mem_flatMap, List.mem_filter, List.mem_map, decide_eq_true_eq,
    Prod.mk.injEq] at hm
  obtain ⟨i, ⟨hi, hid⟩, r, ⟨hr, hrid⟩, h1, h2, h3⟩ := hm
  exact ⟨i, hi, r, hr, hid, h1, hrid.trans h1, h2, h3⟩

/-- A step keeps the owner, the title and the creation time of every report, and moves
its status along the life cycle at most. -/
theorem step_report (s s1 : Store) (h : Step s s1) (hpk : s.PrimaryKeys)
    (r r1 : ExpenseReport) (hr : r ∈ s.reports) (hr1 : r1 ∈ s1.reports)
    (hid : r1.id = r.id) :
    r1.userID = r.userID ∧ r1.title = r.title ∧ r1.createdAt = r.createdAt ∧
      Advances r.status r1.status := by
  have hsame : r1 ∈ s.reports →
      r1.userID = r.userID ∧ r1.title = r.title ∧ r1.createdAt = r.createdAt ∧
        Advances r.status r1.status := by
    intro hm
    rw [report_unique s hpk r r1 hr hm hid]
    exact ⟨rfl, rfl, rfl, Or.inl rfl⟩
  cases h with
  | same => exact hsame hr1
  | other _ h1 _ => exact hsame (h1 ▸ hr1)
  | createReport _ id userID title createdAt hlt h1 _ =>
    rw [h1] at hr1
    rcases List.mem_append.mp hr1 with hm | hm
    · exact hsame hm
    · simp only [List.mem_singleton] at hm
      have := hlt r hr
      rw [← hid, hm] at this
      exact absurd this (lt_irrefl _)
  | submit _ id owner hq h1 _ =>
    rw [h1] at hr1
    obtain ⟨er, her, heq⟩ := List.mem_map.mp hr1
    by_cases hc : er.id = id
    · rw [if_pos hc] at heq
      have hrr : er = r := report_unique s hpk r er hr her (by rw [← hid, ← heq])
      subst hrr
      obtain ⟨_, hst⟩ := reportQuery_row s hpk er hr id owner "draft" hc hq
      rw [← heq]
      exact ⟨rfl, rfl, rfl, Or.inr (Or.inl ⟨hst, rfl⟩)⟩
    · rw [if_neg hc] at heq
      exact hsame (heq ▸ her)
  | delete _ id owner _ h1 _ =>
    rw [h1] at hr1
    exact hsame (List.mem_of_mem_filter hr1)
  | addItem _ id owner item _ _ _ h1 _ => exact hsame (h1 ▸ hr1)
  | rewriteItem _ itemID reportID owner f _ _ h1 _ => exact hsame (h1 ▸ hr1)
  | settle _ id status hst h1 _ =>
    rw [h1] at hr1
    obtain ⟨er, her, heq⟩ := List.mem_map.mp hr1
    by_cases hc : er.id = id ∧ er.status = "submitted"
    · rw [if_pos hc] at heq
      have hrr : er = r := report_unique s hpk r er hr her (by rw [← hid, ← heq])
      subst hrr
      rw [← heq]
      refine ⟨rfl, rfl, rfl, ?_⟩
      rcases hst with hst | hst
      · exact Or.inr (Or.inr (Or.inl ⟨hc.2, hst⟩))
      · exact Or.inr (Or.inr (Or.inr ⟨hc.2, hst⟩))
    · rw [if_neg hc] at heq
      exact hsame (heq ▸ her)

/-- A step deletes drafts only, and leaves the row of a report that is neither a draft
nor submitted as it is. -/
theorem step_kept (s s1 : Store) (h : Step s s1) (hpk : s.PrimaryKeys)
    (r : ExpenseReport) (hr : r ∈ s.reports) (hnd : r.status ≠ "draft") :
    (∃ r1 ∈ s1.reports, r1.id = r.id) ∧ (r.status ≠ "submitted" → r ∈ s1.reports) := by
  cases h with
  | same => exact ⟨⟨r, hr, rfl⟩, fun _ => hr⟩
  | other _ h1 _ => exact ⟨⟨r, h1 ▸ hr, rfl⟩, fun _ => h1 ▸ hr⟩
  | createReport _ id userID title createdAt _ h1 _ =>
    have hm : r ∈ s1.reports := by
      rw [h1]
      exact List.mem_append_left _ hr
    exact ⟨⟨r, hm, rfl⟩, fun _ => hm⟩
  | submit _ id owner hq h1 _ =>
    have hne : r.id ≠ id := by
      intro hc
      exact hnd (reportQuery_row s hpk r hr id owner "draft" hc hq).2
    have hm : r ∈ s1.reports := by
      rw [h1]
      refine List.mem_map.mpr ⟨r, hr, ?_⟩
      rw [if_neg hne]
    exact ⟨⟨r, hm, rfl⟩, fun _ => hm⟩
  | delete _ id owner hq h1 _ =>
    have hne : r.id ≠ id := by
      intro hc
      exact hnd (reportQuery_row s hpk r hr id owner "draft" hc hq).2
    have hm : r ∈ s1.reports := by
      rw [h1]
      exact List.mem_filter.mpr ⟨hr, by simpa using hne⟩
    exact ⟨⟨r, hm, rfl⟩, fun _ => hm⟩
  | addItem _ id owner item _ _ _ h1 _ => exact ⟨⟨r, h1 ▸ hr, rfl⟩, fun _ => h1 ▸ hr⟩
  | rewriteItem _ itemID reportID owner f _ _ h1 _ =>
    exact ⟨⟨r, h1 ▸ hr, rfl⟩, fun _ => h1 ▸ hr⟩
  | settle _ id status _ h1 _ =>
    constructor
    · rw [h1]
      refine ⟨_, List.mem_map.mpr ⟨r, hr, rfl⟩, ?_⟩
      split <;> rfl
    · intro hns
      rw [h1]
      refine List.mem_map.mpr ⟨r, hr, ?_⟩
      rw [if_neg (fun hc => hns hc.2)]

theorem map_id_of_keeps {α : Type} (key : α → Int) (g : α → α) (l : List α)
    (h : ∀ x, key (g x) = key x) : (l.map g).map key = l.map key := by
  rw [List.map_map]
  exact List.map_congr_left (fun x _ => h x)

theorem nodup_append_fresh {α : Type} (key : α → Int) (l : List α) (x : α)
    (hn : (l.map key).Nodup) (hlt : ∀ y ∈ l, key y < key x) :
    ((l ++ [x]).map key).Nodup := by
  rw [List.map_append, List.map_singleton]
  refine List.Nodup.append hn (List.nodup_singleton _) ?_
  intro k hk hk1
  obtain ⟨y, hy, rfl⟩ := List.mem_map.mp hk
  rw [List.mem_singleton] at hk1
  exact absurd (hlt y hy) (by rw [hk1]; exact lt_irrefl _)

/-- A step keeps the primary keys unique. -/
theorem step_primaryKeys (s s1 : Store) (h : Step s s1) (hpk : s.PrimaryKeys) :
    s1.PrimaryKeys := by
  unfold Store.PrimaryKeys at hpk ⊢
  cases h with
  | same => exact hpk
  | other _ h1 h2 => rw [h1, h2]; exact hpk
  | createReport _ id userID title createdAt hlt h1 h2 =>
    rw [h1, h2]
    exact ⟨hpk.1, nodup_append_fresh (fun er : ExpenseReport => er.id) _ _ hpk.2 hlt⟩
  | submit _ id owner _ h1 h2 =>
    rw [h1, h2, map_id_of_keeps (fun er : ExpenseReport => er.id)]
    · exact hpk
    · intro x
      split <;> rfl
  | delete _ id owner _ h1 h2 =>
    rw [h1]
    rcases h2 with h2 | h2
    · rw [h2]
      exact ⟨hpk.1.sublist ((List.filter_sublist _).map _),
        hpk.2.sublist ((List.filter_sublist _).map _)⟩
    · rw [h2]
      exact ⟨hpk.1, hpk.2.sublist ((List.filter_sublist _).map _)⟩
  | addItem _ id owner item _ _ hlt h1 h2 =>
    rw [h1, h2]
    exact ⟨nodup_append_fresh (fun ei : ExpenseItem => ei.id) _ _ hpk.1 hlt, hpk.2⟩
  | rewriteItem _ itemID reportID owner f hf _ h1 h2 =>
    rw [h1, h2, map_id_of_keeps (fun ei : ExpenseItem => ei.id)]
    · exact hpk
    · intro x
      split
      · exact (hf x).1
      · rfl
  | settle _ id status _ h1 h2 =>
    rw [h1, h2, map_id_of_keeps (fun er : ExpenseReport => er.id)]
    · exact hpk
    · intro x
      split <;> rfl

/-- A step keeps every status among the four of the life cycle. -/
theorem step_statuses (s s1 : Store) (h : Step s s1) (hv : s.StatusesValid) :
    s1.StatusesValid := by
  intro r hr
  cases h with
  | same => exact hv r hr
  | other _ h1 _ => exact hv r (h1 ▸ hr)
  | createReport _ id userID title createdAt _ h1 _ =>
    rw [h1] at hr
    rcases List.mem_append.mp hr with hm | hm
    · exact hv r hm
    · rw [List.mem_singleton] at hm
      rw [hm]
      exact Or.inl rfl
  | submit _ id owner _ h1 _ =>
    rw [h1] at hr
    obtain ⟨er, her, heq⟩ := List.mem_map.mp hr
    split at heq
    · rw [← heq]
      exact Or.inr (Or.inl rfl)
    · exact heq ▸ hv er her
  | delete _ id owner _ h1 _ =>
    rw [h1] at hr
    exact hv r (List.mem_of_mem_filter hr)
  | addItem _ id owner item _ _ _ h1 _ => exact hv r (h1 ▸ hr)
  | rewriteItem _ itemID reportID owner f _ _ h1 _ => exact hv r (h1 ▸ hr)
  | settle _ id status hst h1 _ =>
    rw [h1] at hr
    obtain ⟨er, her, heq⟩ := List.mem_map.mp hr
    split at heq
    · rw [← heq]
      rcases hst with hst | hst
      · exact Or.inr (Or.inr (Or.inl hst))
      · exact Or.inr (Or.inr (Or.inr hst))
    · exact heq ▸ hv er her

/-- A step leaves the items of a report that is not a draft as they are. -/
theorem step_items (s s1 : Store) (h : Step s s1) (hpk : s.PrimaryKeys)
    (r : ExpenseReport) (hr : r ∈ s.reports) (hnd : r.status ≠ "draft") :
    s1.items.filter (fun ei => ei.reportID = r.id) =
      s.items.filter (fun ei => ei.reportID = r.id) := by
  cases h with
  | same => rfl
  | other _ _ h2 => rw [h2]
  | createReport _ id userID title createdAt _ _ h2 => rw [h2]
  | submit _ id owner _ _ h2 => rw [h2]
  | delete _ id owner hq _ h2 =>
    have hne : r.id ≠ id := fun hc =>
      hnd (reportQuery_row s hpk r hr id owner "draft" hc hq).2
    rcases h2 with h2 | h2
    · rw [h2, List.filter_filter]
      refine List.filter_congr (fun x _ => ?_)
      by_cases hx : x.reportID = r.id
      · simp [hx, hne]
      · simp [hx]
    · rw [h2]
  | addItem _ id owner item hq hir _ _ h2 =>
    have hne : r.id ≠ id := fun hc =>
      hnd (reportQuery_row s hpk r hr id owner "draft" hc hq).2
    rw [h2, List.filter_append]
    have : [item].filter (fun ei => decide (ei.reportID = r.id)) = [] := by
      simp [hir, Ne.symm hne]
    rw [this, List.append_nil]
  | rewriteItem _ itemID reportID owner f hf hq _ h2 =>
    obtain ⟨i, hi, r0, hr0, hid, hrep, hr0id, _, hst⟩ :=
      itemReportQuery_row s itemID reportID owner "draft" hq
    have hne : ∀ x ∈ s.items, x.reportID = r.id → x.id ≠ itemID := by
      intro x hx hxr hxid
      have hxi : x = i := item_unique s hpk i x hi hx (hxid.trans hid.symm)
      have hrr : r0 = r := report_unique s hpk r r0 hr hr0 (by
        rw [hr0id, ← hrep, ← hxi, hxr])
      exact hnd (hrr ▸ hst)
    rw [h2, List.filter_map]
    have hcomp : ((fun ei : ExpenseItem => decide (ei.reportID = r.id)) ∘
        fun ei => if ei.id = itemID then f ei else ei) =
        fun ei => decide (ei.reportID = r.id) := by
      funext x
      simp only [Function.comp]
      split
      · rw [(hf x).2]
      · rfl
    rw [hcomp]
    conv_rhs => rw [← List.map_id (List.filter _ s.items)]
    refine List.map_congr_left (fun x hx => ?_)
    obtain ⟨hxm, hxr⟩ := List.mem_filter.mp hx
    rw [if_neg (hne x hxm (by simpa using hxr))]
    rfl
  | settle _ id status _ _ h2 => rw [h2]

theorem reachable_primaryKeys (s0 s : Store) (h : Reachable s0 s) (hpk : s0.PrimaryKeys) :
    s.PrimaryKeys := by
  induction h with
  | init => exact hpk
  | step s env e req failing _ ih =>
    exact step_primaryKeys _ _ (serve_step env e req _).2 ih

theorem reachable_statuses (s0 s : Store) (h : Reachable s0 s) (hv : s0.StatusesValid) :
    s.StatusesValid := by
  induction h with
  | init => exact hv
  | step s env e req failing _ ih =>
    exact step_statuses _ _ (serve_step env e req _).2 ih

/-! ## The checks of the handlers that change a draft -/

theorem authenticatedContext_userID (req : Request) (U : Int) :
    (authenticatedContext req U).userID = some U := by
  simp [authenticatedContext, Context.userID, Context.Get, Context.Set, Context.new,
    GoMap.lookup_set]

theorem authenticatedContext_param (req : Request) (U : Int) (key : String) :
    (authenticatedContext req U).Param key = (req.params.lookup key).getD "" := rfl

theorem QueryRow_report (s : Store) (hpk : s.PrimaryKeys) (r : ExpenseReport)
    (hr : r ∈ s.reports) :
    DB.QueryRow { store := s, failing := false } (reportQuery r.id) =
      .ok (some (r.id, r.userID, r.status)) := by
  simp [DB.QueryRow, reportQuery_eq s hpk r hr]

theorem QueryRow_item (s : Store) (hpk : s.PrimaryKeys) (i : ExpenseItem)
    (r : ExpenseReport) (hi : i ∈ s.items) (hr : r ∈ s.reports) (hir : i.reportID = r.id) :
    DB.QueryRow { store := s, failing := false } (itemReportQuery i.id) =
      .ok (some (r.id, r.userID, r.status)) := by
  simp [DB.QueryRow, itemReportQuery_eq s hpk i r hi hr hir]

/-- The two checks that the five handlers make on the report they have found: first the
owner, then the status. -/
theorem draft_guard (env : Env) (e : Endpoint) (msg : String) (req : Request) (s : Store)
    (U : Int) (r : ExpenseReport) (he : e.draftOnly = some msg) (hpk : s.PrimaryKeys)
    (ht : Targets e req s r) :
    (r.userID ≠ U →
      e.handler env (authenticatedContext req U) { store := s, failing := false } =
        ((authenticatedContext req U).JSON 403 "forbidden",
          { store := s, failing := false })) ∧
    (r.userID = U → r.status ≠ "draft" →
      e.handler env (authenticatedContext req U) { store := s, failing := false } =
        ((authenticatedContext req U).JSON 400 msg, { store := s, failing := false })) := by
  obtain ⟨hr, ht⟩ := ht
  cases e <;> simp only [Endpoint.draftOnly, Option.some.injEq] at he <;> try cases he
  · simp only [Endpoint.handler, SubmitReport, authenticatedContext_param, ht,
      authenticatedContext_userID, QueryRow_report s hpk r hr]
    constructor
    · intro h
      rw [if_pos h]
    · intro h h1
      rw [if_neg (not_not.mpr h), if_pos h1]
  · simp only [Endpoint.handler, DeleteReport, authenticatedContext_param, ht,
      authenticatedContext_userID, QueryRow_report s hpk r hr]
    constructor
    · intro h
      rw [if_pos h]
    · intro h h1
      rw [if_neg (not_not.mpr h), if_pos h1]
  · simp only [Endpoint.handler, AddItem, authenticatedContext_param, ht,
      authenticatedContext_userID, QueryRow_report s hpk r hr]
    constructor
    · intro h
      rw [if_pos h]
    · intro h h1
      rw [if_neg (not_not.mpr h), if_pos h1]
  · obtain ⟨i, hi, hir, hid⟩ := ht
    simp only [Endpoint.handler, UpdateItem, authenticatedContext_param, hid,
      authenticatedContext_userID, QueryRow_item s hpk i r hi hr hir]
    constructor
    · intro h
      rw [if_pos h]
    · intro h h1
      rw [if_neg (not_not.mpr h), if_pos h1]
  · obtain ⟨⟨i, hi, hir, hid⟩, hfile⟩ := ht
    obtain ⟨name, hname⟩ := Option.ne_none_iff_exists'.mp hfile
    simp only [Endpoint.handler, UploadReceipt, authenticatedContext_param, hid,
      authenticatedContext_userID, QueryRow_item s hpk i r hi hr hir,
      show (authenticatedContext req U).request.file = some name from hname]
    constructor
    · intro h
      rw [if_pos h]
    · intro h h1
      rw [if_neg (not_not.mpr h), if_pos h1]

theorem draftOnly_of_mem (e : Endpoint)
    (he : e ∈ [Endpoint.SubmitReport, Endpoint.DeleteReport, Endpoint.AddItem,
      Endpoint.UpdateItem, Endpoint.UploadReceipt]) : ∃ msg, e.draftOnly = some msg := by
  simp only [List.mem_cons, List.mem_singleton, List.not_mem_nil, or_false] at he
  rcases he with h | h | h | h | h <;> subst h <;> exact ⟨_, rfl⟩

/-- Writing statuses does not change what a user holds. -/
theorem holds_withStatus (s : Store) (p : ExpenseReport → Prop) [DecidablePred p]
    (status : String) (U : Int) (action : String) :
    Holds (s.withStatus p status) U action = Holds s U action := rfl

theorem mem_withStatus (s : Store) (p : ExpenseReport → Prop) [DecidablePred p]
    (status : String) (r : ExpenseReport) (hr : r ∈ s.reports) (hp : p r) :
    { r with status := status } ∈ (s.withStatus p status).reports := by
  refine List.mem_map.mpr ⟨r, hr, ?_⟩
  rw [if_pos hp]

theorem primaryKeys_withStatus (s : Store) (p : ExpenseReport → Prop) [DecidablePred p]
    (status : String) (hpk : s.PrimaryKeys) : (s.withStatus p status).PrimaryKeys := by
  refine ⟨hpk.1, ?_⟩
  show ((s.reports.map _).map _).Nodup
  rw [map_id_of_keeps (fun er : ExpenseReport => er.id)]
  · exact hpk.2
  · intro x
    split <;> rfl

/-- The owner submits a draft: the handler writes the status and answers 200. -/
theorem SubmitReport_draft (req : Request) (s : Store) (U : Int) (r : ExpenseReport)
    (hpk : s.PrimaryKeys) (hr : r ∈ s.reports)
    (hid : ParseInt ((req.params.lookup "id").getD "") = some r.id)
    (hown : r.userID = U) (hst : r.status = "draft") :
    SubmitReport (authenticatedContext req U) { store := s, failing := false } =
      ((authenticatedContext req U).Object 200
          [("id", .int64 r.id), ("status", .string "submitted")],
        { store := s.withStatus (fun er => er.id = r.id) "submitted", failing := false }) := by
  simp only [SubmitReport, authenticatedContext_param, hid, authenticatedContext_userID,
    QueryRow_report s hpk r hr]
  rw [if_neg (not_not.mpr hown), if_neg (not_not.mpr hst)]
  rfl

theorem targets_withStatus (e : Endpoint) (req : Request) (s : Store) (r : ExpenseReport)
    (p : ExpenseReport → Prop) [DecidablePred p] (status : String) (hp : p r)
    (ht : Targets e req s r) :
    Targets e req (s.withStatus p status) { r with status := status } := by
  obtain ⟨hr, ht⟩ := ht
  exact ⟨mem_withStatus s p status r hr hp, ht⟩

/-! ## C11 and C12: the owner check and the status check -/

/-- C11. For each of `SubmitReport`, `DeleteReport`, `AddItem`, `UpdateItem` and
`UploadReceipt`, on every store with unique primary keys behind a working connection,
for every well-formed request by an authenticated caller `U` who holds the action of the
route: when the report `r` that the request targets exists and `U` is not its owner, the
answer is `403 forbidden` whatever the status of `r` is, and the database is left as it
was. -/
theorem non_owner_forbidden (env : Env) (e : Endpoint) (permission : String)
    (req : Request) (s : Store) (U : Int) (r : ExpenseReport)
    (he : e ∈ [Endpoint.SubmitReport, Endpoint.DeleteReport, Endpoint.AddItem,
      Endpoint.UpdateItem, Endpoint.UploadReceipt])
    (hpk : s.PrimaryKeys) (ha : Authenticated env req U)
    (hp : e.permission = some permission) (hh : Holds s U permission)
    (ht : Targets e req s r) (hown : r.userID ≠ U) :
    (serve env e req { store := s, failing := false }).1.response =
        some (.errorJSON 403 "forbidden") ∧
      (serve env e req { store := s, failing := false }).2 =
        { store := s, failing := false } := by
  obtain ⟨msg, hmsg⟩ := draftOnly_of_mem e he
  rw [serve_authorized env e permission req U s hp ha hh,
    (draft_guard env e msg req s U r hmsg hpk ht).1 hown]
  exact ⟨rfl, rfl⟩

/-- Witness of C11: the administrator, who holds `reports:update:own`, submits the
submitted report 10 of user 3. -/
theorem non_owner_forbidden_witness :
    (serve sampleEnv .SubmitReport (userRequest 1 "10" .invalid Option.none)
        { store := workStore, failing := false }).1.response =
        some (.errorJSON 403 "forbidden") ∧
      (serve sampleEnv .SubmitReport (userRequest 1 "10" .invalid Option.none)
        { store := workStore, failing := false }).2 =
        { store := workStore, failing := false } :=
  non_owner_forbidden sampleEnv .SubmitReport PermReportsUpdateOwn
    (userRequest 1 "10" .invalid Option.none) workStore 1
    ⟨10, 3, "Trip to Lyon", "submitted", 0⟩ (by simp) (by decide) (by rfl) rfl (by rfl)
    ⟨by simp [workStore], by decide⟩ (by decide)

/-- C12. For each of `SubmitReport`, `DeleteReport`, `AddItem`, `UpdateItem` and
`UploadReceipt` (the routes on which `draftOnly` is defined), on every store with unique
primary keys behind a working connection, for every well-formed request by the owner `U`
of the targeted report `r` who holds the action of the route: when the status of `r` is
not `draft` the answer is `400` with the message of the route, which is not the
`403 forbidden` of the owner check, and the database is left as it was.  When `r` is a
draft and its owner submits it, the same request to the route is answered `400` with that
message afterwards, and leaves the database as the submission left it. -/
theorem not_draft_invalid_state (env : Env) (e : Endpoint) (permission msg : String)
    (req : Request) (s : Store) (U : Int) (r : ExpenseReport)
    (he : e.draftOnly = some msg) (hpk : s.PrimaryKeys) (ha : Authenticated env req U)
    (hp : e.permission = some permission) (hh : Holds s U permission)
    (ht : Targets e req s r) (hown : r.userID = U) :
    (r.status ≠ "draft" →
      (serve env e req { store := s, failing := false }).1.response =
          some (.errorJSON 400 msg) ∧
        (serve env e req { store := s, failing := false }).1.response ≠
          some (.errorJSON 403 "forbidden") ∧
        (serve env e req { store := s, failing := false }).2 =
          { store := s, failing := false }) ∧
    (r.status = "draft" → ∀ req1 : Request, Authenticated env req1 U →
      Holds s U PermReportsUpdateOwn →
      ParseInt ((req1.params.lookup "id").getD "") = some r.id →
      (serve env .SubmitReport req1 { store := s, failing := false }).1.response =
          some (.object 200 [("id", .int64 r.id), ("status", .string "submitted")]) ∧
        (serve env e req
          (serve env .SubmitReport req1 { store := s, failing := false }).2).1.response =
          some (.errorJSON 400 msg) ∧
        (serve env e req
          (serve env .SubmitReport req1 { store := s, failing := false }).2).2 =
          (serve env .SubmitReport req1 { store := s, failing := false }).2) := by
  constructor
  · intro hst
    rw [serve_authorized env e permission req U s hp ha hh,
      (draft_guard env e msg req s U r he hpk ht).2 hown hst]
    exact ⟨rfl, by simp [Context.JSON], rfl⟩
  · intro hst req1 ha1 hh1 hid1
    rw [serve_authorized env .SubmitReport PermReportsUpdateOwn req1 U s rfl ha1 hh1]
    simp only [Endpoint.handler]
    rw [SubmitReport_draft req1 s U r hpk ht.1 hid1 hown hst]
    refine ⟨rfl, ?_⟩
    simp only
    rw [serve_authorized env e permission req U _ hp ha
        ((holds_withStatus s (fun er => er.id = r.id) "submitted" U permission).symm ▸ hh),
      (draft_guard env e msg req _ U { r with status := "submitted" } he
        (primaryKeys_withStatus s (fun er => er.id = r.id) "submitted" hpk)
        (targets_withStatus e req s r (fun er => er.id = r.id) "submitted" rfl ht)).2 hown
        (show "submitted" ≠ "draft" by decide)]
    exact ⟨rfl, rfl⟩

/-- Witness of C12: user 3 submits their draft report 11 and then edits its item 110. -/
theorem not_draft_invalid_state_witness :
    (serve sampleEnv .SubmitReport (userRequest 3 "11" .invalid Option.none)
        { store := workStore, failing := false }).1.response =
        some (.object 200 [("id", .int64 11), ("status", .string "submitted")]) ∧
      (serve sampleEnv .UpdateItem
        (userRequest 3 "110" (.addItem ⟨"Hotel", "2024-06-02", 90, 1 / 10⟩) Option.none)
        (serve sampleEnv .SubmitReport (userRequest 3 "11" .invalid Option.none)
          { store := workStore, failing := false }).2).1.response =
        some (.errorJSON 400 "items can only be updated in draft reports") ∧
      (serve sampleEnv .UpdateItem
        (userRequest 3 "110" (.addItem ⟨"Hotel", "2024-06-02", 90, 1 / 10⟩) Option.none)
        (serve sampleEnv .SubmitReport (userRequest 3 "11" .invalid Option.none)
          { store := workStore, failing := false }).2).2 =
        (serve sampleEnv .SubmitReport (userRequest 3 "11" .invalid Option.none)
          { store := workStore, failing := false }).2 :=
  (not_draft_invalid_state sampleEnv .UpdateItem PermReportsUpdateOwn
    "items can only be updated in draft reports"
    (userRequest 3 "110" (.addItem ⟨"Hotel", "2024-06-02", 90, 1 / 10⟩) Option.none)
    workStore 3 ⟨11, 3, "Trip to Lille", "draft", 0⟩ rfl (by decide) (by rfl) rfl (by rfl)
    ⟨by simp [workStore],
      ⟨110, 11, "Hotel", "2024-06-01", 80, 88, 1 / 10, Option.none, 0⟩,
      by simp [workStore], rfl, by decide⟩ rfl).2 rfl
    (userRequest 3 "11" .invalid Option.none) (by rfl) (by rfl) (by decide)

/-! ## C13: approving and rejecting -/

theorem withStatus_none (s : Store) (p : ExpenseReport → Prop) [DecidablePred p]
    (status : String) (h : ∀ r ∈ s.reports, ¬ p r) : s.withStatus p status = s := by
  have hm : (s.reports.map fun er => if p er then { er with status := status } else er) =
      s.reports := by
    conv_rhs => rw [← List.map_id s.reports]
    refine List.map_congr_left (fun x hx => ?_)
    rw [if_neg (h x hx)]
    rfl
  cases s
  simp only [Store.withStatus] at hm ⊢
  rw [hm]

theorem filter_length_eq_zero {α : Type} (p : α → Prop) [DecidablePred p] (l : List α) :
    (l.filter fun x => p x).length = 0 ↔ ¬ ∃ x ∈ l, p x := by
  rw [List.length_eq_zero, List.filter_eq_nil_iff]
  simp

/-- The outcome of `ApproveReport` and `RejectReport` over a working connection: the
conditional update runs, and the answer depends on the number of rows it has changed. -/
theorem settle_result (env : Env) (e : Endpoint) (status : String) (c : Context)
    (s : Store) (id : Int)
    (he : (e, status) ∈
      [(Endpoint.ApproveReport, "approved"), (Endpoint.RejectReport, "rejected")])
    (hid : ParseInt (c.Param "id") = some id) :
    e.handler env c { store := s, failing := false } =
      (if ∃ r ∈ s.reports, r.id = id ∧ r.status = "submitted" then
          c.Object 200 [("id", .int64 id), ("status", .string status)]
        else c.JSON 400 "report not found or not in submitted state",
        { store := s.withStatus (fun er => er.id = id ∧ er.status = "submitted") status,
          failing := false }) := by
  have hz := filter_length_eq_zero (fun er : ExpenseReport => er.id = id ∧
    er.status = "submitted") s.reports
  simp only [List.mem_cons, List.mem_singleton, List.not_mem_nil, or_false,
    Prod.mk.injEq] at he
  rcases he with ⟨h1, h2⟩ | ⟨h1, h2⟩
  · subst h1 h2
    simp only [Endpoint.handler, ApproveReport, hid, DB.Exec, updateReportStatusWhere]
    by_cases hex : ∃ r ∈ s.reports, r.id = id ∧ r.status = "submitted"
    · rw [if_pos hex]
      simp only [Bool.false_eq_true, if_false]
      rw [if_neg (fun h0 => hz.mp h0 hex)]
      rfl
    · rw [if_neg hex]
      simp only [Bool.false_eq_true, if_false]
      rw [if_pos (hz.mpr hex)]
      rfl
  · subst h1 h2
    simp only [Endpoint.handler, RejectReport, hid, DB.Exec, updateReportStatusWhere]
    by_cases hex : ∃ r ∈ s.reports, r.id = id ∧ r.status = "submitted"
    · rw [if_pos hex]
      simp only [Bool.false_eq_true, if_false]
      rw [if_neg (fun h0 => hz.mp h0 hex)]
      rfl
    · rw [if_neg hex]
      simp only [Bool.false_eq_true, if_false]
      rw [if_pos (hz.mpr hex)]
      rfl

/-- After the conditional update no report with the id is left submitted. -/
theorem withStatus_settled (s : Store) (id : Int) (status : String)
    (hs : status ≠ "submitted") :
    ¬ ∃ r ∈ (s.withStatus (fun er => er.id = id ∧ er.status = "submitted") status).reports,
      r.id = id ∧ r.status = "submitted" := by
  rintro ⟨r, hr, hrid, hrs⟩
  obtain ⟨er, _, heq⟩ := List.mem_map.mp hr
  split at heq
  · rw [← heq] at hrs
    exact hs hrs
  · rename_i hn
    rw [← heq] at hrid hrs
    exact hn ⟨hrid, hrs⟩

/-- C13. On every store behind a working connection, for a request to `ApproveReport`
(resp. `RejectReport`) with report id `id` by an authenticated caller who holds the
action of the route: the answer is the success answer if and only if a report with the
id exists with status `submitted`; otherwise it is `400` and the database is left as it
was; the database after the request is the one before it with the status `approved`
(resp. `rejected`) written to the submitted report with the id, and nothing else changed;
and the same request made again is answered `400` and leaves the database as the first
left it. -/
theorem settle_law (env : Env) (e : Endpoint) (permission status : String) (req : Request)
    (s : Store) (U id : Int)
    (he : (e, status) ∈
      [(Endpoint.ApproveReport, "approved"), (Endpoint.RejectReport, "rejected")])
    (ha : Authenticated env req U) (hp : e.permission = some permission)
    (hh : Holds s U permission)
    (hid : ParseInt ((req.params.lookup "id").getD "") = some id) :
    ((serve env e req { store := s, failing := false }).1.response =
        some (.object 200 [("id", .int64 id), ("status", .string status)]) ↔
      ∃ r ∈ s.reports, r.id = id ∧ r.status = "submitted") ∧
    ((¬ ∃ r ∈ s.reports, r.id = id ∧ r.status = "submitted") →
      (serve env e req { store := s, failing := false }).1.response =
          some (.errorJSON 400 "report not found or not in submitted state") ∧
        (serve env e req { store := s, failing := false }).2 =
          { store := s, failing := false }) ∧
    (serve env e req { store := s, failing := false }).2 =
      { store := s.withStatus (fun er => er.id = id ∧ er.status = "submitted") status,
        failing := false } ∧
    (serve env e req (serve env e req { store := s, failing := false }).2).1.response =
      some (.errorJSON 400 "report not found or not in submitted state") ∧
    (serve env e req (serve env e req { store := s, failing := false }).2).2 =
      (serve env e req { store := s, failing := false }).2 := by
  have hs : status ≠ "submitted" := by
    simp only [List.mem_cons, List.mem_singleton, List.not_mem_nil, or_false,
      Prod.mk.injEq] at he
    rcases he with ⟨_, h2⟩ | ⟨_, h2⟩ <;> subst h2 <;> decide
  have h1 := settle_result env e status (authenticatedContext req U) s id he hid
  have h2 := settle_result env e status (authenticatedContext req U)
    (s.withStatus (fun er => er.id = id ∧ er.status = "submitted") status) id he hid
  rw [if_neg (withStatus_settled s id status hs),
    withStatus_none _ _ status (fun r hr hc => withStatus_settled s id status hs
      ⟨r, hr, hc⟩)] at h2
  rw [serve_authorized env e permission req U s hp ha hh, h1]
  simp only
  rw [serve_authorized env e permission req U _ hp ha
    ((holds_withStatus s (fun er => er.id = id ∧ er.status = "submitted") status U
      permission).symm ▸ hh), h2]
  refine ⟨?_, ?_, trivial, rfl, rfl⟩
  · by_cases hex : ∃ r ∈ s.reports, r.id = id ∧ r.status = "submitted"
    · rw [if_pos hex]
      exact ⟨fun _ => hex, fun _ => rfl⟩
    · rw [if_neg hex]
      exact ⟨fun h => by simp [Context.JSON] at h, fun h => absurd h hex⟩
  · intro hex
    rw [if_neg hex, withStatus_none s _ status (fun r hr hc => hex ⟨r, hr, hc⟩)]
    exact ⟨rfl, rfl⟩

/-- Witness of C13: the validator, user 2, approves the submitted report 10 and then
approves it again. -/
theorem settle_law_witness :
    (serve sampleEnv .ApproveReport (userRequest 2 "10" .invalid Option.none)
        { store := workStore, failing := false }).1.response =
        some (.object 200 [("id", .int64 10), ("status", .string "approved")]) ∧
      (serve sampleEnv .ApproveReport (userRequest 2 "10" .invalid Option.none)
        (serve sampleEnv .ApproveReport (userRequest 2 "10" .invalid Option.none)
          { store := workStore, failing := false }).2).1.response =
        some (.errorJSON 400 "report not found or not in submitted state") ∧
      (serve sampleEnv .ApproveReport (userRequest 2 "10" .invalid Option.none)
        (serve sampleEnv .ApproveReport (userRequest 2 "10" .invalid Option.none)
          { store := workStore, failing := false }).2).2 =
        (serve sampleEnv .ApproveReport (userRequest 2 "10" .invalid Option.none)
          { store := workStore, failing := false }).2 :=
  ⟨(settle_law sampleEnv .ApproveReport PermReportsApprove "approved"
      (userRequest 2 "10" .invalid Option.none) workStore 2 10 (by simp) (by rfl) rfl
      (by rfl) (by decide)).1.mpr
      ⟨⟨10, 3, "Trip to Lyon", "submitted", 0⟩, by simp [workStore], rfl, rfl⟩,
    (settle_law sampleEnv .ApproveReport PermReportsApprove "approved"
      (userRequest 2 "10" .invalid Option.none) workStore 2 10 (by simp) (by rfl) rfl
      (by rfl) (by decide)).2.2.2⟩

/-! ## C14, C15 and C20: what no operation does -/

/-- C14. For every operation of the service (any route, any request, any surroundings, a
working or a failing connection) on a store with unique primary keys, and every report
`r` present before it: a report with the id of `r` afterwards has the status of `r` or
one that follows it by one of `draft → submitted`, `submitted → approved`,
`submitted → rejected`; and when `r` is approved or rejected, `r` is still present
afterwards and is the only report with its id, so it was neither changed nor deleted. -/
theorem status_only_advances (env : Env) (e : Endpoint) (req : Request) (db : DB)
    (r : ExpenseReport) (hpk : db.store.PrimaryKeys) (hr : r ∈ db.store.reports) :
    (∀ r1 ∈ (serve env e req db).2.store.reports, r1.id = r.id →
      Advances r.status r1.status) ∧
    (r.status = "approved" ∨ r.status = "rejected" →
      r ∈ (serve env e req db).2.store.reports ∧
        ∀ r1 ∈ (serve env e req db).2.store.reports, r1.id = r.id → r1 = r) := by
  have hstep := (serve_step env e req db).2
  constructor
  · intro r1 hr1 hid
    exact (step_report _ _ hstep hpk r r1 hr hr1 hid).2.2.2
  · intro hterm
    have hnd : r.status ≠ "draft" := by
      rcases hterm with h | h <;> rw [h] <;> decide
    have hns : r.status ≠ "submitted" := by
      rcases hterm with h | h <;> rw [h] <;> decide
    refine ⟨(step_kept _ _ hstep hpk r hr hnd).2 hns, ?_⟩
    intro r1 hr1 hid
    obtain ⟨h1, h2, h3, h4⟩ := step_report _ _ hstep hpk r r1 hr hr1 hid
    have hst : r1.status = r.status := by
      rcases h4 with h | ⟨h, _⟩ | ⟨h, _⟩ | ⟨h, _⟩
      · exact h
      · exact absurd h hnd
      · exact absurd h hns
      · exact absurd h hns
    cases r
    cases r1
    simp only at hid h1 h2 h3 hst
    simp only [ExpenseReport.mk.injEq]
    exact ⟨hid, h1, h2, hst, h3⟩

/-- Witness of C14: the validator rejects report 12 of the sample store, which is
approved; the report stays as it is. -/
theorem status_only_advances_witness :
    (∀ r1 ∈ (serve sampleEnv .RejectReport (userRequest 2 "12" .invalid Option.none)
        { store := workStore, failing := false }).2.store.reports,
      r1.id = 12 → Advances "approved" r1.status) ∧
    (("approved" : String) = "approved" ∨ ("approved" : String) = "rejected" →
      (⟨12, 3, "Trip to Brest", "approved", 0⟩ : ExpenseReport) ∈
          (serve sampleEnv .RejectReport (userRequest 2 "12" .invalid Option.none)
            { store := workStore, failing := false }).2.store.reports ∧
        ∀ r1 ∈ (serve sampleEnv .RejectReport (userRequest 2 "12" .invalid Option.none)
            { store := workStore, failing := false }).2.store.reports,
          r1.id = 12 → r1 = ⟨12, 3, "Trip to Brest", "approved", 0⟩) :=
  status_only_advances sampleEnv .RejectReport (userRequest 2 "12" .invalid Option.none)
    { store := workStore, failing := false } ⟨12, 3, "Trip to Brest", "approved", 0⟩
    (by decide) (by simp [workStore])

/-- C15. For every operation of the service on a store with unique primary keys, and
every report `r` whose status is not `draft` when the operation starts: the items of `r`
afterwards are the items of `r` before, row for row, so none was added and none was
modified in any column. -/
theorem non_draft_items_unchanged (env : Env) (e : Endpoint) (req : Request) (db : DB)
    (r : ExpenseReport) (hpk : db.store.PrimaryKeys) (hr : r ∈ db.store.reports)
    (hnd : r.status ≠ "draft") :
    (serve env e req db).2.store.items.filter (fun ei => ei.reportID = r.id) =
      db.store.items.filter (fun ei => ei.reportID = r.id) :=
  step_items _ _ (serve_step env e req db).2 hpk r hr hnd

/-- Witness of C15: user 3 sends a new version of item 100 of their submitted report
10; the items of the report stay as they are. -/
theorem non_draft_items_unchanged_witness :
    (serve sampleEnv .UpdateItem
        (userRequest 3 "100" (.addItem ⟨"Plane", "2024-05-03", 300, 1 / 5⟩) Option.none)
        { store := workStore, failing := false }).2.store.items.filter
        (fun ei => ei.reportID = 10) =
      workStore.items.filter (fun ei => ei.reportID = 10) :=
  non_draft_items_unchanged sampleEnv .UpdateItem
    (userRequest 3 "100" (.addItem ⟨"Plane", "2024-05-03", 300, 1 / 5⟩) Option.none)
    { store := workStore, failing := false } ⟨10, 3, "Trip to Lyon", "submitted", 0⟩
    (by decide) (by simp [workStore]) (by decide)

/-- C20. For every operation of the service on a store with unique primary keys, a
report present before the operation and a report present after it with the same id have
the same owning user id. -/
theorem owner_unchanged (env : Env) (e : Endpoint) (req : Request) (db : DB)
    (r r1 : ExpenseReport) (hpk : db.store.PrimaryKeys) (hr : r ∈ db.store.reports)
    (hr1 : r1 ∈ (serve env e req db).2.store.reports) (hid : r1.id = r.id) :
    r1.userID = r.userID :=
  (step_report _ _ (serve_step env e req db).2 hpk r r1 hr hr1 hid).1

/-- Witness of C20: the validator approves report 10 of user 3; the approved report is
still owned by user 3. -/
theorem owner_unchanged_witness :
    (⟨10, 3, "Trip to Lyon", "approved", 0⟩ : ExpenseReport) ∈
        (serve sampleEnv .ApproveReport (userRequest 2 "10" .invalid Option.none)
          { store := workStore, failing := false }).2.store.reports ∧
      (⟨10, 3, "Trip to Lyon", "approved", 0⟩ : ExpenseReport).userID =
        (⟨10, 3, "Trip to Lyon", "submitted", 0⟩ : ExpenseReport).userID :=
  ⟨List.mem_cons_self _ _,
    owner_unchanged sampleEnv .ApproveReport (userRequest 2 "10" .invalid Option.none)
      { store := workStore, failing := false } ⟨10, 3, "Trip to Lyon", "submitted", 0⟩
      ⟨10, 3, "Trip to Lyon", "approved", 0⟩ (by decide) (by simp [workStore])
      (List.mem_cons_self _ _) rfl⟩

/-! ## C17 and C18: submitting and deleting a draft -/

theorem withStatus_congr (s : Store) (p q : ExpenseReport → Prop) [DecidablePred p]
    [DecidablePred q] (status : String) (h : ∀ r ∈ s.reports, p r ↔ q r) :
    s.withStatus p status = s.withStatus q status := by
  unfold Store.withStatus
  congr 1
  refine List.map_congr_left (fun x hx => ?_)
  by_cases hp : p x
  · rw [if_pos hp, if_pos ((h x hx).mp hp)]
  · rw [if_neg hp, if_neg (fun hq => hp ((h x hx).mpr hq))]

/-- C17. On every store with unique primary keys behind a working connection, for every
draft report `r`, `SubmitReport` for `r` by its owner `U`, authenticated and holding
`reports:update:own`, is answered `200` with the status `submitted`, and the database
afterwards is the one before with the status of the row `r` set to `submitted`: the
owner and the title of `r`, every other report, the items and all other tables are as
they were. -/
theorem submit_frame (env : Env) (req : Request) (s : Store) (U : Int)
    (r : ExpenseReport) (hpk : s.PrimaryKeys) (ha : Authenticated env req U)
    (hh : Holds s U PermReportsUpdateOwn) (hr : r ∈ s.reports)
    (hid : ParseInt ((req.params.lookup "id").getD "") = some r.id)
    (hown : r.userID = U) (hst : r.status = "draft") :
    (serve env .SubmitReport req { store := s, failing := false }).1.response =
        some (.object 200 [("id", .int64 r.id), ("status", .string "submitted")]) ∧
      (serve env .SubmitReport req { store := s, failing := false }).2 =
        { store := { s with reports := s.reports.map fun er =>
            if er = r then { r with status := "submitted" } else er },
          failing := false } ∧
      (serve env .SubmitReport req { store := s, failing := false }).2.store.items =
        s.items := by
  rw [serve_authorized env .SubmitReport PermReportsUpdateOwn req U s rfl ha hh]
  simp only [Endpoint.handler]
  rw [SubmitReport_draft req s U r hpk hr hid hown hst]
  refine ⟨rfl, ?_, rfl⟩
  simp only
  rw [withStatus_congr s (fun er => er.id = r.id) (fun er => er = r) "submitted"
    (fun x hx => ⟨fun h => report_unique s hpk r x hr hx h, fun h => by rw [h]⟩)]
  simp only [Store.withStatus, DB.mk.injEq, and_true]
  congr 1
  refine List.map_congr_left (fun x _ => ?_)
  by_cases hx : x = r
  · rw [if_pos hx, if_pos hx, hx]
  · rw [if_neg hx, if_neg hx]

/-- Witness of C17: user 3 submits their draft report 11. -/
theorem submit_frame_witness :
    (serve sampleEnv .SubmitReport (userRequest 3 "11" .invalid Option.none)
        { store := workStore, failing := false }).1.response =
        some (.object 200 [("id", .int64 11), ("status", .string "submitted")]) ∧
      (serve sampleEnv .SubmitReport (userRequest 3 "11" .invalid Option.none)
        { store := workStore, failing := false }).2 =
        { store := { workStore with reports := workStore.reports.map fun er =>
            if er = ⟨11, 3, "Trip to Lille", "draft", 0⟩ then
              { (⟨11, 3, "Trip to Lille", "draft", 0⟩ : ExpenseReport) with
                status := "submitted" }
            else er },
          failing := false } ∧
      (serve sampleEnv .SubmitReport (userRequest 3 "11" .invalid Option.none)
        { store := workStore, failing := false }).2.store.items = workStore.items :=
  submit_frame sampleEnv (userRequest 3 "11" .invalid Option.none) workStore 3
    ⟨11, 3, "Trip to Lille", "draft", 0⟩ (by decide) (by rfl) (by rfl)
    (by simp [workStore]) (by decide) rfl rfl

/-- The owner deletes a draft: the handler deletes the report and the answer is 204; the
items of the report go with it when the statement runs on the connection that enforces
foreign keys, and stay otherwise. -/
theorem DeleteReport_draft (env : Env) (req : Request) (s : Store) (U : Int)
    (r : ExpenseReport) (hpk : s.PrimaryKeys) (hr : r ∈ s.reports)
    (hid : ParseInt ((req.params.lookup "id").getD "") = some r.id)
    (hown : r.userID = U) (hst : r.status = "draft") :
    DeleteReport env (authenticatedContext req U) { store := s, failing := false } =
      ((authenticatedContext req U).Status 204,
        { store := { s with
            reports := s.reports.filter fun er => er.id ≠ r.id,
            items := if env.foreignKeys then s.items.filter fun ei => ei.reportID ≠ r.id
              else s.items },
          failing := false }) := by
  simp only [DeleteReport, authenticatedContext_param, hid, authenticatedContext_userID,
    QueryRow_report s hpk r hr]
  rw [if_neg (not_not.mpr hown), if_neg (not_not.mpr hst)]
  rfl

/-- In every other case `DeleteReport` answers with an error and writes nothing. -/
theorem DeleteReport_failed (env : Env) (req : Request) (s : Store) (U : Int)
    (hpk : s.PrimaryKeys)
    (hno : ¬ ∃ r ∈ s.reports, ParseInt ((req.params.lookup "id").getD "") = some r.id ∧
      r.userID = U ∧ r.status = "draft") :
    ∃ status msg,
      DeleteReport env (authenticatedContext req U) { store := s, failing := false } =
        ((authenticatedContext req U).JSON status msg, { store := s, failing := false }) := by
  cases hid : ParseInt ((req.params.lookup "id").getD "") with
  | none =>
    refine ⟨400, "invalid report id", ?_⟩
    simp only [DeleteReport, authenticatedContext_param, hid]
  | some id =>
    by_cases hex : ∃ r ∈ s.reports, r.id = id
    · obtain ⟨r, hr, hrid⟩ := hex
      subst hrid
      have hg := draft_guard env .DeleteReport "only draft reports can be deleted" req
        s U r rfl hpk ⟨hr, hid⟩
      by_cases hown : r.userID = U
      · have hst : r.status ≠ "draft" := fun h => hno ⟨r, hr, hid, hown, h⟩
        exact ⟨400, _, hg.2 hown hst⟩
      · exact ⟨403, _, hg.1 hown⟩
    · refine ⟨404, "report not found", ?_⟩
      have hq : reportQuery id s = [] := by
        unfold reportQuery
        rw [List.map_eq_nil_iff, List.filter_eq_nil_iff]
        intro x hx hc
        exact hex ⟨x, hx, by simpa using hc⟩
      simp only [DeleteReport, authenticatedContext_param, hid, authenticatedContext_userID,
        DB.QueryRow, hq]
      rfl

/-- What `DeleteReport` does for an authenticated caller `U` who holds
`reports:update:own`, on a store with unique primary keys behind a working connection:
the answer is `204` if and only if the path parameter is the id of a report that exists,
is owned by `U` and is a draft; the report is then removed, and its items are removed
with it exactly when the statement runs on the connection that enforces foreign keys;
in every other case the database is left as it was. -/
theorem DeleteReport_law (env : Env) (req : Request) (s : Store) (U : Int)
    (hpk : s.PrimaryKeys) (ha : Authenticated env req U)
    (hh : Holds s U PermReportsUpdateOwn) :
    ((serve env .DeleteReport req { store := s, failing := false }).1.response =
        some (.noContent 204) ↔
      ∃ r ∈ s.reports, ParseInt ((req.params.lookup "id").getD "") = some r.id ∧
        r.userID = U ∧ r.status = "draft") ∧
    (∀ r ∈ s.reports, ParseInt ((req.params.lookup "id").getD "") = some r.id →
      r.userID = U → r.status = "draft" →
      (serve env .DeleteReport req { store := s, failing := false }).2 =
        { store := { s with
            reports := s.reports.filter fun er => er.id ≠ r.id,
            items := if env.foreignKeys then s.items.filter fun ei => ei.reportID ≠ r.id
              else s.items },
          failing := false }) ∧
    ((¬ ∃ r ∈ s.reports, ParseInt ((req.params.lookup "id").getD "") = some r.id ∧
        r.userID = U ∧ r.status = "draft") →
      (serve env .DeleteReport req { store := s, failing := false }).2 =
        { store := s, failing := false }) := by
  rw [serve_authorized env .DeleteReport PermReportsUpdateOwn req U s rfl ha hh]
  simp only [Endpoint.handler]
  refine ⟨?_, ?_, ?_⟩
  · constructor
    · intro h
      by_contra hno
      obtain ⟨status, msg, heq⟩ := DeleteReport_failed env req s U hpk hno
      rw [heq] at h
      simp [Context.JSON] at h
    · rintro ⟨r, hr, hid, hown, hst⟩
      rw [DeleteReport_draft env req s U r hpk hr hid hown hst]
      rfl
  · intro r hr hid hown hst
    rw [DeleteReport_draft env req s U r hpk hr hid hown hst]
  · intro hno
    obtain ⟨status, msg, heq⟩ := DeleteReport_failed env req s U hpk hno
    rw [heq]

/-- C18. The claim fails where the schema says it should hold.  User 3 deletes their
draft report 11, which has the item 110.  When the statement runs on the connection on
which `InitDB` turned foreign keys on, the answer is `204` and the report and its item
are gone, as the claim says and as `ON DELETE CASCADE` in the schema asks.  When the pool
hands out another connection, the answer is `204` as well and report 11 is gone, but
item 110 is still stored, with a `report_id` that no report has. -/
theorem delete_leaves_items :
    (serve sampleEnv .DeleteReport (userRequest 3 "11" .invalid Option.none)
        { store := workStore, failing := false }).1.response = some (.noContent 204) ∧
      (serve sampleEnv .DeleteReport (userRequest 3 "11" .invalid Option.none)
        { store := workStore, failing := false }).2.store.items.filter
          (fun ei => ei.reportID = 11) = [] ∧
      (serve { sampleEnv with foreignKeys := false } .DeleteReport
        (userRequest 3 "11" .invalid Option.none)
        { store := workStore, failing := false }).1.response = some (.noContent 204) ∧
      (serve { sampleEnv with foreignKeys := false } .DeleteReport
        (userRequest 3 "11" .invalid Option.none)
        { store := workStore, failing := false }).2.store.reports.filter
          (fun er => er.id = 11) = [] ∧
      ((serve { sampleEnv with foreignKeys := false } .DeleteReport
        (userRequest 3 "11" .invalid Option.none)
        { store := workStore, failing := false }).2.store.items.filter
          (fun ei => ei.reportID = 11)).map (fun ei => ei.id) = [110] ∧
      (serve { sampleEnv with foreignKeys := false } .DeleteReport
        (userRequest 3 "11" .invalid Option.none)
        { store := workStore, failing := false }).2.store.items = workStore.items := by
  refine ⟨?_, ?_, ?_, ?_, ?_, ?_⟩ <;> decide!

/-! ## C19: the statuses of the reports, and the creation of a report -/

theorem CreateReport_blank (env : Env) (req : Request) (s : Store) (U : Int)
    (hb : ∀ title, req.body = .createReport ⟨title⟩ → TrimSpace title = "") :
    CreateReport env (authenticatedContext req U) { store := s, failing := false } =
      ((authenticatedContext req U).JSON 400 "title is required",
        { store := s, failing := false }) := by
  unfold CreateReport
  split
  · rename_i r hr
    rw [if_pos (hb r.Title hr)]
  · rfl

theorem CreateReport_created (env : Env) (req : Request) (s : Store) (U id : Int)
    (title : String)
    (h : (CreateReport env (authenticatedContext req U)
        { store := s, failing := false }).1.response =
      some (.object 201 [("id", .int64 id), ("title", .string title),
        ("status", .string "draft")])) :
    (∀ r ∈ s.reports, r.id < id) ∧
      (CreateReport env (authenticatedContext req U)
        { store := s, failing := false }).2.store.reports =
        s.reports ++ [⟨id, U, title, "draft", env.now⟩] ∧
      (CreateReport env (authenticatedContext req U)
        { store := s, failing := false }).2.store.items = s.items := by
  have h1 := h
  unfold CreateReport at h1
  split at h1
  · rename_i r hr
    split at h1
    · simp [Context.JSON] at h1
    · rename_i hne
      rw [authenticatedContext_userID] at h1
      simp only at h1
      split at h1
      · simp [Context.JSON] at h1
      · rename_i db1 res hx
        obtain ⟨_, hs⟩ := DB.Exec_store _ db1 _ res hx
        obtain ⟨hlt, hs1⟩ := insertReport_ok _ _ _ _ _ _ _ _ hs
        simp only [Context.Object, List.all_cons, List.all_nil, Any.encodable,
          Bool.and_self, if_true, Option.some.injEq, Response.object.injEq,
          List.cons.injEq, Prod.mk.injEq, Any.int64.injEq, Any.string.injEq, true_and,
          and_true] at h1
        obtain ⟨hid, htitle⟩ := h1
        unfold CreateReport
        simp only [hr, if_neg hne, authenticatedContext_userID, hx]
        rw [hs1, ← hid, ← htitle]
        exact ⟨hlt, rfl, rfl⟩
  · simp [Context.JSON] at h1

theorem CreateReport_ok (env : Env) (req : Request) (s : Store) (U id : Int)
    (title : String) (hb : req.body = .createReport ⟨title⟩)
    (ht : TrimSpace title ≠ "") (hu : ∃ u ∈ s.users, u.id = U)
    (hn : nextRowID s "expense_reports" (s.reports.map fun er => er.id) = .ok id) :
    (CreateReport env (authenticatedContext req U)
        { store := s, failing := false }).1.response =
      some (.object 201 [("id", .int64 id), ("title", .string title),
        ("status", .string "draft")]) := by
  have hany : (s.users.any fun u => decide (u.id = U)) = true := by
    obtain ⟨u, hu, huid⟩ := hu
    exact List.any_eq_true.mpr ⟨u, hu, by simpa using huid⟩
  have hb1 : (authenticatedContext req U).request.body = .createReport ⟨title⟩ := hb
  unfold CreateReport
  rw [hb1]
  simp only [if_neg ht, authenticatedContext_userID, DB.Exec, insertReport, hany, hn]
  rfl

/-- C19. In every store `s` that service operations lead to from a store without
reports, every report has one of the statuses `draft`, `submitted`, `approved`,
`rejected`.  On such a store behind a working connection, for a request to
`CreateReport` by an authenticated caller `U` who holds `reports:create`: a body without
a title, or with a blank one, is answered `400 title is required` and the database is
left as it was; whenever the answer is the success answer `201` with an id and a title,
the reports afterwards are the reports before followed by one new report with that id,
which no report had before, the owner `U`, that title and the status `draft`; and the
success answer is given whenever the title is not blank, the user `U` exists and the
table has a row id left. -/
theorem statuses_valid_and_created_draft (env : Env) (req : Request) (s0 s : Store)
    (U : Int) (h0 : s0.reports = []) (hreach : Reachable s0 s)
    (ha : Authenticated env req U) (hh : Holds s U PermReportsCreate) :
    s.StatusesValid ∧
    ((∀ title, req.body = .createReport ⟨title⟩ → TrimSpace title = "") →
      (serve env .CreateReport req { store := s, failing := false }).1.response =
          some (.errorJSON 400 "title is required") ∧
        (serve env .CreateReport req { store := s, failing := false }).2 =
          { store := s, failing := false }) ∧
    (∀ id title,
      (serve env .CreateReport req { store := s, failing := false }).1.response =
          some (.object 201 [("id", .int64 id), ("title", .string title),
            ("status", .string "draft")]) →
      (∀ r ∈ s.reports, r.id < id) ∧
        (serve env .CreateReport req { store := s, failing := false }).2.store.reports =
          s.reports ++ [⟨id, U, title, "draft", env.now⟩] ∧
        (serve env .CreateReport req { store := s, failing := false }).2.store.items =
          s.items) ∧
    (∀ id title, req.body = .createReport ⟨title⟩ → TrimSpace title ≠ "" →
      (∃ u ∈ s.users, u.id = U) →
      nextRowID s "expense_reports" (s.reports.map fun er => er.id) = .ok id →
      (serve env .CreateReport req { store := s, failing := false }).1.response =
        some (.object 201 [("id", .int64 id), ("title", .string title),
          ("status", .string "draft")])) := by
  rw [serve_authorized env .CreateReport PermReportsCreate req U s rfl ha hh]
  simp only [Endpoint.handler]
  refine ⟨?_, ?_, ?_, ?_⟩
  · refine reachable_statuses s0 s hreach ?_
    intro r hr
    rw [h0] at hr
    cases hr
  · intro hb
    rw [CreateReport_blank env req s U hb]
    exact ⟨rfl, rfl⟩
  · intro id title h
    exact CreateReport_created env req s U id title h
  · intro id title hb ht hu hn
    exact CreateReport_ok env req s U id title hb ht hu hn

/-- Witness of C19: user 3 creates a first report on the store without reports, and
then a second one: the statuses of the store in between are valid, and the second report
is a draft of user 3 with the id 2. -/
theorem statuses_valid_and_created_draft_witness :
    (serve sampleEnv .CreateReport
        (userRequest 3 "" (.createReport ⟨"Trip to Lyon"⟩) Option.none)
        { store := freshStore, failing := false }).2.store.StatusesValid ∧
      (serve sampleEnv .CreateReport
        (userRequest 3 "" (.createReport ⟨"Trip to Nice"⟩) Option.none)
        { store := (serve sampleEnv .CreateReport
            (userRequest 3 "" (.createReport ⟨"Trip to Lyon"⟩) Option.none)
            { store := freshStore, failing := false }).2.store,
          failing := false }).2.store.reports =
        [⟨1, 3, "Trip to Lyon", "draft", 0⟩, ⟨2, 3, "Trip to Nice", "draft", 0⟩] :=
  ⟨(statuses_valid_and_created_draft sampleEnv
      (userRequest 3 "" (.createReport ⟨"Trip to Nice"⟩) Option.none) freshStore _ 3 rfl
      (Reachable.step freshStore sampleEnv .CreateReport
        (userRequest 3 "" (.createReport ⟨"Trip to Lyon"⟩) Option.none) false
        Reachable.init) (by rfl) (by rfl)).1,
    ((statuses_valid_and_created_draft sampleEnv
      (userRequest 3 "" (.createReport ⟨"Trip to Nice"⟩) Option.none) freshStore _ 3 rfl
      (Reachable.step freshStore sampleEnv .CreateReport
        (userRequest 3 "" (.createReport ⟨"Trip to Lyon"⟩) Option.none) false
        Reachable.init) (by rfl) (by rfl)).2.2.1 2 "Trip to Nice" (by rfl)).2.1⟩

/-! ## C16: the update of `SubmitReport` -/

/-- C16. The update that `SubmitReport` issues is not conditioned on the current status.
Run on the sample store, where report 12 is approved, it sets the report back to
`submitted` and counts one changed row, whereas the conditional update of `RejectReport`
changes nothing there and counts no row.  Run twice on the draft report 11, as by two
submissions that have both read the status `draft` before either wrote, it counts one
changed row both times, so neither submission can tell that the other came first. -/
theorem submit_update_not_conditioned :
    updateReportStatus "submitted" 12 workStore =
        .ok ({ workStore with
              reports := [⟨10, 3, "Trip to Lyon", "submitted", 0⟩,
                ⟨11, 3, "Trip to Lille", "draft", 0⟩,
                ⟨12, 3, "Trip to Brest", "submitted", 0⟩] }, ⟨0, 1⟩) ∧
      updateReportStatusWhere "rejected" 12 "submitted" workStore =
        .ok (workStore, ⟨0, 0⟩) ∧
      ∃ s1, updateReportStatus "submitted" 11 workStore = .ok (s1, ⟨0, 1⟩) ∧
        updateReportStatus "submitted" 11 s1 = .ok (s1, ⟨0, 1⟩) :=
  ⟨by rfl, by rfl, _, by rfl, by rfl⟩

/-! ## C22: seeding twice -/

theorem Store.Extends.refl (s : Store) : s.Extends s :=
  ⟨List.prefix_refl _, List.prefix_refl _, List.prefix_refl _, List.prefix_refl _⟩

theorem Store.Extends.trans {s s1 s2 : Store} (h : s.Extends s1) (h1 : s1.Extends s2) :
    s.Extends s2 :=
  ⟨h.1.trans h1.1, h.2.1.trans h1.2.1, h.2.2.1.trans h1.2.2.1, h.2.2.2.trans h1.2.2.2⟩

theorem head_filter_map_prefix {α β : Type} (p : α → Bool) (f : α → β) (l l1 : List α)
    (x : β) (hl : l <+: l1) (h : ((l.filter p).map f).head? = some x) :
    ((l1.filter p).map f).head? = some x := by
  obtain ⟨t, rfl⟩ := hl
  rw [List.filter_append, List.map_append, List.head?_append, h]
  rfl

theorem filter_map_ne_nil_prefix {α β : Type} (p : α → Bool) (f : α → β) (l l1 : List α)
    (hl : l <+: l1) (h : (l.filter p).map f ≠ []) : (l1.filter p).map f ≠ [] := by
  obtain ⟨t, rfl⟩ := hl
  rw [List.filter_append, List.map_append]
  intro hc
  exact h (List.append_eq_nil.mp hc).1

theorem Store.HasPermission.permission_mono {s s1 : Store} {action : String} (he : s.Extends s1)
    (h : s.HasPermission action) : s1.HasPermission action := by
  obtain ⟨id, hid⟩ := h
  exact ⟨id, head_filter_map_prefix _ _ _ _ id he.2.2.1 hid⟩

theorem Store.Granted.granted_mono {s s1 : Store} {groupID : Int} {action : String}
    (he : s.Extends s1) (h : s.Granted groupID action) : s1.Granted groupID action := by
  obtain ⟨id, hid, hg⟩ := h
  exact ⟨id, head_filter_map_prefix _ _ _ _ id he.2.2.1 hid,
    filter_map_ne_nil_prefix _ _ _ _ he.2.2.2 hg⟩

theorem Store.HasGroup.group_mono {s s1 : Store} {d : groupDef} (he : s.Extends s1)
    (h : s.HasGroup d) : s1.HasGroup d := by
  obtain ⟨id, hid, hg⟩ := h
  exact ⟨id, head_filter_map_prefix _ _ _ _ id he.2.1 hid, fun a ha => (hg a ha).granted_mono he⟩

/-- A loop whose body changes nothing for any element changes nothing. -/
theorem forEach_fixed {α : Type} (body : DB → α → Except String DB) (l : List α) (db : DB)
    (h : ∀ x ∈ l, body db x = .ok db) : forEach body l db = .ok db := by
  induction l with
  | nil => rfl
  | cons x xs ih =>
    unfold forEach
    rw [h x (List.mem_cons_self _ _)]
    exact ih (fun y hy => h y (List.mem_cons_of_mem _ hy))

/-- A loop whose body establishes for its element a fact that later rows do not undo
establishes the fact for every element. -/
theorem forEach_establishes {α : Type} (body : DB → α → Except String DB)
    (Done : α → Store → Prop)
    (hmono : ∀ x s s1, s.Extends s1 → Done x s → Done x s1)
    (hstep : ∀ db x db1, body db x = .ok db1 →
      Done x db1.store ∧ db.store.Extends db1.store ∧ db1.failing = db.failing)
    (l : List α) (db db1 : DB) (h : forEach body l db = .ok db1) :
    (∀ x ∈ l, Done x db1.store) ∧ db.store.Extends db1.store ∧ db1.failing = db.failing := by
  induction l generalizing db with
  | nil =>
    cases h
    exact ⟨fun x hx => (by cases hx), Store.Extends.refl _, rfl⟩
  | cons x xs ih =>
    unfold forEach at h
    split at h
    · cases h
    · rename_i db2 hb
      obtain ⟨hd, he, hf⟩ := hstep db x db2 hb
      obtain ⟨hall, he1, hf1⟩ := ih db2 h
      refine ⟨?_, he.trans he1, hf1.trans hf⟩
      intro y hy
      rcases List.mem_cons.mp hy with rfl | hy
      · exact hmono _ _ _ he1 hd
      · exact hall y hy

theorem insertPermission_ok (action : String) (s s1 : Store) (res : ExecResult)
    (h : insertPermission action s = .ok (s1, res)) :
    s1 = { s with
      permissions := s.permissions ++ [⟨res.lastInsertId, action⟩],
      sequence := GoMap.set s.sequence "permissions" res.lastInsertId } := by
  unfold insertPermission at h
  split at h
  · cases h
  · split at h
    · cases h
    · cases h
      rfl

theorem insertGroupPermission_ok (fk : Bool) (groupID permissionID : Int) (s s1 : Store)
    (res : ExecResult)
    (h : insertGroupPermission fk groupID permissionID s = .ok (s1, res)) :
    s1 = { s with groupPermissions := s.groupPermissions ++ [⟨groupID, permissionID⟩] } := by
  unfold insertGroupPermission at h
  split at h
  · cases h
  · split at h
    · cases h
    · cases h
      rfl

theorem insertGroup_ok (name : String) (s s1 : Store) (res : ExecResult)
    (h : insertGroup name s = .ok (s1, res)) :
    s1 = { s with
      groups := s.groups ++ [⟨res.lastInsertId, name⟩],
      sequence := GoMap.set s.sequence "groups" res.lastInsertId } := by
  unfold insertGroup at h
  split at h
  · cases h
  · split at h
    · cases h
    · cases h
      rfl

theorem insertUser_ok (email passwordHash : String) (createdAt : Int) (s s1 : Store)
    (res : ExecResult) (h : insertUser email passwordHash createdAt s = .ok (s1, res)) :
    (∀ u ∈ s.users, u.email ≠ email) ∧ (∀ u ∈ s.users, u.id < res.lastInsertId) ∧
    s1 = { s with
      users := s.users ++ [⟨res.lastInsertId, email, passwordHash, createdAt⟩],
      sequence := GoMap.set s.sequence "users" res.lastInsertId } := by
  unfold insertUser at h
  split at h
  · cases h
  · rename_i hany
    split at h
    · cases h
    · rename_i id hid
      cases h
      refine ⟨?_, ?_, rfl⟩
      · intro u hu hc
        exact hany (List.any_eq_true.mpr ⟨u, hu, by simpa using hc⟩)
      · intro u hu
        exact nextRowID_gt s "users" _ id hid u.id (List.mem_map.mpr ⟨u, hu, rfl⟩)

theorem insertUserGroup_ok (fk : Bool) (userID groupID : Int) (s s1 : Store)
    (res : ExecResult) (h : insertUserGroup fk userID groupID s = .ok (s1, res)) :
    (fk = true → ∃ g ∈ s.groups, g.id = groupID) ∧
      (⟨userID, groupID⟩ : UserGroup) ∉ s.userGroups ∧
      s1 = { s with userGroups := s.userGroups ++ [⟨userID, groupID⟩] } := by
  unfold insertUserGroup at h
  split at h
  · cases h
  · rename_i hany
    split at h
    · cases h
    · rename_i hfk
      cases h
      refine ⟨?_, ?_, rfl⟩
      · intro hfkt
        have hg : (s.groups.any fun g => decide (g.id = groupID)) = true := by
          by_contra hc
          exact hfk ⟨Or.inr (by simpa using hc), hfkt⟩
        obtain ⟨g, hg, hgid⟩ := List.any_eq_true.mp hg
        exact ⟨g, hg, by simpa using hgid⟩
      · intro hm
        exact hany (List.any_eq_true.mpr ⟨_, hm, by simp⟩)

theorem QueryRow_working {α : Type} (s : Store) (q : Store → List α) :
    DB.QueryRow { store := s, failing := false } q = .ok (q s).head? := rfl

theorem Extends_of_permissions (s : Store) (l : List Permission) (seq : List (String × Int)) :
    s.Extends { s with permissions := s.permissions ++ l, sequence := seq } :=
  ⟨List.prefix_refl _, List.prefix_refl _, List.prefix_append _ _, List.prefix_refl _⟩

theorem Extends_of_groups (s : Store) (l : List Group) (seq : List (String × Int)) :
    s.Extends { s with groups := s.groups ++ l, sequence := seq } :=
  ⟨List.prefix_refl _, List.prefix_append _ _, List.prefix_refl _, List.prefix_refl _⟩

theorem Extends_of_groupPermissions (s : Store) (l : List GroupPermission) :
    s.Extends { s with groupPermissions := s.groupPermissions ++ l } :=
  ⟨List.prefix_refl _, List.prefix_refl _, List.prefix_refl _, List.prefix_append _ _⟩

theorem Extends_of_users (s : Store) (l : List User) (seq : List (String × Int)) :
    s.Extends { s with users := s.users ++ l, sequence := seq } :=
  ⟨List.prefix_append _ _, List.prefix_refl _, List.prefix_refl _, List.prefix_refl _⟩

theorem Extends_of_userGroups (s : Store) (l : List UserGroup) :
    s.Extends { s with userGroups := l } :=
  ⟨List.prefix_refl _, List.prefix_refl _, List.prefix_refl _, List.prefix_refl _⟩

theorem head_map_filter_none {α β : Type} (p : α → Bool) (f : α → β) (l : List α)
    (h : ((l.filter p).map f).head? = Option.none) : l.filter p = [] := by
  cases hl : l.filter p with
  | nil => rfl
  | cons a t => rw [hl] at h; cases h

theorem seedPermission_step (db db1 : DB) (action : String)
    (h : seedPermission db action = .ok db1) :
    db1.store.HasPermission action ∧ db.store.Extends db1.store ∧
      db1.failing = db.failing := by
  unfold seedPermission at h
  split at h
  · rename_i hq
    split at h
    · cases h
    · rename_i db2 res hx
      cases h
      obtain ⟨hf, hs⟩ := DB.Exec_store db db1 _ res hx
      have hs1 := insertPermission_ok _ _ _ _ hs
      obtain ⟨_, hnone⟩ := DB.QueryRow_ok db _ _ hq
      have hnil := head_map_filter_none _ _ _ hnone.symm
      refine ⟨⟨res.lastInsertId, ?_⟩, ?_, hf⟩
      · rw [hs1]
        simp only [permissionIDQuery, List.filter_append, hnil, List.nil_append]
        simp
      · rw [hs1]
        exact Extends_of_permissions _ _ _
  · cases h
  · rename_i id hq
    cases h
    obtain ⟨_, hsome⟩ := DB.QueryRow_ok db _ _ hq
    exact ⟨⟨id, hsome.symm⟩, Store.Extends.refl _, rfl⟩

theorem assignPermission_step (groupID : Int) (db db1 : DB) (action : String)
    (h : assignPermission groupID db action = .ok db1) :
    db1.store.Granted groupID action ∧ db.store.Extends db1.store ∧
      db1.failing = db.failing := by
  unfold assignPermission at h
  split at h
  · cases h
  · cases h
  · rename_i pid hq
    obtain ⟨_, hsome⟩ := DB.QueryRow_ok db _ _ hq
    split at h
    · split at h
      · cases h
      · rename_i db2 res hx
        cases h
        obtain ⟨hf, hs⟩ := DB.Exec_store db db1 _ res hx
        have hs1 := insertGroupPermission_ok _ _ _ _ _ _ hs
        refine ⟨⟨pid, ?_, ?_⟩, ?_, hf⟩
        · rw [hs1]
          exact hsome.symm
        · rw [hs1]
          simp [grantQuery, List.filter_append]
        · rw [hs1]
          exact Extends_of_groupPermissions _ _
    · cases h
    · rename_i one hg
      cases h
      obtain ⟨_, hgs⟩ := DB.QueryRow_ok db _ _ hg
      refine ⟨⟨pid, hsome.symm, ?_⟩, Store.Extends.refl _, rfl⟩
      intro hnil
      rw [hnil] at hgs
      cases hgs

theorem seedGroup_step (db db1 : DB) (d : groupDef) (h : seedGroup db d = .ok db1) :
    db1.store.HasGroup d ∧ db.store.Extends db1.store ∧ db1.failing = db.failing := by
  unfold seedGroup at h
  split at h
  · rename_i hq
    split at h
    · cases h
    · rename_i db2 res hx
      obtain ⟨hf, hs⟩ := DB.Exec_store db db2 _ res hx
      have hs1 := insertGroup_ok _ _ _ _ hs
      obtain ⟨_, hnone⟩ := DB.QueryRow_ok db _ _ hq
      have hnil := head_map_filter_none _ _ _ hnone.symm
      obtain ⟨hall, he, hf1⟩ := forEach_establishes (assignPermission res.lastInsertId)
        (fun a s => s.Granted res.lastInsertId a) (fun _ _ _ he hd => hd.granted_mono he)
        (fun db x db1 hb => assignPermission_step _ db db1 x hb) d.permissions db2 db1 h
      have he0 : db.store.Extends db2.store := by
        rw [hs1]
        exact Extends_of_groups _ _ _
      have hid : (groupIDQuery d.name db2.store).head? = some res.lastInsertId := by
        rw [hs1]
        simp only [groupIDQuery, List.filter_append, hnil, List.nil_append]
        simp
      exact ⟨⟨res.lastInsertId, head_filter_map_prefix _ _ _ _ _ he.2.1 hid, hall⟩,
        he0.trans he, hf1.trans hf⟩
  · cases h
  · rename_i gid hq
    obtain ⟨_, hsome⟩ := DB.QueryRow_ok db _ _ hq
    obtain ⟨hall, he, hf1⟩ := forEach_establishes (assignPermission gid)
      (fun a s => s.Granted gid a) (fun _ _ _ he hd => hd.granted_mono he)
      (fun db x db1 hb => assignPermission_step _ db db1 x hb) d.permissions db db1 h
    exact ⟨⟨gid, head_filter_map_prefix _ _ _ _ _ he.2.1 hsome.symm, hall⟩, he, hf1⟩

theorem seedPermissionsAndGroups_ok (db db1 : DB)
    (h : seedPermissionsAndGroups db = .ok db1) :
    (∀ a ∈ defaultPermissions, db1.store.HasPermission a) ∧
      (∀ d ∈ defaultGroups, db1.store.HasGroup d) ∧ db.store.Extends db1.store ∧
      db1.failing = db.failing := by
  unfold seedPermissionsAndGroups at h
  split at h
  · cases h
  · rename_i db2 h2
    obtain ⟨hp, he, hf⟩ := forEach_establishes seedPermission
      (fun a s => s.HasPermission a) (fun _ _ _ he hd => hd.permission_mono he)
      (fun db x db1 hb => seedPermission_step db db1 x hb) defaultPermissions db db2 h2
    obtain ⟨hg, he1, hf1⟩ := forEach_establishes seedGroup
      (fun d s => s.HasGroup d) (fun _ _ _ he hd => hd.group_mono he)
      (fun db x db1 hb => seedGroup_step db db1 x hb) defaultGroups db2 db1 h
    exact ⟨fun a ha => (hp a ha).permission_mono he1, hg, he.trans he1, hf1.trans hf⟩

theorem seedSuperAdmin_ok (env : Env) (email password : String) (db db1 : DB)
    (h : seedSuperAdmin env email password db = .ok db1) :
    db1.store.users ≠ [] ∧ db.store.Extends db1.store ∧ db1.failing = db.failing ∧
      db.failing = false := by
  unfold seedSuperAdmin at h
  split at h
  · cases h
  · cases h
  · rename_i count hq
    obtain ⟨hfail, hc⟩ := DB.QueryRow_ok db _ _ hq
    simp only [List.head?_cons, Option.some.injEq] at hc
    split at h
    · rename_i hpos
      cases h
      refine ⟨?_, Store.Extends.refl _, rfl, hfail⟩
      intro hnil
      rw [hc, hnil] at hpos
      simp at hpos
    · dsimp only at h
      split at h
      · cases h
      · split at h
        · cases h
        · rename_i db2 res hx
          obtain ⟨hf, hs⟩ := DB.Exec_store db db2 _ res hx
          obtain ⟨_, _, hs1⟩ := insertUser_ok _ _ _ _ _ _ hs
          split at h
          · cases h
          · cases h
          · split at h
            · cases h
            · rename_i db3 res3 hx3
              cases h
              obtain ⟨hf3, hs3⟩ := DB.Exec_store db2 db1 _ res3 hx3
              obtain ⟨_, _, hs31⟩ := insertUserGroup_ok _ _ _ _ _ _ hs3
              have he : db.store.Extends db2.store := by
                rw [hs1]
                exact Extends_of_users _ _ _
              have he3 : db2.store.Extends db1.store := by
                rw [hs31]
                exact Extends_of_userGroups _ _
              refine ⟨?_, he.trans he3, hf3.trans hf, hfail⟩
              rw [hs31, hs1]
              simp

theorem schema_ok (db db1 : DB)
    (h : forEach
      (fun db what =>
        match db.Exec schemaStatement with
        | .error err => .error (what ++ ": " ++ err)
        | .ok (db1, _) => .ok db1)
      schema db = .ok db1) : db1 = db := by
  revert h
  generalize schema = l
  induction l generalizing db with
  | nil =>
    intro h
    cases h
    rfl
  | cons x xs ih =>
    intro h
    unfold forEach at h
    split at h
    · cases h
    · rename_i db2 hb
      split at hb
      · cases hb
      · rename_i db3 res hx
        cases hb
        obtain ⟨hf, hs⟩ := DB.Exec_store db db2 _ res hx
        have hst : db2.store = db.store := (congrArg Prod.fst (Except.ok.inj hs)).symm
        have hdb : db2 = db := by
          cases db2
          cases db
          simp only at hst hf
          rw [hst, hf]
        rw [hdb] at h
        exact ih db h

/-- A successful run of `InitDB` leaves a seeded store behind a working connection. -/
theorem InitDB_seeded (env : Env) (email password : String) (db db1 : DB)
    (h : InitDB env email password db = .ok db1) :
    db1.store.Seeded ∧ db1.failing = false := by
  unfold InitDB at h
  split at h
  · cases h
  · rename_i db2 h2
    split at h
    · cases h
    · rename_i db3 h3
      obtain ⟨hp, hg, _, _⟩ := seedPermissionsAndGroups_ok db2 db3 h3
      obtain ⟨hu, he, hf, hf3⟩ := seedSuperAdmin_ok env email password db3 db1 h
      exact ⟨⟨fun a ha => (hp a ha).permission_mono he, fun d hd => (hg d hd).group_mono he, hu⟩,
        hf.trans hf3⟩

/-- On a seeded store behind a working connection `InitDB` succeeds and writes nothing. -/
theorem InitDB_fixed (env : Env) (email password : String) (s : Store) (h : s.Seeded) :
    InitDB env email password { store := s, failing := false } =
      .ok { store := s, failing := false } := by
  obtain ⟨hp, hg, hu⟩ := h
  have h1 : forEach
      (fun db what =>
        match db.Exec schemaStatement with
        | .error err => .error (what ++ ": " ++ err)
        | .ok (db1, _) => .ok db1)
      schema { store := s, failing := false } = .ok { store := s, failing := false } :=
    forEach_fixed _ _ _ (fun _ _ => rfl)
  have h2 : forEach seedPermission defaultPermissions { store := s, failing := false } =
      .ok { store := s, failing := false } := by
    refine forEach_fixed _ _ _ (fun a ha => ?_)
    obtain ⟨id, hid⟩ := hp a ha
    unfold seedPermission
    rw [QueryRow_working, hid]
  have h3 : forEach seedGroup defaultGroups { store := s, failing := false } =
      .ok { store := s, failing := false } := by
    refine forEach_fixed _ _ _ (fun d hd => ?_)
    obtain ⟨gid, hgid, hall⟩ := hg d hd
    unfold seedGroup
    rw [QueryRow_working, hgid]
    refine forEach_fixed _ _ _ (fun a ha => ?_)
    obtain ⟨pid, hpid, hgr⟩ := hall a ha
    unfold assignPermission
    rw [QueryRow_working, hpid]
    simp only
    rw [QueryRow_working]
    cases hq : grantQuery gid pid s with
    | nil => exact absurd hq hgr
    | cons x t => rfl
  have h4 : seedSuperAdmin env email password { store := s, failing := false } =
      .ok { store := s, failing := false } := by
    unfold seedSuperAdmin
    rw [QueryRow_working]
    simp only [List.head?_cons]
    rw [if_pos]
    cases hs : s.users with
    | nil => exact absurd hs hu
    | cons u t => simp
  unfold InitDB
  rw [h1]
  simp only
  unfold seedPermissionsAndGroups
  rw [h2]
  simp only
  rw [h3]
  simp only
  exact h4

/-- C22. Seeding is idempotent: when a run of `InitDB` on any database succeeds and
leaves the database `db1`, a further run of `InitDB` on `db1`, whatever the surroundings
and the administrator settings of that run are, succeeds and leaves `db1` again: no
permission, group, grant, user or membership row is added or changed. -/
theorem InitDB_idempotent (env env1 : Env) (email password email1 password1 : String)
    (db db1 : DB) (h : InitDB env email password db = .ok db1) :
    InitDB env1 email1 password1 db1 = .ok db1 := by
  obtain ⟨hs, hf⟩ := InitDB_seeded env email password db db1 h
  have hdb : db1 = { store := db1.store, failing := false } := by
    cases db1
    simp only at hf
    rw [hf]
  rw [hdb]
  exact InitDB_fixed env1 email1 password1 db1.store hs

/-- Witness of C22: `InitDB` on the empty database gives the seeded database, and
`InitDB` on the seeded database gives it again. -/
theorem InitDB_idempotent_witness :
    InitDB sampleEnv "" "" emptyDB = .ok seededDB ∧
      InitDB sampleEnv "" "" seededDB = .ok seededDB :=
  ⟨by rfl, InitDB_idempotent sampleEnv sampleEnv "" "" "" "" emptyDB seededDB (by rfl)⟩

/-! ## Passwords (`auth.go`) -/

theorem toNat_ofNat_byte (n : Nat) (hn : n < 256) : (Char.ofNat n).toNat = n := by
  have hv : n.isValidChar := Or.inl (by omega)
  simp [Char.ofNat, hv, Char.ofNatAux, Char.toNat, UInt32.toNat]

theorem utf8Bytes_lt (s : String) : ∀ b ∈ utf8Bytes s, b < 256 := by
  intro b hb
  unfold utf8Bytes at hb
  simp only [List.mem_flatMap, List.mem_map] at hb
  obtain ⟨_, _, u, _, rfl⟩ := hb
  exact u.toNat_lt

theorem length_le_utf8Bytes (s : String) : s.data.length ≤ (utf8Bytes s).length := by
  unfold utf8Bytes
  induction s.data with
  | nil => simp
  | cons c t ih =>
    simp only [List.flatMap_cons, List.length_append, List.length_map,
      String.length_utf8EncodeChar, List.length_cons]
    have := Char.utf8Size_pos c
    omega

theorem bcryptKey_length (password : String) : (bcryptKey password).length = 72 := by
  simp [bcryptKey]

theorem bcryptKey_getElem (password : String) (i : Nat) (hi : i < 72) :
    (bcryptKey password)[i]? =
      some ((utf8Bytes password ++ [0]).getD (i % ((utf8Bytes password).length + 1)) 0) := by
  simp [bcryptKey, List.getElem?_map, List.getElem?_range hi]

theorem bcryptKey_lt (password : String) : ∀ b ∈ bcryptKey password, b < 256 := by
  intro b hb
  unfold bcryptKey at hb
  simp only [List.mem_map, List.mem_range] at hb
  obtain ⟨i, _, rfl⟩ := hb
  rw [List.getD_eq_getElem?_getD]
  cases hg : (utf8Bytes password ++ [0])[i % (utf8Bytes password ++ [0]).length]? with
  | none => simp
  | some x =>
    simp only [Option.getD_some]
    have hm := List.getElem?_mem hg
    rcases List.mem_append.mp hm with h | h
    · exact utf8Bytes_lt password x h
    · simp only [List.mem_singleton] at h
      omega

theorem map_ofNat_injective (a b : List Nat) (ha : ∀ x ∈ a, x < 256)
    (hb : ∀ x ∈ b, x < 256) (h : a.map Char.ofNat = b.map Char.ofNat) : a = b := by
  have hid : ∀ l : List Nat, (∀ x ∈ l, x < 256) →
      (l.map Char.ofNat).map Char.toNat = l := by
    intro l hl
    rw [List.map_map]
    conv_rhs => rw [← List.map_id l]
    exact List.map_congr_left (fun x hx => toNat_ofNat_byte x (hl x hx))
  rw [← hid a ha, ← hid b hb, h]

theorem getD_append_zero_left (a : List Nat) (i : Nat) (hi : i < a.length) :
    (a ++ [0]).getD i 0 = a[i] := by
  rw [List.getD_eq_getElem?_getD, List.getElem?_append_left hi, List.getElem?_eq_getElem hi]
  rfl

theorem getD_append_zero_length (a : List Nat) : (a ++ [0]).getD a.length 0 = 0 := by
  rw [List.getD_eq_getElem?_getD]
  simp

/-- Two byte strings without a zero byte, of at most 72 bytes, that give the same key
bytes to Blowfish are equal. -/
theorem key_stream_injective (a b : List Nat) (ha : a.length ≤ 72) (hb : b.length ≤ 72)
    (h0a : 0 ∉ a) (h0b : 0 ∉ b)
    (h : ∀ i < 72, (a ++ [0]).getD (i % (a.length + 1)) 0 =
      (b ++ [0]).getD (i % (b.length + 1)) 0) : a = b := by
  have hlt : ∀ x y : List Nat, y.length ≤ 72 → 0 ∉ y → x.length < y.length →
      (x ++ [0]).getD (x.length % (x.length + 1)) 0 ≠
        (y ++ [0]).getD (x.length % (y.length + 1)) 0 := by
    intro x y _ h0 hxy hc
    rw [Nat.mod_eq_of_lt (Nat.lt_succ_self _), Nat.mod_eq_of_lt (by omega),
      getD_append_zero_length, getD_append_zero_left y _ hxy] at hc
    exact h0 (hc ▸ List.getElem_mem _)
  have hlen : a.length = b.length := by
    rcases Nat.lt_trichotomy a.length b.length with hl | hl | hl
    · exact absurd (h a.length (by omega)) (hlt a b hb h0b hl)
    · exact hl
    · exact absurd (h b.length (by omega)).symm (hlt b a ha h0a hl)
  refine List.ext_getElem hlen (fun i hi1 hi2 => ?_)
  have := h i (by omega)
  rwa [Nat.mod_eq_of_lt (by omega), Nat.mod_eq_of_lt (by omega),
    getD_append_zero_left a i hi1, getD_append_zero_left b i hi2] at this

theorem bcryptKey_injective (p q : String) (hp : (utf8Bytes p).length ≤ 72)
    (hq : (utf8Bytes q).length ≤ 72) (h0p : 0 ∉ utf8Bytes p) (h0q : 0 ∉ utf8Bytes q)
    (h : bcryptKey q = bcryptKey p) : utf8Bytes q = utf8Bytes p := by
  refine key_stream_injective _ _ hq hp h0q h0p (fun i hi => ?_)
  have h1 := bcryptKey_getElem q i hi
  rw [h, bcryptKey_getElem p i hi] at h1
  exact (Option.some.inj h1).symm

theorem utf8Bytes_append (a b : String) : utf8Bytes (a ++ b) = utf8Bytes a ++ utf8Bytes b := by
  simp [utf8Bytes, String.data_append]

theorem utf8EncodeChar_ascii (b : Nat) (hb : b < 128) :
    (String.utf8EncodeChar (Char.ofNat b)).map (fun u => u.toNat) = [b] := by
  have hc : (Char.ofNat b).val.toNat = b := toNat_ofNat_byte b (by omega)
  unfold String.utf8EncodeChar
  simp only
  generalize (Char.ofNat b).val = v at hc
  have hle : v ≤ 0x7f := by
    show v.toNat ≤ 127
    omega
  simp only [hle, if_true, List.map_cons, List.map_nil, List.cons.injEq, and_true]
  show v.toNat % 256 = b
  omega

theorem utf8Bytes_ascii (l : List Nat) (h : ∀ b ∈ l, b < 128) :
    utf8Bytes ⟨l.map Char.ofNat⟩ = l := by
  unfold utf8Bytes
  induction l with
  | nil => rfl
  | cons x t ih =>
    simp only [List.map_cons, List.flatMap_cons]
    rw [utf8EncodeChar_ascii x (h x (List.mem_cons_self _ _))]
    simp only [List.map_cons] at ih
    rw [ih (fun b hb => h b (List.mem_cons_of_mem _ hb))]
    rfl

theorem hashPassword_ok (bf : Bcrypt) (salt p h : String)
    (hh : hashPassword bf salt p = .ok h) :
    (utf8Bytes p).length ≤ 72 ∧
      ∃ d, bf.digest 10 (utf8Bytes salt) (bcryptKey p) = .ok d ∧
        h = bcryptPrefix ++ salt ++ ⟨d.map Char.ofNat⟩ := by
  unfold hashPassword GenerateFromPassword at hh
  split at hh
  · cases hh
  · rename_i b hb
    cases hh
    split at hb
    · cases hb
    · rename_i hlen
      split at hb
      · cases hb
      · rename_i d hd
        cases hb
        exact ⟨by omega, d, hd, rfl⟩

/-- The bytes of a hash that `GenerateFromPassword` lays out. -/
theorem hash_bytes (bf : Bcrypt) (salt : String) (key d : List Nat)
    (hd : bf.digest 10 (utf8Bytes salt) key = .ok d) :
    utf8Bytes (bcryptPrefix ++ salt ++ ⟨d.map Char.ofNat⟩) =
      36 :: 50 :: 97 :: 36 :: 49 :: 48 :: 36 :: (utf8Bytes salt ++ d) := by
  rw [utf8Bytes_append, utf8Bytes_append, utf8Bytes_ascii d (bf.ascii_digest _ _ _ _ hd)]
  rfl

theorem hashField_digest (d : List Nat) (hd : d.length = 31) : hashField d = d := by
  unfold hashField
  rw [List.take_append_of_le_length (by omega), List.take_of_length_le (by omega)]

/-- What `CompareHashAndPassword` computes on a hash that `GenerateFromPassword` made
with a salt of 22 bytes: the digest of the password under the cost and the salt of the
hash, compared with the digest in the hash. -/
theorem CompareHashAndPassword_hash (bf : Bcrypt) (salt : String) (key d : List Nat)
    (q : String) (hs : (utf8Bytes salt).length = 22)
    (hd : bf.digest 10 (utf8Bytes salt) key = .ok d) :
    CompareHashAndPassword bf (bcryptPrefix ++ salt ++ ⟨d.map Char.ofNat⟩) q =
      match bf.digest 10 (utf8Bytes salt) (bcryptKey q) with
      | .error err => .error (.blowfish err)
      | .ok otherHash =>
        if d = otherHash then .ok () else .error .ErrMismatchedHashAndPassword := by
  have hl := bf.length_digest _ _ _ _ hd
  unfold CompareHashAndPassword
  rw [hash_bytes bf salt key d hd]
  have h1 : ¬ (36 :: 50 :: 97 :: 36 :: 49 :: 48 :: 36 :: (utf8Bytes salt ++ d)).length < 59 := by
    simp only [List.length_cons, List.length_append, hs, hl]
    omega
  have h2 : (List.drop 7 (36 :: 50 :: 97 :: 36 :: 49 :: 48 :: 36 :: (utf8Bytes salt ++ d))).take 22 =
      utf8Bytes salt := by
    show (utf8Bytes salt ++ d).take 22 = _
    exact List.take_left' hs
  have h3 : List.drop 29 (36 :: 50 :: 97 :: 36 :: 49 :: 48 :: 36 :: (utf8Bytes salt ++ d)) = d := by
    show (utf8Bytes salt ++ d).drop 22 = _
    exact List.drop_left' hs
  have h4 : atoiCost ((List.drop 4
      (36 :: 50 :: 97 :: 36 :: 49 :: 48 :: 36 :: (utf8Bytes salt ++ d))).take 2) = some 10 := by
    rfl
  simp only [h1, if_false, List.getD_cons_zero, List.getD_cons_succ, ne_eq, not_true_eq_false,
    show ¬ (50 < 50) by omega, show ¬ ((97 : Nat) = 36) by omega, not_false_eq_true, if_true,
    h4, show ¬ ((10 : Int) < 4 ∨ (31 : Int) < 10) by omega, h2, h3,
    show Int.toNat 10 = 10 from rfl]
  cases hq : bf.digest 10 (utf8Bytes salt) (bcryptKey q) with
  | error err => rfl
  | ok otherHash =>
    simp only
    rw [hashField_digest d hl, hashField_digest otherHash (bf.length_digest _ _ _ _ hq)]

/-- The hash of `p` accepts `q` exactly when bcrypt computes for `q`, under the cost
and the salt of the hash, the digest it computed for `p`. -/
theorem checkPassword_iff (bf : Bcrypt) (salt p h q : String)
    (hs : (utf8Bytes salt).length = 22) (hh : hashPassword bf salt p = .ok h) :
    checkPassword bf h q = .ok () ↔
      bf.digest 10 (utf8Bytes salt) (bcryptKey q) =
        bf.digest 10 (utf8Bytes salt) (bcryptKey p) := by
  obtain ⟨_, d, hd, rfl⟩ := hashPassword_ok bf salt p h hh
  unfold checkPassword
  rw [CompareHashAndPassword_hash bf salt _ d q hs hd, hd]
  cases hq : bf.digest 10 (utf8Bytes salt) (bcryptKey q) with
  | error err => simp
  | ok otherHash =>
    simp only [Except.ok.injEq]
    constructor
    · intro h
      split at h
      · rename_i he
        exact he.symm
      · cases h
    · intro h
      rw [if_pos h.symm]

/-- The hash that `GenerateFromPassword` makes with a salt of 22 bytes has 60 bytes. -/
theorem hash_length (bf : Bcrypt) (salt p h : String) (hs : (utf8Bytes salt).length = 22)
    (hh : hashPassword bf salt p = .ok h) : (utf8Bytes h).length = 60 := by
  obtain ⟨_, d, hd, rfl⟩ := hashPassword_ok bf salt p h hh
  rw [hash_bytes bf salt _ d hd]
  simp only [List.length_cons, List.length_append, hs, bf.length_digest _ _ _ _ hd]

/-- Counterexample to C25.  The password `a`, zero byte, `a` is not the password `a`, and
gives the key schedule of Blowfish the same 72 bytes; so, whatever the digest is, the
hash of `a` accepts it.  A password of 73 bytes is not its first 72 bytes, of which
alone the key is made; so the hash of a password of 72 bytes accepts that password
followed by one more byte.  On the sample surroundings the hash of `a` is made and
accepts the other password. -/
theorem other_password_accepted :
    (("a\x00a" : String) ≠ "a" ∧ bcryptKey "a\x00a" = bcryptKey "a" ∧
      ∀ (bf : Bcrypt) (salt h : String), (utf8Bytes salt).length = 22 →
        hashPassword bf salt "a" = .ok h → checkPassword bf h "a\x00a" = .ok ()) ∧
    ((⟨List.replicate 73 'a'⟩ : String) ≠ ⟨List.replicate 72 'a'⟩ ∧
      bcryptKey ⟨List.replicate 73 'a'⟩ = bcryptKey ⟨List.replicate 72 'a'⟩ ∧
      ∀ (bf : Bcrypt) (salt h : String), (utf8Bytes salt).length = 22 →
        hashPassword bf salt ⟨List.replicate 72 'a'⟩ = .ok h →
        checkPassword bf h ⟨List.replicate 73 'a'⟩ = .ok ()) ∧
    hashPassword sampleBcrypt "saltsaltsaltsaltsalt22" "a" = .ok (sampleHash "a") ∧
    checkPassword sampleBcrypt (sampleHash "a") "a\x00a" = .ok () := by
  have h1 : bcryptKey "a\x00a" = bcryptKey "a" := by decide
  have h2 : bcryptKey ⟨List.replicate 73 'a'⟩ = bcryptKey ⟨List.replicate 72 'a'⟩ := by decide
  refine ⟨⟨by decide, h1, fun bf salt h hs hh => ?_⟩, ⟨by decide, h2, fun bf salt h hs hh => ?_⟩,
    rfl, by rfl⟩
  · exact (checkPassword_iff bf salt "a" h "a\x00a" hs hh).mpr (by rw [h1])
  · exact (checkPassword_iff bf salt _ h _ hs hh).mpr (by rw [h2])

/-- C25, amended. For every password `p` for which `hashPassword` succeeds with the
credential `h` (the salt that bcrypt draws has 22 bytes): `h` is not empty, has 60 bytes
and begins with `$2a$10$`, so that it differs from `p` unless `p` itself has 60 bytes;
`checkPassword` accepts `p`; it accepts a password `q` exactly when bcrypt computes for
`q`, under the cost and the salt of `h`, the digest it computed for `p`; it accepts
every `q` that gives Blowfish the same 72 key bytes as `p` (the bytes of the password
and a zero byte, repeated); and among the passwords of at most 72 bytes without a zero
byte, only those with the bytes of `p` give these key bytes.  Whether two different keys
can have one digest is left to bcrypt. -/
theorem password_check (bf : Bcrypt) (salt p h : String)
    (hs : (utf8Bytes salt).length = 22) (hh : hashPassword bf salt p = .ok h) :
    h ≠ "" ∧ (utf8Bytes h).length = 60 ∧ bcryptPrefix.data.isPrefixOf h.data = true ∧
      ((utf8Bytes p).length ≠ 60 → h ≠ p) ∧
      checkPassword bf h p = .ok () ∧
      (∀ q, checkPassword bf h q = .ok () ↔
        bf.digest 10 (utf8Bytes salt) (bcryptKey q) =
          bf.digest 10 (utf8Bytes salt) (bcryptKey p)) ∧
      (∀ q, bcryptKey q = bcryptKey p → checkPassword bf h q = .ok ()) ∧
      (∀ q, (utf8Bytes q).length ≤ 72 → 0 ∉ utf8Bytes p → 0 ∉ utf8Bytes q →
        (bcryptKey q = bcryptKey p ↔ utf8Bytes q = utf8Bytes p)) := by
  have hiff := checkPassword_iff bf salt p h
  have hlen := hash_length bf salt p h hs hh
  obtain ⟨hp, d, hd, hdef⟩ := hashPassword_ok bf salt p h hh
  refine ⟨?_, hlen, ?_, ?_, (hiff p hs hh).mpr rfl, fun q => hiff q hs hh,
    fun q hk => (hiff q hs hh).mpr (by rw [hk]), ?_⟩
  · intro hc
    rw [hc] at hlen
    cases hlen
  · rw [hdef, List.isPrefixOf_iff_prefix]
    simp only [String.data_append, List.append_assoc]
    exact List.prefix_append _ _
  · intro hne hc
    rw [hc] at hlen
    exact hne hlen
  · intro q hq h0p h0q
    constructor
    · exact bcryptKey_injective p q hp hq h0p h0q
    · intro hb
      unfold bcryptKey
      rw [hb]

/-- Witness of C25, amended, on the sample surroundings, after the test of the
repository: the hash of `password123` is not empty and is not `password123`, it accepts
`password123`, and it does not accept `wrongpassword`, whose digest is another one. -/
theorem password_check_witness :
    sampleHash "password123" ≠ "" ∧ sampleHash "password123" ≠ "password123" ∧
      checkPassword sampleBcrypt (sampleHash "password123") "password123" = .ok () ∧
      checkPassword sampleBcrypt (sampleHash "password123") "wrongpassword" ≠ .ok () :=
  ⟨(password_check sampleBcrypt "saltsaltsaltsaltsalt22" "password123"
      (sampleHash "password123") (by decide) rfl).1,
    (password_check sampleBcrypt "saltsaltsaltsaltsalt22" "password123"
      (sampleHash "password123") (by decide) rfl).2.2.2.1 (by decide),
    (password_check sampleBcrypt "saltsaltsaltsaltsalt22" "password123"
      (sampleHash "password123") (by decide) rfl).2.2.2.2.1,
    fun hc => absurd
      (((password_check sampleBcrypt "saltsaltsaltsaltsalt22" "password123"
        (sampleHash "password123") (by decide) rfl).2.2.2.2.2.1 "wrongpassword").mp hc)
      (by decide)⟩

/-! ## C23 and C24: the login route -/

theorem serve_Login (env : Env) (req : Request) (db : DB) :
    serve env .Login req db = Login env (Context.new req) db := by
  unfold serve Endpoint.chain
  simp only [Endpoint.permission, Endpoint.handler, runChain]
  split <;> rfl

theorem Login_ok (env : Env) (c : Context) (s : Store) (u : User) (p : String)
    (hb : c.request.body = .login ⟨u.email, p⟩)
    (hq : (userByEmailQuery u.email s).head? = some u)
    (hc : checkPassword env.bcrypt u.passwordHash p = .ok ()) :
    Login env c { store := s, failing := false } =
      ({ c with
          response := some (.token 200 (issuedToken env.secret env.now u.id) u.id u.email) },
        { store := s, failing := false }) := by
  unfold Login
  rw [hb]
  simp only [QueryRow_working, hq, hc]
  rfl

theorem Login_rejected (env : Env) (c : Context) (s : Store) (e p : String)
    (hb : c.request.body = .login ⟨e, p⟩)
    (hwrong : ∀ u ∈ s.users, u.email = e →
      checkPassword env.bcrypt u.passwordHash p ≠ .ok ()) :
    Login env c { store := s, failing := false } =
      (c.JSON 401 "invalid credentials", { store := s, failing := false }) := by
  unfold Login
  rw [hb]
  simp only [QueryRow_working]
  cases hq : (userByEmailQuery e s).head? with
  | none => rfl
  | some u =>
    have hm := List.mem_of_mem_head? hq
    unfold userByEmailQuery at hm
    obtain ⟨hu, he⟩ := List.mem_filter.mp hm
    have hne := hwrong u hu (by simpa using he)
    simp only
    cases hc : checkPassword env.bcrypt u.passwordHash p with
    | error err => rfl
    | ok x => exact absurd hc hne

/-- C23. No existence oracle at login: on every store behind a working connection, a
login with the email of an existing user and a password that the stored credential does
not accept, and a login with an email that no user has, get the same response,
`401 invalid credentials`, and neither writes anything. -/
theorem login_no_existence_oracle (env : Env) (s : Store) (req1 req2 : Request)
    (e1 p1 e2 p2 : String) (hb1 : req1.body = .login ⟨e1, p1⟩)
    (hb2 : req2.body = .login ⟨e2, p2⟩) (hex : ∃ u ∈ s.users, u.email = e1)
    (hwrong : ∀ u ∈ s.users, u.email = e1 →
      checkPassword env.bcrypt u.passwordHash p1 ≠ .ok ())
    (hno : ∀ u ∈ s.users, u.email ≠ e2) :
    (serve env .Login req1 { store := s, failing := false }).1.response =
        some (.errorJSON 401 "invalid credentials") ∧
      (serve env .Login req2 { store := s, failing := false }).1.response =
        some (.errorJSON 401 "invalid credentials") ∧
      (serve env .Login req1 { store := s, failing := false }).1.response =
        (serve env .Login req2 { store := s, failing := false }).1.response ∧
      (serve env .Login req1 { store := s, failing := false }).2 =
        { store := s, failing := false } ∧
      (serve env .Login req2 { store := s, failing := false }).2 =
        { store := s, failing := false } := by
  obtain ⟨_, _, _⟩ := hex
  rw [serve_Login, serve_Login,
    Login_rejected env (Context.new req1) s e1 p1 hb1 hwrong,
    Login_rejected env (Context.new req2) s e2 p2 hb2
      (fun u hu he => absurd he (hno u hu))]
  exact ⟨rfl, rfl, rfl, rfl, rfl⟩

/-- Witness of C23: on the seeded store, the administrator with a wrong password and an
unknown email. -/
theorem login_no_existence_oracle_witness :
    (serve sampleEnv .Login (loginRequest "admin@example.com" "wrong") seededDB).1.response =
        some (.errorJSON 401 "invalid credentials") ∧
      (serve sampleEnv .Login (loginRequest "nobody@example.com" "admin")
        seededDB).1.response = some (.errorJSON 401 "invalid credentials") :=
  ⟨(login_no_existence_oracle sampleEnv seededDB.store
      (loginRequest "admin@example.com" "wrong")
      (loginRequest "nobody@example.com" "admin") "admin@example.com" "wrong"
      "nobody@example.com" "admin" rfl rfl
      ⟨_, List.mem_cons_self _ _, rfl⟩ (by decide) (by decide)).1,
    (login_no_existence_oracle sampleEnv seededDB.store
      (loginRequest "admin@example.com" "wrong")
      (loginRequest "nobody@example.com" "admin") "admin@example.com" "wrong"
      "nobody@example.com" "admin" rfl rfl
      ⟨_, List.mem_cons_self _ _, rfl⟩ (by decide) (by decide)).2.1⟩

theorem InitDB_empty (env : Env) (hash : String)
    (hh : hashPassword env.bcrypt env.salt "admin" = .ok hash) :
    InitDB env "" "" emptyDB =
      .ok { store :=
              { seededDB.store with
                users := [⟨1, "admin@example.com", hash, env.now⟩] },
            failing := false } := by
  have key : ∀ r, hashPassword env.bcrypt env.salt "admin" = r →
      InitDB env "" "" emptyDB =
        match r with
        | .error err => .error ("hash default password: " ++ err)
        | .ok hash =>
          .ok { store :=
                  { seededDB.store with
                    users := [⟨1, "admin@example.com", hash, env.now⟩] },
                failing := false } := by
    intro r hr
    subst hr
    rfl
  rw [key _ hh]

theorem filter_email_unique (l : List User) (x : User) (hx : x ∈ l)
    (hn : (l.map fun u => u.email).Nodup) : l.filter (fun y => y.email = x.email) = [x] := by
  induction l with
  | nil => cases hx
  | cons y rest ih =>
    rw [List.map_cons, List.nodup_cons] at hn
    rw [List.filter_cons]
    rcases List.mem_cons.mp hx with hxy | hxr
    · subst hxy
      simp only [decide_True, if_true, List.cons.injEq, true_and]
      rw [List.filter_eq_nil_iff]
      intro z hz hzx
      simp only [decide_eq_true_eq] at hzx
      exact hn.1 (hzx ▸ List.mem_map_of_mem (fun u : User => u.email) hz)
    · have hne : y.email ≠ x.email := by
        intro h
        exact hn.1 (h ▸ List.mem_map_of_mem (fun u : User => u.email) hxr)
      simp only [hne, decide_False, Bool.false_eq_true, if_false]
      exact ih hxr hn.2

/-- The token that `Login` returns is accepted at every time before its expiry as the
user id it was issued for, when that id is a `float64`. -/
theorem issued_accepted (secret : String) (t now u : Int) (id : String) (db : DB)
    (hu1 : -(2 : Int) ^ 53 ≤ u) (hu2 : u ≤ (2 : Int) ^ 53)
    (ht1 : -(2 : Int) ^ 63 ≤ t) (ht2 : t < (2 : Int) ^ 63)
    (hnow : now < (t + 24 * Hour) / Second * Second) :
    AuthMiddleware secret now (Context.new (bearerRequest (issuedToken secret t u) id)) db =
      (authenticatedContext (bearerRequest (issuedToken secret t u) id) u, db) := by
  obtain ⟨he, hd⟩ := expiry_exact t ht1 ht2
  have hu : float64OfInt u = some u := float64OfInt_exact u (by omega)
  have hi : int64OfFloat64 u = u := int64OfFloat64_exact u (by omega) (by omega)
  have hm := AuthMiddleware_issued secret t now u _ u id db he hu
  rw [hd, if_pos (Or.inr hnow), hi] at hm
  exact hm

/-- Counterexample to C24: the user `big@example.com` of the sample store, whose id is
`2 ^ 53 + 1` and whose credential is the hash of `password123`, logs in with that
password and gets a token; `AuthMiddleware` accepts the token as the user id `2 ^ 53`. -/
theorem login_token_for_other_id :
    hashPassword sampleBcrypt "saltsaltsaltsaltsalt22" "password123" =
        .ok (sampleHash "password123") ∧
      (serve sampleEnv .Login (loginRequest "big@example.com" "password123")
        { store := bigIDStore, failing := false }).1.response =
        some (.token 200 (issuedToken "secret" 0 9007199254740993) 9007199254740993
          "big@example.com") ∧
      (AuthMiddleware "secret" 0
        (Context.new (bearerRequest (issuedToken "secret" 0 9007199254740993) "1"))
        sampleDB).1.Get ContextUserIDKey = some (.int64 9007199254740992) ∧
      (AuthMiddleware "secret" 0
        (Context.new (bearerRequest (issuedToken "secret" 0 9007199254740993) "1"))
        sampleDB).1.Get ContextUserIDKey ≠ some (.int64 9007199254740993) := by
  refine ⟨rfl, by rfl, ?_, ?_⟩ <;> decide

/-- C24, amended. On every store with unique emails behind a working connection, for
every user `u` whose stored credential is the hash of the password `p` and whose id is at
most `2 ^ 53` in magnitude, a login with the email of `u` and `p` is answered 200 with a
token, the id and the email of `u`, and writes nothing; `AuthMiddleware`, at every time
before the expiry of the token, accepts a request bearing it as the user id of `u`.  On
the database that `InitDB` makes of the empty one when `ADMIN_EMAIL` and
`ADMIN_PASSWORD` are not set, the login `admin@example.com` with the password `admin` is
answered 200 with a token.  The salts have the 22 bytes of a salt that bcrypt encodes,
the start-up and the login run the same bcrypt, and bcrypt hashes the default password
at start-up. -/
theorem login_token_round_trip (env env0 : Env) (s : Store) (u : User)
    (salt p hash0 : String) (req : Request) (id : String) (now : Int) (db1 : DB)
    (hs : (utf8Bytes salt).length = 22)
    (hh : hashPassword env.bcrypt salt p = .ok u.passwordHash)
    (hu : u ∈ s.users) (huniq : (s.users.map fun x => x.email).Nodup)
    (hb : req.body = .login ⟨u.email, p⟩)
    (hid1 : -(2 : Int) ^ 53 ≤ u.id) (hid2 : u.id ≤ (2 : Int) ^ 53)
    (ht1 : -(2 : Int) ^ 63 ≤ env.now) (ht2 : env.now < (2 : Int) ^ 63)
    (hnow : now < (env.now + 24 * Hour) / Second * Second)
    (hs0 : (utf8Bytes env0.salt).length = 22) (hb0 : env0.bcrypt = env.bcrypt)
    (hh0 : hashPassword env0.bcrypt env0.salt "admin" = .ok hash0) :
    ((serve env .Login req { store := s, failing := false }).1.response =
        some (.token 200 (issuedToken env.secret env.now u.id) u.id u.email) ∧
      (serve env .Login req { store := s, failing := false }).2 =
        { store := s, failing := false } ∧
      AuthMiddleware env.secret now
          (Context.new (bearerRequest (issuedToken env.secret env.now u.id) id)) db1 =
        (authenticatedContext (bearerRequest (issuedToken env.secret env.now u.id) id) u.id,
          db1)) ∧
    ∃ db0 token, InitDB env0 "" "" emptyDB = .ok db0 ∧
      (serve env .Login (loginRequest "admin@example.com" "admin") db0).1.response =
        some (.token 200 token 1 "admin@example.com") := by
  constructor
  · refine ⟨?_, ?_,
      issued_accepted env.secret env.now now u.id id db1 hid1 hid2 ht1 ht2 hnow⟩
    all_goals
      rw [serve_Login, Login_ok env (Context.new req) s u p hb
        (by
          unfold userByEmailQuery
          rw [filter_email_unique s.users u hu huniq]
          rfl)
        ((checkPassword_iff env.bcrypt salt p u.passwordHash p hs hh).mpr rfl)]
  · refine ⟨_, issuedToken env.secret env.now 1, InitDB_empty env0 hash0 hh0, ?_⟩
    have hq : (userByEmailQuery "admin@example.com"
        { seededDB.store with
          users := [⟨1, "admin@example.com", hash0, env0.now⟩] }).head? =
        some ⟨1, "admin@example.com", hash0, env0.now⟩ := by
      simp [userByEmailQuery]
    have hc : checkPassword env.bcrypt hash0 "admin" = .ok () := by
      rw [← hb0]
      exact (checkPassword_iff env0.bcrypt env0.salt "admin" hash0 "admin" hs0 hh0).mpr rfl
    rw [serve_Login, Login_ok env (Context.new (loginRequest "admin@example.com" "admin")) _
      ⟨1, "admin@example.com", hash0, env0.now⟩ "admin" rfl hq hc]

/-- Witness of C24, amended: the administrator of the seeded database logs in, and the
token is accepted as user 1. -/
theorem login_token_round_trip_witness :
    (serve sampleEnv .Login (loginRequest "admin@example.com" "admin")
        seededDB).1.response =
        some (.token 200 (issuedToken "secret" 0 1) 1 "admin@example.com") ∧
      AuthMiddleware "secret" 0 (Context.new (bearerRequest (issuedToken "secret" 0 1) "1"))
          seededDB =
        (authenticatedContext (bearerRequest (issuedToken "secret" 0 1) "1") 1, seededDB) :=
  ⟨(login_token_round_trip sampleEnv sampleEnv seededDB.store
      ⟨1, "admin@example.com", sampleHash "admin", 0⟩ "saltsaltsaltsaltsalt22" "admin"
      (sampleHash "admin")
      (loginRequest "admin@example.com" "admin") "1" 0 seededDB (by decide) rfl
      (List.mem_cons_self _ _) (by decide) rfl (by decide) (by decide) (by decide)
      (by decide) (by decide) (by decide) rfl rfl).1.1,
    (login_token_round_trip sampleEnv sampleEnv seededDB.store
      ⟨1, "admin@example.com", sampleHash "admin", 0⟩ "saltsaltsaltsaltsalt22" "admin"
      (sampleHash "admin")
      (loginRequest "admin@example.com" "admin") "1" 0 seededDB (by decide) rfl
      (List.mem_cons_self _ _) (by decide) rfl (by decide) (by decide) (by decide)
      (by decide) (by decide) (by decide) rfl rfl).1.2.2⟩

/-! ## What an operation hands to its handler -/

theorem AuthMiddleware_cases (secret : String) (now : Int) (c : Context) (db : DB) :
    (∃ st msg, AuthMiddleware secret now c db = (c.AbortWithStatusJSON st msg, db)) ∨
      ∃ u, AuthMiddleware secret now c db = (c.Set ContextUserIDKey u, db) := by
  unfold AuthMiddleware
  repeat' split
  all_goals first
    | exact Or.inl ⟨_, _, rfl⟩
    | exact Or.inr ⟨_, rfl⟩

theorem RequirePermission_cases (permission : String) (c : Context) (db : DB) :
    (∃ st msg, RequirePermission permission c db = (c.AbortWithStatusJSON st msg, db)) ∨
      RequirePermission permission c db = (c, db) := by
  unfold RequirePermission
  repeat' split
  all_goals try exact Or.inl ⟨_, _, rfl⟩
  all_goals
    dsimp only
    repeat' split
    all_goals first
      | exact Or.inl ⟨_, _, rfl⟩
      | exact Or.inr rfl

/-- An operation either runs its handler, on a context that carries the request, or is
stopped by a middleware, which answers with an error and writes nothing. -/
theorem serve_cases (env : Env) (e : Endpoint) (req : Request) (db : DB) :
    (∃ c, c.request = req ∧ serve env e req db = e.handler env c db) ∨
      ∃ st msg, (serve env e req db).1.response = some (.errorJSON st msg) ∧
        (serve env e req db).2 = db := by
  unfold serve Endpoint.chain
  cases e.permission with
  | none =>
    left
    refine ⟨Context.new req, rfl, ?_⟩
    simp only [runChain]
    split <;> rfl
  | some p =>
    simp only [runChain]
    rcases AuthMiddleware_cases env.secret env.now (Context.new req) db with
      ⟨st, msg, ha⟩ | ⟨u, ha⟩
    · right
      rw [ha]
      exact ⟨st, msg, rfl, rfl⟩
    · rw [ha]
      simp only [Context.Set, Context.new, Bool.false_eq_true, if_false]
      rcases RequirePermission_cases p
        { request := req, keys := GoMap.set [] ContextUserIDKey u, response := Option.none,
          aborted := false } db with ⟨st, msg, hr⟩ | hr
      · right
        rw [hr]
        exact ⟨st, msg, rfl, rfl⟩
      · left
        rw [hr]
        refine ⟨
          { request := req, keys := GoMap.set [] ContextUserIDKey u, response := Option.none,
            aborted := false }, rfl, ?_⟩
        simp only [Bool.false_eq_true, if_false]
        split <;> rfl

/-! ## C21: the amount with tax -/

theorem lt_pow_bitLength (fuel m : Nat) (h : m ≤ fuel) : m < 2 ^ bitLength fuel m := by
  induction fuel generalizing m with
  | zero =>
    have : m = 0 := by omega
    subst this
    simp [bitLength]
  | succ fuel ih =>
    unfold bitLength
    split
    · rename_i hm
      rw [hm]
      exact Nat.one_pos
    · have h2 := ih (m / 2) (by omega)
      rw [pow_succ]
      omega

theorem pow2_eq_zpow (k : Int) : pow2 k = (2 : ℚ) ^ k := by
  unfold pow2
  cases k with
  | ofNat n => simp
  | negSucc n =>
    have h : ¬ (0 : Int) ≤ Int.negSucc n := not_le.mpr (Int.negSucc_lt_zero n)
    rw [if_neg h, Int.neg_negSucc]
    simp [zpow_negSucc]

theorem pow2_pos (k : Int) : 0 < pow2 k := by
  rw [pow2_eq_zpow]
  positivity

/-- The exponent that `float64Nearest` finds for `q` is not above the binary logarithm
of the magnitude of `q`. -/
theorem pow2_exponent_le (q : ℚ) (hq : q ≠ 0) :
    pow2 ((bitLength q.num.natAbs q.num.natAbs : Int) - (bitLength q.den q.den : Int) - 1) ≤
      |q| := by
  have hn : q.num.natAbs ≠ 0 := by
    intro h
    exact hq (Rat.zero_of_num_zero (Int.natAbs_eq_zero.mp h))
  have h1 := pow_bitLength_le q.num.natAbs q.num.natAbs hn
  have h2 := lt_pow_bitLength q.den q.den (le_refl _)
  have hb : 1 ≤ bitLength q.num.natAbs q.num.natAbs := by
    by_contra hc
    have hz : bitLength q.num.natAbs q.num.natAbs = 0 := by omega
    cases hm : q.num.natAbs with
    | zero => exact hn hm
    | succ k =>
      rw [hm] at hz
      simp [bitLength] at hz
  have habs : |q| = (q.num.natAbs : ℚ) / (q.den : ℚ) := by
    rw [Rat.abs_def, Rat.divInt_eq_div]
    simp [Nat.cast_natAbs, Int.cast_abs]
  rw [habs, pow2_eq_zpow]
  have hd : (0 : ℚ) < q.den := by exact_mod_cast q.den_pos
  rw [le_div_iff₀ hd]
  set bn := bitLength q.num.natAbs q.num.natAbs
  set bd := bitLength q.den q.den
  have e1 : ((bn : Int) - (bd : Int) - 1) = ((bn - 1 : Nat) : Int) - (bd : Int) := by omega
  rw [e1, zpow_sub₀ (by norm_num), zpow_natCast, zpow_natCast, div_mul_eq_mul_div,
    div_le_iff₀ (by positivity)]
  have h1q : ((2 : ℚ) ^ (bn - 1)) ≤ (q.num.natAbs : ℚ) := by exact_mod_cast h1
  have h2q : (q.den : ℚ) ≤ (2 : ℚ) ^ bd := by exact_mod_cast h2.le
  have h0 : (0 : ℚ) ≤ (2 : ℚ) ^ (bn - 1) := by positivity
  calc (2 : ℚ) ^ (bn - 1) * (q.den : ℚ) ≤ (2 : ℚ) ^ (bn - 1) * (2 : ℚ) ^ bd :=
        mul_le_mul_of_nonneg_left h2q h0
    _ ≤ (q.num.natAbs : ℚ) * (2 : ℚ) ^ bd := mul_le_mul_of_nonneg_right h1q (by positivity)

theorem nearest_integer (x : ℚ) :
    |(((if 1 / 2 < x - (Rat.floor x : ℚ) ∨
          (x - (Rat.floor x : ℚ) = 1 / 2 ∧ Rat.floor x % 2 = 1) then
        Rat.floor x + 1 else Rat.floor x : Int) : ℚ)) - x| ≤ 1 / 2 := by
  have hf : Rat.floor x = ⌊x⌋ := rfl
  have h1 : ((⌊x⌋ : Int) : ℚ) ≤ x := Int.floor_le x
  have h2 : x < ((⌊x⌋ : Int) : ℚ) + 1 := Int.lt_floor_add_one x
  rw [hf]
  split
  · rename_i hc
    have hr : 1 / 2 ≤ x - ((⌊x⌋ : Int) : ℚ) := by
      rcases hc with hc | hc
      · exact hc.le
      · exact hc.1.ge
    push_cast
    rw [abs_le]
    constructor <;> linarith
  · rename_i hc
    have hr : x - ((⌊x⌋ : Int) : ℚ) ≤ 1 / 2 := by
      by_contra hlt
      exact hc (Or.inl (not_le.mp hlt))
    rw [abs_le]
    constructor <;> linarith

theorem scaled_error (a P : ℚ) (hP : 0 < P) (m : Int) (hm : |(m : ℚ) - a / P| ≤ 1 / 2)
    (sgn : ℚ) (hs : |sgn| = 1) : |sgn * m * P - sgn * a| ≤ P / 2 := by
  have e : sgn * m * P - sgn * a = sgn * (((m : ℚ) - a / P) * P) := by
    field_simp
    ring
  rw [e, abs_mul, hs, one_mul, abs_mul, abs_of_pos hP]
  calc |(m : ℚ) - a / P| * P ≤ 1 / 2 * P := mul_le_mul_of_nonneg_right hm hP.le
    _ = P / 2 := by ring

/-- The rounding error of `float64Nearest`: half a unit in the last place, which is at
most the magnitude of the number divided by `2 ^ 53`, or `2 ^ -1075` for a number in the
range of gradual underflow. -/
theorem float64Nearest_error (q : ℚ) :
    |float64Nearest q - q| ≤ |q| / 2 ^ 53 + 1 / 2 ^ 1075 := by
  unfold float64Nearest
  split
  · rename_i h0
    rw [h0]
    simp
  · rename_i hq
    simp only
    generalize he : (if pow2 ((bitLength q.num.natAbs q.num.natAbs : Int) -
        (bitLength q.den q.den : Int)) ≤ |q| then
        (bitLength q.num.natAbs q.num.natAbs : Int) - (bitLength q.den q.den : Int)
      else (bitLength q.num.natAbs q.num.natAbs : Int) - (bitLength q.den q.den : Int) - 1) = e
    have hle : pow2 e ≤ |q| := by
      rw [← he]
      split
      · assumption
      · exact pow2_exponent_le q hq
    have hP := pow2_pos (max (e - 52) (-1074))
    have hsgn : |(if q < 0 then (-1 : ℚ) else 1)| = 1 := by
      split <;> simp
    have hq2 : q = (if q < 0 then (-1 : ℚ) else 1) * |q| := by
      split
      · rename_i hneg
        rw [abs_of_neg hneg]
        ring
      · rename_i hpos
        rw [abs_of_nonneg (not_lt.mp hpos)]
        ring
    have hmain := scaled_error |q| (pow2 (max (e - 52) (-1074))) hP _
      (nearest_integer (|q| / pow2 (max (e - 52) (-1074)))) _ hsgn
    rw [← hq2] at hmain
    refine le_trans hmain ?_
    rcases le_total (e - 52) (-1074) with hc | hc
    · rw [max_eq_right hc]
      have : pow2 (-1074) = 1 / 2 ^ 1074 := by
        rw [pow2_eq_zpow, show (-1074 : Int) = -((1074 : Nat) : Int) from rfl, zpow_neg,
          zpow_natCast, one_div]
      rw [this]
      have h0 : 0 ≤ |q| / 2 ^ 53 := by positivity
      have : (1 : ℚ) / 2 ^ 1074 / 2 = 1 / 2 ^ 1075 := by
        rw [div_div, ← pow_succ]
      linarith
    · rw [max_eq_left hc]
      have hp : pow2 (e - 52) = pow2 e / 2 ^ 52 := by
        rw [pow2_eq_zpow, pow2_eq_zpow, zpow_sub₀ (by norm_num)]
        norm_num
      rw [hp]
      have h0 : (0 : ℚ) ≤ 1 / 2 ^ 1075 := by positivity
      have : pow2 e / 2 ^ 52 / 2 ≤ |q| / 2 ^ 53 := by
        rw [div_div, ← pow_succ]
        exact div_le_div_of_nonneg_right hle (by positivity)
      linarith

/-- When `AddItem` does not answer with an error, it has stored an item with the amounts
of the body and their `float64` product, and has handed the item to the encoder. -/
theorem AddItem_amount (env : Env) (c : Context) (db : DB)
    (h : (∀ st msg, (AddItem env c db).1.response ≠ some (.errorJSON st msg)) ∧
      (AddItem env c db).1.response ≠ some .recovered) :
    ∃ r id rid, c.request.body = .addItem r ∧
      (AddItem env c db).1 = c.Object 201 [("id", .int64 id), ("report_id", .int64 rid),
        ("description", .string r.Description), ("expense_date", .string r.ExpenseDate),
        ("amount_ht", .real r.AmountHT),
        ("amount_ttc", (float64Mul r.AmountHT (float64Add 1 r.VATRate)).toAny),
        ("vat_rate", .real r.VATRate)] ∧
      ∃ it, (AddItem env c db).2.store.items = db.store.items ++ [it] ∧
        it.amountHT = r.AmountHT ∧ it.vatRate = r.VATRate ∧
        it.amountTTC = float64Mul r.AmountHT (float64Add 1 r.VATRate) := by
  revert h
  unfold AddItem
  repeat' split
  all_goals try (intro h; first | exact absurd rfl (h.1 _ _) | exact absurd rfl h.2)
  rename_i req hbody _ _ expDate _
  dsimp only
  split
  · intro h
    exact absurd rfl (h.1 _ _)
  · rename_i db1 res hx
    intro _
    obtain ⟨_, hs⟩ := DB.Exec_store db db1 _ res hx
    obtain ⟨_, hs1⟩ := insertItem_ok _ _ _ _ _ _ _ _ _ _ _ hs
    exact ⟨req, _, _, hbody, rfl, _, by rw [hs1], rfl, rfl, rfl⟩

/-- When `UpdateItem` does not answer with an error, it has rewritten the item with the
amounts of the body and their `float64` product, and has handed it to the encoder. -/
theorem UpdateItem_amount (c : Context) (db : DB)
    (h : (∀ st msg, (UpdateItem c db).1.response ≠ some (.errorJSON st msg)) ∧
      (UpdateItem c db).1.response ≠ some .recovered) :
    ∃ r id rid, c.request.body = .addItem r ∧
      (UpdateItem c db).1 = c.Object 200 [("id", .int64 id), ("report_id", .int64 rid),
        ("description", .string r.Description), ("expense_date", .string r.ExpenseDate),
        ("amount_ht", .real r.AmountHT),
        ("amount_ttc", (float64Mul r.AmountHT (float64Add 1 r.VATRate)).toAny),
        ("vat_rate", .real r.VATRate)] ∧
      ∃ description expenseDate, (∃ it ∈ db.store.items, it.id = id) ∧
        (UpdateItem c db).2.store.items = db.store.items.map fun ei =>
          if ei.id = id then
            { ei with
              description := description, expenseDate := expenseDate,
              amountHT := r.AmountHT,
              amountTTC := float64Mul r.AmountHT (float64Add 1 r.VATRate),
              vatRate := r.VATRate }
          else ei := by
  revert h
  unfold UpdateItem
  repeat' split
  all_goals try (intro h; first | exact absurd rfl (h.1 _ _) | exact absurd rfl h.2)
  rename_i id _ _ rid owner st hq _ U _ _ hst _ req hbody _ expDate _
  dsimp only
  split
  · intro h
    exact absurd rfl (h.1 _ _)
  · rename_i db1 res hx
    intro _
    obtain ⟨_, hr⟩ := DB.QueryRow_ok db _ _ hq
    obtain ⟨i, hi, _, _, hid, _⟩ := itemReportQuery_row db.store id rid owner st hr.symm
    obtain ⟨_, hs⟩ := DB.Exec_store db db1 _ res hx
    have hs1 := congrArg Prod.fst (Except.ok.inj hs)
    simp only [updateItem] at hs1
    refine ⟨req, id, rid, hbody, rfl, req.Description, formatDate expDate, ⟨i, hi, hid⟩, ?_⟩
    rw [← hs1]

theorem float64Round_finite (q t : ℚ) (h : float64Round q = .finite t) :
    t = float64Nearest q := by
  unfold float64Round at h
  split at h
  · cases h
  · cases h
    rfl

theorem float64Round_not_finite (q : ℚ) (h : ∀ t, float64Round q ≠ .finite t) :
    float64Round q = .inf (decide (q < 0)) ∧ pow2 1024 ≤ |float64Nearest q| := by
  unfold float64Round at h ⊢
  split
  · rename_i hc
    exact ⟨rfl, hc⟩
  · rename_i hc
    rw [if_neg hc] at h
    exact absurd rfl (h _)

theorem float64Add_one (v : ℚ) : float64Add 1 (.finite v) = float64Round (1 + v) := by
  show float64Round (((1 : Nat) : ℚ) + v) = _
  rw [Nat.cast_one]

theorem float64Mul_finite (a : ℚ) (y : Float64) (t : ℚ)
    (h : float64Mul (.finite a) y = .finite t) :
    ∃ s, y = .finite s ∧ float64Round (a * s) = .finite t := by
  cases y with
  | finite s => exact ⟨s, rfl, h⟩
  | inf neg =>
    have h1 : float64Mul (.finite a) (.inf neg) =
        if a = 0 then .nan else .inf (decide (a < 0) != neg) := rfl
    rw [h1] at h
    split at h <;> cases h
  | nan => cases h

/-- The distance between the `float64` product `h * (1 + v)`, when it is finite, and the
exact product: the two rounding errors, the first scaled by `h`. -/
theorem amount_error (h v s t : ℚ) (hs : float64Add 1 (.finite v) = .finite s)
    (ht : float64Round (h * s) = .finite t) :
    |t - exactAmountTTC h v| ≤
      (|h * s| + |h| * |1 + v|) / 2 ^ 53 + (1 + |h|) / 2 ^ 1075 := by
  rw [float64Add_one] at hs
  have e1 := float64Round_finite _ _ hs
  have e2 := float64Round_finite _ _ ht
  have b1 := float64Nearest_error (1 + v)
  have b2 := float64Nearest_error (h * s)
  rw [← e1] at b1
  rw [← e2] at b2
  unfold exactAmountTTC
  have e : t - h * (1 + v) = (t - h * s) + h * (s - (1 + v)) := by ring
  have b3 : |h * (s - (1 + v))| ≤ |h| * (|1 + v| / 2 ^ 53 + 1 / 2 ^ 1075) := by
    rw [abs_mul]
    exact mul_le_mul_of_nonneg_left b1 (abs_nonneg h)
  calc |t - h * (1 + v)| = |(t - h * s) + h * (s - (1 + v))| := by rw [e]
    _ ≤ |t - h * s| + |h * (s - (1 + v))| := abs_add _ _
    _ ≤ (|h * s| / 2 ^ 53 + 1 / 2 ^ 1075) + |h| * (|1 + v| / 2 ^ 53 + 1 / 2 ^ 1075) :=
      add_le_add b2 b3
    _ = (|h * s| + |h| * |1 + v|) / 2 ^ 53 + (1 + |h|) / 2 ^ 1075 := by ring

theorem Object_amount (c : Context) (status : Nat) (id rid : Int) (r : AddItemRequest)
    (x : Float64) :
    (∀ t, x = .finite t →
      c.Object status [("id", .int64 id), ("report_id", .int64 rid),
        ("description", .string r.Description), ("expense_date", .string r.ExpenseDate),
        ("amount_ht", .real r.AmountHT), ("amount_ttc", x.toAny),
        ("vat_rate", .real r.VATRate)] =
      { c with response := some (.object status [("id", .int64 id),
        ("report_id", .int64 rid), ("description", .string r.Description),
        ("expense_date", .string r.ExpenseDate), ("amount_ht", .real r.AmountHT),
        ("amount_ttc", .real t), ("vat_rate", .real r.VATRate)]) }) ∧
    ((∀ t, x ≠ .finite t) →
      c.Object status [("id", .int64 id), ("report_id", .int64 rid),
        ("description", .string r.Description), ("expense_date", .string r.ExpenseDate),
        ("amount_ht", .real r.AmountHT), ("amount_ttc", x.toAny),
        ("vat_rate", .real r.VATRate)] =
      { c with response := some (.noContent status), aborted := true }) := by
  constructor
  · intro t ht
    subst ht
    rfl
  · intro hx
    cases x with
    | finite t => exact absurd rfl (hx t)
    | inf neg => rfl
    | nan => rfl

/-- Counterexample to C21.  User 3 adds to their draft report 11 an item of 0.1 before tax
at the rate 0.2 (the nearest `float64` values): the request is accepted, and the amount
with tax that is returned and stored is the `float64` product, which is not the product
`h × (1 + v)` of the two numbers.  The same user adds an item of `2 ^ 1023` before tax at
the rate 1: the request is accepted with `201`, the product `2 ^ 1024` is beyond the
largest `float64`, the item is stored with the amount `+Inf`, and no amount is returned,
the body of the answer being empty. -/
theorem amount_ttc_not_exact :
    ((serve sampleEnv .AddItem (userRequest 3 "11" (.addItem lunchItem) Option.none)
        { store := workStore, failing := false }).1.response =
        some (.object 201 [("id", .int64 111), ("report_id", .int64 11),
          ("description", .string "Lunch"), ("expense_date", .string "2024-06-02"),
          ("amount_ht", .real (3602879701896397 / 36028797018963968)),
          ("amount_ttc", .real (1080863910568919 / 9007199254740992)),
          ("vat_rate", .real (3602879701896397 / 18014398509481984))]) ∧
      ((serve sampleEnv .AddItem (userRequest 3 "11" (.addItem lunchItem) Option.none)
        { store := workStore, failing := false }).2.store.items.map
          fun i => (i.id, i.amountTTC)) =
        [(100, 120), (101, 24), (110, 88),
          (111, .finite (1080863910568919 / 9007199254740992))] ∧
      exactAmountTTC lunchItem.AmountHT lunchItem.VATRate =
        77884452878022419471989027593257 / 649037107316853453566312041152512 ∧
      (1080863910568919 / 9007199254740992 : ℚ) ≠
        exactAmountTTC lunchItem.AmountHT lunchItem.VATRate) ∧
    ((serve sampleEnv .AddItem (userRequest 3 "11" (.addItem hugeItem) Option.none)
        { store := workStore, failing := false }).1.response = some (.noContent 201) ∧
      ((serve sampleEnv .AddItem (userRequest 3 "11" (.addItem hugeItem) Option.none)
        { store := workStore, failing := false }).2.store.items.map
          fun i => (i.id, i.amountTTC)) =
        [(100, 120), (101, 24), (110, 88), (111, .inf false)] ∧
      exactAmountTTC hugeItem.AmountHT hugeItem.VATRate = 2 ^ 1024) := by
  refine ⟨⟨?_, ?_, ?_, ?_⟩, ?_, ?_, ?_⟩ <;> decide!

/-- C21, amended. For every request to `AddItem` or `UpdateItem` with the amount before
tax `h` and the rate `v` in its body.  When the answer is the success object, the amount
with tax `t` in it is the `float64` product `h * (1 + v)` as Go computes it, the sum `s`
and the product each rounded to the nearest `float64`, and is finite; an item with `h`,
`v` and `t` is stored, and every item that was not stored before has them; `t` is within
`(|h s| + |h| |1 + v|) / 2 ^ 53 + (1 + |h|) / 2 ^ 1075` of the exact product
`h × (1 + v)`, and is the exact product whenever `1 + v` and `h × (1 + v)` are `float64`
values.  When the answer is a bare status, the `float64` product is not finite: an item
with `h`, `v` and that product is stored, no amount is returned, and, the sum being
finite, the product is the infinity of the sign of `h s`, the nearest number of 53 bits
to `h s` having the magnitude `2 ^ 1024` or more.  For `h = 100` and `v = 0.2` (the
nearest `float64`) the `float64` product is 120. -/
theorem amount_ttc_rounded (env : Env) (e : Endpoint) (req : Request) (db : DB)
    (he : e = Endpoint.AddItem ∨ e = Endpoint.UpdateItem) :
    (∀ status members,
      (serve env e req db).1.response = some (.object status members) →
      ∃ r s t, req.body = .addItem r ∧
        float64Add 1 r.VATRate = .finite s ∧
        float64Mul r.AmountHT (float64Add 1 r.VATRate) = .finite t ∧
        GoMap.lookup members "amount_ttc" = some (.real t) ∧
        (∃ it ∈ (serve env e req db).2.store.items,
          it.amountHT = r.AmountHT ∧ it.vatRate = r.VATRate ∧ it.amountTTC = .finite t) ∧
        (∀ it ∈ (serve env e req db).2.store.items, it ∉ db.store.items →
          it.amountHT = r.AmountHT ∧ it.vatRate = r.VATRate ∧ it.amountTTC = .finite t) ∧
        |t - exactAmountTTC r.AmountHT r.VATRate| ≤
          (|r.AmountHT * s| + |r.AmountHT| * |1 + r.VATRate|) / 2 ^ 53 +
            (1 + |r.AmountHT|) / 2 ^ 1075 ∧
        (float64Round (1 + r.VATRate) = .finite (1 + r.VATRate) →
          float64Round (exactAmountTTC r.AmountHT r.VATRate) =
            .finite (exactAmountTTC r.AmountHT r.VATRate) →
          t = exactAmountTTC r.AmountHT r.VATRate)) ∧
    (∀ status, (serve env e req db).1.response = some (.noContent status) →
      ∃ r, req.body = .addItem r ∧
        (∀ t, float64Mul r.AmountHT (float64Add 1 r.VATRate) ≠ .finite t) ∧
        (serve env e req db).1.aborted = true ∧
        (∃ it ∈ (serve env e req db).2.store.items,
          it.amountHT = r.AmountHT ∧ it.vatRate = r.VATRate ∧
            it.amountTTC = float64Mul r.AmountHT (float64Add 1 r.VATRate)) ∧
        (∀ s, float64Add 1 r.VATRate = .finite s →
          float64Mul r.AmountHT (float64Add 1 r.VATRate) =
            .inf (decide (r.AmountHT * s < 0)) ∧
          pow2 1024 ≤ |float64Nearest (r.AmountHT * s)|)) ∧
    float64Mul 100 (float64Add 1 (float64Nearest (1 / 5) : ℚ)) = 120 := by
  refine ⟨?_, ?_, by decide!⟩
  · intro status members hacc
    rcases serve_cases env e req db with ⟨c, hc, hs⟩ | ⟨st, msg, hr, _⟩
    swap
    · rw [hr] at hacc
      cases hacc
    rw [hs] at hacc ⊢
    have hne : ∀ x : Context × DB, x.1.response = some (.object status members) →
        (∀ st msg, x.1.response ≠ some (.errorJSON st msg)) ∧
          x.1.response ≠ some .recovered := by
      intro x hx
      rw [hx]
      exact ⟨fun _ _ h => (by cases h), fun h => (by cases h)⟩
    have hfin : ∀ (c1 : Context) (id rid : Int) (r : AddItemRequest) (st : Nat),
        (c.Object st [("id", .int64 id), ("report_id", .int64 rid),
          ("description", .string r.Description), ("expense_date", .string r.ExpenseDate),
          ("amount_ht", .real r.AmountHT),
          ("amount_ttc", (float64Mul r.AmountHT (float64Add 1 r.VATRate)).toAny),
          ("vat_rate", .real r.VATRate)]).response = some (.object status members) →
        ∃ s t, float64Add 1 r.VATRate = .finite s ∧
          float64Mul r.AmountHT (float64Add 1 r.VATRate) = .finite t ∧
          GoMap.lookup members "amount_ttc" = some (.real t) ∧
          |t - exactAmountTTC r.AmountHT r.VATRate| ≤
            (|r.AmountHT * s| + |r.AmountHT| * |1 + r.VATRate|) / 2 ^ 53 +
              (1 + |r.AmountHT|) / 2 ^ 1075 ∧
          (float64Round (1 + r.VATRate) = .finite (1 + r.VATRate) →
            float64Round (exactAmountTTC r.AmountHT r.VATRate) =
              .finite (exactAmountTTC r.AmountHT r.VATRate) →
            t = exactAmountTTC r.AmountHT r.VATRate) := by
      intro _ id rid r st hobj
      cases hx : float64Mul r.AmountHT (float64Add 1 r.VATRate) with
      | finite t =>
        rw [(Object_amount c st id rid r _).1 t hx] at hobj
        simp only [Option.some.injEq, Response.object.injEq] at hobj
        obtain ⟨s, hs1, hs2⟩ := float64Mul_finite _ _ t hx
        refine ⟨s, t, hs1, rfl, ?_, amount_error _ _ s t hs1 hs2, ?_⟩
        · rw [← hobj.2]
          simp [GoMap.lookup]
        · intro h1 h2
          rw [float64Add_one, h1] at hs1
          cases hs1
          have h3 : float64Round (r.AmountHT * (1 + r.VATRate)) = .finite t := hs2
          rw [show r.AmountHT * (1 + r.VATRate) = exactAmountTTC r.AmountHT r.VATRate
            from rfl, h2] at h3
          cases h3
          rfl
      | inf neg =>
        rw [(Object_amount c st id rid r _).2 (by rw [hx]; exact fun _ h => by cases h)]
          at hobj
        cases hobj
      | nan =>
        rw [(Object_amount c st id rid r _).2 (by rw [hx]; exact fun _ h => by cases h)]
          at hobj
        cases hobj
    rcases he with rfl | rfl
    · obtain ⟨r, id, rid, hb, hobj, it, hit, h1, h2, h3⟩ :=
        AddItem_amount env c db (hne _ hacc)
      have hacc1 : (AddItem env c db).1.response = some (.object status members) := hacc
      rw [hobj] at hacc1
      obtain ⟨s, t, hs1, ht, hl, hb1, hb2⟩ := hfin c id rid r 201 hacc1
      rw [ht] at h3
      refine ⟨r, s, t, hc ▸ hb, hs1, ht, hl, ⟨it, ?_, h1, h2, h3⟩, ?_, hb1, hb2⟩
      · show it ∈ (AddItem env c db).2.store.items
        rw [hit]
        exact List.mem_append_right _ (List.mem_singleton_self _)
      · intro x hx hnx
        have hx1 : x ∈ (AddItem env c db).2.store.items := hx
        rw [hit] at hx1
        rcases List.mem_append.mp hx1 with hm | hm
        · exact absurd hm hnx
        · rw [List.mem_singleton] at hm
          rw [hm]
          exact ⟨h1, h2, h3⟩
    · obtain ⟨r, id, rid, hb, hobj, d, ed, ⟨i, hi, hid⟩, hit⟩ :=
        UpdateItem_amount c db (hne _ hacc)
      have hacc1 : (UpdateItem c db).1.response = some (.object status members) := hacc
      rw [hobj] at hacc1
      obtain ⟨s, t, hs1, ht, hl, hb1, hb2⟩ := hfin c id rid r 200 hacc1
      rw [ht] at hit
      refine ⟨r, s, t, hc ▸ hb, hs1, ht, hl, ?_, ?_, hb1, hb2⟩
      · refine ⟨{ i with
            description := d, expenseDate := ed, amountHT := r.AmountHT,
            amountTTC := .finite t, vatRate := r.VATRate }, ?_, rfl, rfl, rfl⟩
        show _ ∈ (UpdateItem c db).2.store.items
        rw [hit]
        exact List.mem_map.mpr ⟨i, hi, by rw [if_pos hid]⟩
      · intro x hx hnx
        have hx1 : x ∈ (UpdateItem c db).2.store.items := hx
        rw [hit] at hx1
        obtain ⟨ei, hei, heq⟩ := List.mem_map.mp hx1
        split at heq
        · rw [← heq]
          exact ⟨rfl, rfl, rfl⟩
        · exact absurd (heq ▸ hei) hnx
  · intro status hacc
    rcases serve_cases env e req db with ⟨c, hc, hs⟩ | ⟨st, msg, hr, _⟩
    swap
    · rw [hr] at hacc
      cases hacc
    rw [hs] at hacc ⊢
    have hne : ∀ x : Context × DB, x.1.response = some (.noContent status) →
        (∀ st msg, x.1.response ≠ some (.errorJSON st msg)) ∧
          x.1.response ≠ some .recovered := by
      intro x hx
      rw [hx]
      exact ⟨fun _ _ h => (by cases h), fun h => (by cases h)⟩
    have hinf : ∀ (id rid : Int) (r : AddItemRequest) (st : Nat),
        (c.Object st [("id", .int64 id), ("report_id", .int64 rid),
          ("description", .string r.Description), ("expense_date", .string r.ExpenseDate),
          ("amount_ht", .real r.AmountHT),
          ("amount_ttc", (float64Mul r.AmountHT (float64Add 1 r.VATRate)).toAny),
          ("vat_rate", .real r.VATRate)]).response = some (.noContent status) →
        (∀ t, float64Mul r.AmountHT (float64Add 1 r.VATRate) ≠ .finite t) ∧
          (c.Object st [("id", .int64 id), ("report_id", .int64 rid),
            ("description", .string r.Description),
            ("expense_date", .string r.ExpenseDate), ("amount_ht", .real r.AmountHT),
            ("amount_ttc", (float64Mul r.AmountHT (float64Add 1 r.VATRate)).toAny),
            ("vat_rate", .real r.VATRate)]).aborted = true ∧
          (∀ s, float64Add 1 r.VATRate = .finite s →
            float64Mul r.AmountHT (float64Add 1 r.VATRate) =
              .inf (decide (r.AmountHT * s < 0)) ∧
            pow2 1024 ≤ |float64Nearest (r.AmountHT * s)|) := by
      intro id rid r st hobj
      have hnf : ∀ t, float64Mul r.AmountHT (float64Add 1 r.VATRate) ≠ .finite t := by
        intro t ht
        rw [(Object_amount c st id rid r _).1 t ht] at hobj
        cases hobj
      refine ⟨hnf, ?_, ?_⟩
      · rw [(Object_amount c st id rid r _).2 hnf]
      · intro s hs1
        rw [hs1] at hnf ⊢
        exact float64Round_not_finite (r.AmountHT * s) hnf
    rcases he with rfl | rfl
    · obtain ⟨r, id, rid, hb, hobj, it, hit, h1, h2, h3⟩ :=
        AddItem_amount env c db (hne _ hacc)
      have hacc1 : (AddItem env c db).1.response = some (.noContent status) := hacc
      rw [hobj] at hacc1
      obtain ⟨hnf, hab, hov⟩ := hinf id rid r 201 hacc1
      refine ⟨r, hc ▸ hb, hnf, ?_, ⟨it, ?_, h1, h2, h3⟩, hov⟩
      · show (AddItem env c db).1.aborted = true
        rw [hobj]
        exact hab
      · show it ∈ (AddItem env c db).2.store.items
        rw [hit]
        exact List.mem_append_right _ (List.mem_singleton_self _)
    · obtain ⟨r, id, rid, hb, hobj, d, ed, ⟨i, hi, hid⟩, hit⟩ :=
        UpdateItem_amount c db (hne _ hacc)
      have hacc1 : (UpdateItem c db).1.response = some (.noContent status) := hacc
      rw [hobj] at hacc1
      obtain ⟨hnf, hab, hov⟩ := hinf id rid r 200 hacc1
      refine ⟨r, hc ▸ hb, hnf, ?_, ?_, hov⟩
      · show (UpdateItem c db).1.aborted = true
        rw [hobj]
        exact hab
      · refine ⟨{ i with
            description := d, expenseDate := ed, amountHT := r.AmountHT,
            amountTTC := float64Mul r.AmountHT (float64Add 1 r.VATRate),
            vatRate := r.VATRate }, ?_, rfl, rfl, rfl⟩
        show _ ∈ (UpdateItem c db).2.store.items
        rw [hit]
        exact List.mem_map.mpr ⟨i, hi, by rw [if_pos hid]⟩

/-- Witness of C21, amended, on the sample store.  User 3 adds an item of 100 before tax
at the rate 0.2 to their draft report 11: the answer gives 120 as the amount with tax,
the `float64` product, and the stored item has it.  The same user adds an item of
`2 ^ 1023` at the rate 1: the answer is the bare status `201` and the product is not
finite. -/
theorem amount_ttc_rounded_witness :
    (serve sampleEnv .AddItem (userRequest 3 "11" (.addItem dinnerItem) Option.none)
        { store := workStore, failing := false }).1.response =
        some (.object 201 [("id", .int64 111), ("report_id", .int64 11),
          ("description", .string "Dinner"), ("expense_date", .string "2024-06-02"),
          ("amount_ht", .real 100), ("amount_ttc", .real 120),
          ("vat_rate", .real (float64Nearest (1 / 5)))]) ∧
      (∃ r s t, (userRequest 3 "11" (.addItem dinnerItem) Option.none).body = .addItem r ∧
        float64Add 1 r.VATRate = .finite s ∧
        float64Mul r.AmountHT (float64Add 1 r.VATRate) = .finite t ∧
        GoMap.lookup [("id", Any.int64 111), ("report_id", .int64 11),
          ("description", .string "Dinner"), ("expense_date", .string "2024-06-02"),
          ("amount_ht", .real 100), ("amount_ttc", .real 120),
          ("vat_rate", .real (float64Nearest (1 / 5)))] "amount_ttc" = some (.real t)) ∧
      (⟨111, 11, "Dinner", "2024-06-02", 100, 120, float64Nearest (1 / 5), Option.none, 0⟩ :
        ExpenseItem) ∈
        (serve sampleEnv .AddItem (userRequest 3 "11" (.addItem dinnerItem) Option.none)
          { store := workStore, failing := false }).2.store.items ∧
      (∃ r, (userRequest 3 "11" (.addItem hugeItem) Option.none).body = .addItem r ∧
        ∀ t, float64Mul r.AmountHT (float64Add 1 r.VATRate) ≠ .finite t) ∧
      float64Mul 100 (float64Add 1 (float64Nearest (1 / 5) : ℚ)) = 120 :=
  ⟨by decide!,
    ((amount_ttc_rounded sampleEnv .AddItem
      (userRequest 3 "11" (.addItem dinnerItem) Option.none)
      { store := workStore, failing := false } (Or.inl rfl)).1 201 _ (by decide!)).imp
        fun _ h1 => h1.imp fun _ h2 => h2.imp fun _ h3 => ⟨h3.1, h3.2.1, h3.2.2.1, h3.2.2.2.1⟩,
    by decide!,
    ((amount_ttc_rounded sampleEnv .AddItem
      (userRequest 3 "11" (.addItem hugeItem) Option.none)
      { store := workStore, failing := false } (Or.inl rfl)).2.1 201 (by decide!)).imp
        fun _ h1 => ⟨h1.1, h1.2.1⟩,
    (amount_ttc_rounded sampleEnv .AddItem
      (userRequest 3 "11" (.addItem dinnerItem) Option.none)
      { store := workStore, failing := false } (Or.inl rfl)).2.2⟩

/-! ## C26: the transaction of `CreateUser` -/

/-- The memberships of a transaction that succeeds: no group is listed twice, the rows
are added in the order of the list, and every listed group exists when the transaction
runs on the connection that enforces foreign keys. -/
theorem runStatements_userGroups (fk : Bool) (uid : Int) (gs : List Int) (s1 s2 : Store)
    (h : runStatements (gs.map fun g => insertUserGroup fk uid g) s1 = .ok s2) :
    s2 = { s1 with userGroups := s1.userGroups ++ gs.map fun g => ⟨uid, g⟩ } ∧
      (fk = true → ∀ g ∈ gs, ∃ grp ∈ s1.groups, grp.id = g) ∧
      (∀ g ∈ gs, (⟨uid, g⟩ : UserGroup) ∉ s1.userGroups) ∧ gs.Nodup := by
  induction gs generalizing s1 with
  | nil =>
    cases h
    refine ⟨?_, fun _ g hg => (by cases hg), fun g hg => (by cases hg), List.nodup_nil⟩
    simp
  | cons g rest ih =>
    simp only [List.map_cons, runStatements] at h
    split at h
    · cases h
    · rename_i s3 res hx
      obtain ⟨hgrp, hnew, hs3⟩ := insertUserGroup_ok fk uid g s1 s3 res hx
      obtain ⟨hs2, hall, hnot, hnd⟩ := ih s3 h
      have hgs : s3.groups = s1.groups := by rw [hs3]
      have hug : s3.userGroups = s1.userGroups ++ [⟨uid, g⟩] := by rw [hs3]
      refine ⟨?_, ?_, ?_, ?_⟩
      · rw [hs2, hs3]
        simp
      · intro hfk x hx
        rcases List.mem_cons.mp hx with rfl | hx
        · exact hgrp hfk
        · exact hgs ▸ hall hfk x hx
      · intro x hx
        rcases List.mem_cons.mp hx with rfl | hx
        · exact hnew
        · intro hm
          exact hnot x hx (by rw [hug]; exact List.mem_append_left _ hm)
      · refine List.nodup_cons.mpr ⟨?_, hnd⟩
        intro hm
        exact hnot g hm (by rw [hug]; exact List.mem_append_right _ (List.mem_singleton_self _))

theorem CreateUser_cases (env : Env) (c : Context) (db : DB) :
    (∃ st msg, CreateUser env c db = (c.JSON st msg, db)) ∨
      ∃ r hashed s1 res s2, c.request.body = .createUser r ∧
        hashPassword env.bcrypt env.salt r.Password = .ok hashed ∧
        insertUser r.Email hashed env.now db.store = .ok (s1, res) ∧
        runStatements
          (r.Groups.map fun gid => insertUserGroup env.foreignKeys res.lastInsertId gid)
          s1 = .ok s2 ∧
        CreateUser env c db =
          (c.Object 201 [("id", .int64 res.lastInsertId), ("email", .string r.Email)],
            { db with store := s2 }) := by
  unfold CreateUser
  repeat' split
  all_goals try exact Or.inl ⟨_, _, rfl⟩
  rename_i r hb _ _ hashed hh _ _ s1 res hi _ s2 hr
  exact Or.inr ⟨r, hashed, s1, res, s2, hb, hh, hi, hr, rfl⟩

/-- C26. `CreateUser` is all or nothing.  For every request and database: unless the
answer is the success answer `201`, the database after the request is the database
before it, with no user row and no membership row added; when the answer is `201`, the
database afterwards is the one before with one new user, who has the email of the
request and a fresh id, and with one membership of that user for every listed group, in
the order of the list, which is only possible when no user had the email and no group is
listed twice, and, when the transaction runs on the connection that enforces foreign
keys, when every listed group exists; and for an authenticated caller who holds
`users:create`, over a working connection, a request with an email that a user already
has, and a password that bcrypt hashes, is answered `409 email already exists`. -/
theorem CreateUser_all_or_nothing (env : Env) (req : Request) (db : DB) :
    ((∀ members, (serve env .CreateUser req db).1.response ≠ some (.object 201 members)) →
      (serve env .CreateUser req db).2 = db) ∧
    (∀ members, (serve env .CreateUser req db).1.response = some (.object 201 members) →
      ∃ r id hashed, req.body = .createUser r ∧
        members = [("id", .int64 id), ("email", .string r.Email)] ∧
        (serve env .CreateUser req db).2.store =
          { db.store with
            users := db.store.users ++ [⟨id, r.Email, hashed, env.now⟩],
            userGroups := db.store.userGroups ++ r.Groups.map fun g => ⟨id, g⟩,
            sequence := GoMap.set db.store.sequence "users" id } ∧
        (∀ u ∈ db.store.users, u.email ≠ r.Email ∧ u.id < id) ∧ r.Groups.Nodup ∧
        (env.foreignKeys = true → ∀ g ∈ r.Groups, ∃ grp ∈ db.store.groups, grp.id = g)) ∧
    (∀ U r hashed, Authenticated env req U → Holds db.store U PermUsersCreate →
      db.failing = false → req.body = .createUser r → r.Email ≠ "" → r.Password ≠ "" →
      hashPassword env.bcrypt env.salt r.Password = .ok hashed →
      (∃ u ∈ db.store.users, u.email = r.Email) →
      (serve env .CreateUser req db).1.response =
          some (.errorJSON 409 "email already exists") ∧
        (serve env .CreateUser req db).2 = db) := by
  refine ⟨?_, ?_, ?_⟩
  · intro hno
    rcases serve_cases env .CreateUser req db with ⟨c, _, hs⟩ | ⟨_, _, _, hdb⟩
    · rw [hs] at hno ⊢
      rcases CreateUser_cases env c db with ⟨st, msg, h⟩ | ⟨r, _, _, res, _, _, _, _, _, h⟩
      · show (CreateUser env c db).2 = db
        rw [h]
      · exact absurd (show (CreateUser env c db).1.response = _ by rw [h]; rfl) (hno _)
    · exact hdb
  · intro members hm
    rcases serve_cases env .CreateUser req db with ⟨c, hc, hs⟩ | ⟨_, _, hr, _⟩
    · rw [hs] at hm ⊢
      rcases CreateUser_cases env c db with ⟨st, msg, h⟩ |
        ⟨r, hashed, s1, res, s2, hb, _, hi, hrun, h⟩
      · have hm1 : (CreateUser env c db).1.response = some (.object 201 members) := hm
        rw [h] at hm1
        simp [Context.JSON] at hm1
      · have hm1 : (CreateUser env c db).1.response = some (.object 201 members) := hm
        rw [h] at hm1
        simp only [Context.Object, List.all_cons, List.all_nil, Any.encodable,
          Bool.and_self, if_true, Option.some.injEq, Response.object.injEq,
          true_and] at hm1
        obtain ⟨hne, hlt, hs1⟩ := insertUser_ok _ _ _ _ _ _ hi
        obtain ⟨hs2, hall, _, hnd⟩ := runStatements_userGroups _ _ _ _ _ hrun
        refine ⟨r, res.lastInsertId, hashed, hc ▸ hb, hm1.symm, ?_,
          fun u hu => ⟨hne u hu, hlt u hu⟩, hnd, ?_⟩
        · show (CreateUser env c db).2.store = _
          rw [h, hs2, hs1]
        · intro hfk g hg
          have := hall hfk g hg
          rw [hs1] at this
          exact this
    · rw [hr] at hm
      cases hm
  · intro U r hashed ha hh hf hb he hp hhash ⟨u, hu, hue⟩
    have hdb : db = { store := db.store, failing := false } := by
      cases db
      simp only at hf
      rw [hf]
    rw [hdb, serve_authorized env .CreateUser PermUsersCreate req U db.store rfl ha hh]
    have hany : (db.store.users.any fun x => decide (x.email = r.Email)) = true :=
      List.any_eq_true.mpr ⟨u, hu, by simpa using hue⟩
    have hbody : (authenticatedContext req U).request.body = .createUser r := hb
    simp only [Endpoint.handler, CreateUser, hbody, hhash, insertUser, hany]
    rw [if_neg (fun hc => hc.elim he hp)]
    exact ⟨rfl, rfl⟩

/-- Witness of C26, on the sample store.  The administrator creates a user with the
group 3 listed twice: the second membership violates the primary key, and nothing is
written, neither the user nor the first membership.  With the email of user 3 the answer
is 409.  With the groups 3 and 99, of which the second does not exist, on a connection
that does not enforce foreign keys, the answer is `201` and the user is stored with both
memberships. -/
theorem CreateUser_all_or_nothing_witness :
    (serve sampleEnv .CreateUser
        (userRequest 1 "" (.createUser ⟨"dave@example.com", "pw", [3, 3]⟩) Option.none)
        { store := workStore, failing := false }).2 =
        { store := workStore, failing := false } ∧
      (serve sampleEnv .CreateUser
        (userRequest 1 "" (.createUser ⟨"alice@example.com", "pw", [3]⟩) Option.none)
        { store := workStore, failing := false }).1.response =
        some (.errorJSON 409 "email already exists") ∧
      ∃ r id hashed,
        (userRequest 1 "" (.createUser ⟨"dave@example.com", "pw", [3, 99]⟩)
          Option.none).body = .createUser r ∧
        [("id", Any.int64 5), ("email", Any.string "dave@example.com")] =
          [("id", .int64 id), ("email", .string r.Email)] ∧
        (serve { sampleEnv with foreignKeys := false } .CreateUser
          (userRequest 1 "" (.createUser ⟨"dave@example.com", "pw", [3, 99]⟩) Option.none)
          { store := workStore, failing := false }).2.store =
          { workStore with
            users := workStore.users ++ [⟨id, r.Email, hashed, 0⟩],
            userGroups := workStore.userGroups ++ r.Groups.map fun g => ⟨id, g⟩,
            sequence := GoMap.set workStore.sequence "users" id } ∧
        (∀ u ∈ workStore.users, u.email ≠ r.Email ∧ u.id < id) ∧ r.Groups.Nodup ∧
        ((false : Bool) = true → ∀ g ∈ r.Groups, ∃ grp ∈ workStore.groups, grp.id = g) :=
  ⟨(CreateUser_all_or_nothing sampleEnv
      (userRequest 1 "" (.createUser ⟨"dave@example.com", "pw", [3, 3]⟩) Option.none)
      { store := workStore, failing := false }).1
      (fun members h => by
        rw [show (serve sampleEnv .CreateUser
          (userRequest 1 "" (.createUser ⟨"dave@example.com", "pw", [3, 3]⟩) Option.none)
          { store := workStore, failing := false }).1.response =
          some (.errorJSON 500 "failed to assign groups") from by rfl] at h
        cases h),
    ((CreateUser_all_or_nothing sampleEnv
      (userRequest 1 "" (.createUser ⟨"alice@example.com", "pw", [3]⟩) Option.none)
      { store := workStore, failing := false }).2.2 1 ⟨"alice@example.com", "pw", [3]⟩
      (sampleHash "pw") (by rfl) (by rfl) rfl rfl (by decide) (by decide) rfl
      ⟨⟨3, "alice@example.com", "h3", 0⟩, by simp [workStore, sampleStore], rfl⟩).1,
    (CreateUser_all_or_nothing { sampleEnv with foreignKeys := false }
      (userRequest 1 "" (.createUser ⟨"dave@example.com", "pw", [3, 99]⟩) Option.none)
      { store := workStore, failing := false }).2.1
      [("id", .int64 5), ("email", .string "dave@example.com")] (by rfl)⟩

/-! ## C27: an id that does not exist -/

theorem reportQuery_missing (s : Store) (id : Int) (h : ∀ r ∈ s.reports, r.id ≠ id) :
    reportQuery id s = [] := by
  unfold reportQuery
  rw [List.map_eq_nil_iff, List.filter_eq_nil_iff]
  intro x hx hc
  exact h x hx (by simpa using hc)

theorem itemReportQuery_missing (s : Store) (id : Int) (h : ∀ i ∈ s.items, i.id ≠ id) :
    itemReportQuery id s = [] := by
  unfold itemReportQuery
  have : s.items.filter (fun ei => decide (ei.id = id)) = [] := by
    rw [List.filter_eq_nil_iff]
    intro x hx hc
    exact h x hx (by simpa using hc)
  rw [this]
  rfl

theorem receiptQuery_missing (s : Store) (id : Int) (h : ∀ i ∈ s.items, i.id ≠ id) :
    receiptQuery id s = [] := by
  unfold receiptQuery
  have : s.items.filter (fun ei => decide (ei.id = id)) = [] := by
    rw [List.filter_eq_nil_iff]
    intro x hx hc
    exact h x hx (by simpa using hc)
  rw [this]
  rfl

/-- What a handler answers to a well-formed request for an id that does not exist. -/
theorem missing_answer (env : Env) (e : Endpoint) (st : Nat) (msg : String) (req : Request)
    (s : Store) (U : Int) (he : e.notFound = some (st, msg)) (hm : Missing e req s) :
    e.handler env (authenticatedContext req U) { store := s, failing := false } =
      ((authenticatedContext req U).JSON st msg, { store := s, failing := false }) := by
  obtain ⟨id, hid, hm⟩ := hm
  cases e <;> simp only [Endpoint.notFound, Option.some.injEq, Prod.mk.injEq] at he <;>
    try obtain ⟨rfl, rfl⟩ := he
  · simp only [Endpoint.handler, SubmitReport, authenticatedContext_param, hid,
      authenticatedContext_userID, QueryRow_working, reportQuery_missing s id hm]
    rfl
  · simp only [Endpoint.handler, DeleteReport, authenticatedContext_param, hid,
      authenticatedContext_userID, QueryRow_working, reportQuery_missing s id hm]
    rfl
  · simp only [Endpoint.handler, AddItem, authenticatedContext_param, hid,
      authenticatedContext_userID, QueryRow_working, reportQuery_missing s id hm]
    rfl
  · simp only [Endpoint.handler, UpdateItem, authenticatedContext_param, hid,
      QueryRow_working, itemReportQuery_missing s id hm]
    rfl
  · obtain ⟨hm, hfile⟩ := hm
    obtain ⟨name, hname⟩ := Option.ne_none_iff_exists'.mp hfile
    simp only [Endpoint.handler, UploadReceipt, authenticatedContext_param, hid,
      show (authenticatedContext req U).request.file = some name from hname,
      QueryRow_working, itemReportQuery_missing s id hm]
    rfl
  · simp only [Endpoint.handler, GetReceipt, authenticatedContext_param, hid,
      QueryRow_working, receiptQuery_missing s id hm]
    rfl
  · rw [settle_result env .ApproveReport "approved" (authenticatedContext req U) s id
      (by simp) hid,
      if_neg (fun ⟨r, hr, hrid, _⟩ => hm r hr hrid),
      withStatus_none s _ "approved" (fun r hr hc => hm r hr hc.1)]
  · rw [settle_result env .RejectReport "rejected" (authenticatedContext req U) s id
      (by simp) hid,
      if_neg (fun ⟨r, hr, hrid, _⟩ => hm r hr hrid),
      withStatus_none s _ "rejected" (fun r hr hc => hm r hr hc.1)]

/-- Counterexample to C27: no report of the sample store has the id 999, and the
validator, who holds `reports:approve`, gets for it from `ApproveReport` the answer
`400 report not found or not in submitted state`, which is also the answer for report
12, which exists and is approved. -/
theorem approve_missing_is_400 :
    (∀ r ∈ workStore.reports, r.id ≠ 999) ∧
      (serve sampleEnv .ApproveReport (userRequest 2 "999" .invalid Option.none)
        { store := workStore, failing := false }).1.response =
        some (.errorJSON 400 "report not found or not in submitted state") ∧
      (serve sampleEnv .ApproveReport (userRequest 2 "12" .invalid Option.none)
        { store := workStore, failing := false }).1.response =
        some (.errorJSON 400 "report not found or not in submitted state") :=
  ⟨by decide, by rfl, by rfl⟩

/-- C27, amended. On every store behind a working connection, for every authenticated
caller who holds the action of the route and every well-formed request addressed to an id
that does not exist: `SubmitReport`, `DeleteReport` and `AddItem` answer
`404 report not found`, `UpdateItem`, `UploadReceipt` and `GetReceipt` answer
`404 item not found`, and `ApproveReport` and `RejectReport` answer
`400 report not found or not in submitted state`; nothing is written. -/
theorem missing_id_answer (env : Env) (e : Endpoint) (st : Nat) (msg permission : String)
    (req : Request) (s : Store) (U : Int) (he : e.notFound = some (st, msg))
    (ha : Authenticated env req U) (hp : e.permission = some permission)
    (hh : Holds s U permission) (hm : Missing e req s) :
    (serve env e req { store := s, failing := false }).1.response =
        some (.errorJSON st msg) ∧
      (serve env e req { store := s, failing := false }).2 =
        { store := s, failing := false } ∧
      (e = Endpoint.ApproveReport ∨ e = Endpoint.RejectReport → st = 400) ∧
      (e ≠ Endpoint.ApproveReport → e ≠ Endpoint.RejectReport → st = 404) := by
  rw [serve_authorized env e permission req U s hp ha hh,
    missing_answer env e st msg req s U he hm]
  refine ⟨rfl, rfl, ?_, ?_⟩
  · rintro (rfl | rfl) <;>
      simp only [Endpoint.notFound, Option.some.injEq, Prod.mk.injEq] at he <;>
      exact he.1.symm
  · intro h1 h2
    cases e <;> simp only [Endpoint.notFound, Option.some.injEq, Prod.mk.injEq] at he <;>
      first
      | exact he.1.symm
      | exact absurd rfl h1
      | exact absurd rfl h2
      | cases he

/-- Witness of C27, amended: user 3 submits the report 999, which does not exist. -/
theorem missing_id_answer_witness :
    (serve sampleEnv .SubmitReport (userRequest 3 "999" .invalid Option.none)
        { store := workStore, failing := false }).1.response =
        some (.errorJSON 404 "report not found") ∧
      (serve sampleEnv .SubmitReport (userRequest 3 "999" .invalid Option.none)
        { store := workStore, failing := false }).2 =
        { store := workStore, failing := false } :=
  ⟨(missing_id_answer sampleEnv .SubmitReport 404 "report not found" PermReportsUpdateOwn
      (userRequest 3 "999" .invalid Option.none) workStore 3 rfl (by rfl) rfl (by rfl)
      ⟨999, by decide, by decide⟩).1,
    (missing_id_answer sampleEnv .SubmitReport 404 "report not found" PermReportsUpdateOwn
      (userRequest 3 "999" .invalid Option.none) workStore 3 rfl (by rfl) rfl (by rfl)
      ⟨999, by decide, by decide⟩).2.1⟩

/-! ## C28, C29 and C30 -/

/-- C28. `AdminListReports` does not list the submitted reports only: for the validator
of the sample store, in which report 10 is submitted, report 11 a draft and report 12
approved, the answer holds the reports 10 and 12, each once, with the id and the email of
their owner. -/
theorem admin_list_holds_approved :
    (serve sampleEnv .AdminListReports (userRequest 2 "" .invalid Option.none)
        { store := workStore, failing := false }).1.response =
      some (.rows 200
        [[.int64 10, .int64 3, .string "Trip to Lyon", .string "submitted", .int64 0,
            .string "alice@example.com"],
          [.int64 12, .int64 3, .string "Trip to Brest", .string "approved", .int64 0,
            .string "alice@example.com"]]) := by
  rfl

theorem AuthMiddleware_apiKey (secret : String) (now : Int) (c : Context) (db : DB)
    (hk : c.request.apiKey ≠ "") :
    AuthMiddleware secret now c db =
      (c.AbortWithStatusJSON 401 "API keys not supported", db) := by
  unfold AuthMiddleware
  rw [if_pos hk]

theorem AuthMiddleware_malformed (secret : String) (now : Int) (c : Context) (db : DB)
    (text : String) (hm : c.request.authorization.credentials = .malformed text) :
    ∃ msg, AuthMiddleware secret now c db = (c.AbortWithStatusJSON 401 msg, db) := by
  unfold AuthMiddleware
  split
  · exact ⟨_, rfl⟩
  · split
    · exact ⟨_, rfl⟩
    · rw [hm]
      exact ⟨_, rfl⟩

theorem serve_aborted (env : Env) (e : Endpoint) (permission msg : String) (st : Nat)
    (req : Request) (db : DB) (hp : e.permission = some permission)
    (h : AuthMiddleware env.secret env.now (Context.new req) db =
      ((Context.new req).AbortWithStatusJSON st msg, db)) :
    serve env e req db = ((Context.new req).AbortWithStatusJSON st msg, db) := by
  unfold serve Endpoint.chain
  rw [hp]
  simp only [runChain, h]
  rfl

/-- C29. On every route behind `AuthMiddleware`, every request that carries a non-empty
`X-API-Key` header is aborted with `401 API keys not supported` before the store is read,
whatever the key is and whatever else the request carries, a valid bearer token included;
and a request that presents a text that is not a JWT, as a token made by
`GenerateAPIToken` is, as its bearer token is aborted with 401 as well.  So such a token
authenticates no request, in either header. -/
theorem api_key_never_authenticates (env : Env) (e : Endpoint) (permission : String)
    (req : Request) (db : DB) (hp : e.permission = some permission) :
    (req.apiKey ≠ "" →
      serve env e req db =
        ((Context.new req).AbortWithStatusJSON 401 "API keys not supported", db)) ∧
    (∀ text, req.authorization.credentials = .malformed text →
      (serve env e req db).1.Unauthenticated ∧ (serve env e req db).2 = db) := by
  constructor
  · intro hk
    exact serve_aborted env e permission _ 401 req db hp
      (AuthMiddleware_apiKey env.secret env.now (Context.new req) db hk)
  · intro text hm
    obtain ⟨msg, h⟩ := AuthMiddleware_malformed env.secret env.now (Context.new req) db
      text hm
    rw [serve_aborted env e permission msg 401 req db hp h]
    exact ⟨⟨rfl, msg, rfl⟩, rfl⟩

/-- Witness of C29: the request of user 3 to submit their draft report 11, with a valid
bearer token and the `X-API-Key` header `00112233`, is aborted. -/
theorem api_key_never_authenticates_witness :
    serve sampleEnv .SubmitReport
        { userRequest 3 "11" .invalid Option.none with apiKey := "00112233" }
        { store := workStore, failing := false } =
      ((Context.new
          { userRequest 3 "11" .invalid Option.none with apiKey := "00112233" }
        ).AbortWithStatusJSON 401 "API keys not supported",
        { store := workStore, failing := false }) :=
  (api_key_never_authenticates sampleEnv .SubmitReport PermReportsUpdateOwn
    { userRequest 3 "11" .invalid Option.none with apiKey := "00112233" }
    { store := workStore, failing := false } rfl).1 (by decide)

/-- C30. `UpdateItem` stores a blank description: user 3 sends for item 110 of their
draft report 11 a body whose description is two spaces; the answer is 200 and the item is
stored with that description, which `AddItem` refuses. -/
theorem update_stores_blank_description :
    (serve sampleEnv .UpdateItem
        (userRequest 3 "110" (.addItem ⟨"  ", "2024-06-01", 80, 1 / 8⟩) Option.none)
        { store := workStore, failing := false }).1.response =
        some (.object 200 [("id", .int64 110), ("report_id", .int64 11),
          ("description", .string "  "), ("expense_date", .string "2024-06-01"),
          ("amount_ht", .real 80), ("amount_ttc", .real 90), ("vat_rate", .real (1 / 8))]) ∧
      (⟨110, 11, "  ", "2024-06-01", 80, 90, 1 / 8, Option.none, 0⟩ : ExpenseItem) ∈
        (serve sampleEnv .UpdateItem
          (userRequest 3 "110" (.addItem ⟨"  ", "2024-06-01", 80, 1 / 8⟩) Option.none)
          { store := workStore, failing := false }).2.store.items ∧
      TrimSpace "  " = "" ∧
      (serve sampleEnv .AddItem
        (userRequest 3 "11" (.addItem ⟨"  ", "2024-06-01", 80, 1 / 8⟩) Option.none)
        { store := workStore, failing := false }).1.response =
        some (.errorJSON 400 "description and expense_date are required") := by
  refine ⟨by decide!, by decide!, by decide, by rfl⟩

end ExpenseApp
